import Mathlib

/-!
Verification development for the AthiVegam engine's archetype-based ECS store
(`src/AthiVegam/ECS/`) and its job scheduler with hazard tracking
(`src/AthiVegam/Jobs/`).  The C++ data structures and operations are shallowly
embedded as executable Lean definitions; machine integers are modelled as `Nat`
with explicit `% 2^32` where the code relies on `uint32_t` wrap-around, and
component payloads are modelled one abstract value per (column, slot), since
every copy in the code (`std::memcpy` of `meta->size` bytes at
`offset + slot * size`) moves a whole component value between slots.
-/

namespace AthiVegam

/-! ## Component signatures (`ComponentTraits.hpp`)

`ComponentSignature` is a sorted, deduplicated `std::vector<ComponentTypeID>`;
`Add` pushes the id and re-sorts when absent, `Remove` erases the first
occurrence, `Contains` is a linear find. -/

abbrev ComponentTypeID := Nat

/-- Insert `x` into a sorted list, keeping it sorted (models the effect of
`std::ranges::sort` after `push_back` on an already-sorted vector). -/
def insertSorted (x : Nat) : List Nat → List Nat
  | [] => [x]
  | y :: ys => if x ≤ y then x :: y :: ys else y :: insertSorted x ys

/-- Insertion sort; the model of `std::ranges::sort` on a signature vector. -/
def sortNat : List Nat → List Nat
  | [] => []
  | x :: xs => insertSorted x (sortNat xs)

/-- `ComponentSignature::Add<T>`: append the type id and sort, unless already
present. -/
def sigAdd (t : Nat) (s : List Nat) : List Nat :=
  if s.contains t then s else sortNat (s ++ [t])

/-- `ComponentSignature::Remove<T>`: erase the first occurrence. -/
def sigRemove (t : Nat) (s : List Nat) : List Nat :=
  s.erase t

/-! ## Component registry (`ComponentRegistry.hpp`)

The registry maps a type id to its metadata.  Only the size matters for the
store's layout; the three type-erased callables are always populated together
with the size, so "metadata present" doubles for "copyConstruct non-null". -/

abbrev Registry := List (Nat × Nat)

/-- `ComponentRegistry::GetMetadata`: first entry with the given type id. -/
def regFind : Registry → Nat → Option Nat
  | [], _ => none
  | (t, sz) :: rest, tid => if t = tid then some sz else regFind rest tid

/-- `ComponentRegistry::Register<T>`: no-op when already registered. -/
def regRegister (reg : Registry) (tid sz : Nat) : Registry :=
  if (regFind reg tid).isSome then reg else reg ++ [(tid, sz)]

/-! ## Chunk layout (`Archetype.hpp`, `Chunk::CalculateLayout`) -/

/-- `Chunk::CHUNK_SIZE` (64 KiB). -/
def CHUNK_SIZE : Nat := 64 * 1024

/-- `(x + 63) & ~63`: round up to the 64-byte `Chunk::ALIGNMENT`. -/
def alignUp64 (x : Nat) : Nat := (x + 63) / 64 * 64

/-- One `Chunk::ColumnInfo` plus the column's payload: `vals` holds one
abstract component value per slot (the bytes at `offset + slot * size`). -/
structure Column where
  typeID : Nat
  offset : Nat
  size : Nat
  vals : List Nat
  deriving Repr, DecidableEq, Inhabited

/-- The loop over `signature.GetTypeIDs()` in `CalculateLayout` collecting
`(typeID, size)` pairs; the `Bool` is false when a type id has no registered
metadata, in which case the code stops early (keeping the prefix already
collected) and sets capacity to 0. -/
def collectCols (reg : Registry) : List Nat → (List (Nat × Nat) × Bool)
  | [] => ([], true)
  | t :: ts =>
    match regFind reg t with
    | none => ([], false)
    | some sz =>
      let r := collectCols reg ts
      ((t, sz) :: r.1, r.2)

/-- Assign the column byte offsets: consecutive, each start rounded up to 64
bytes, starting after the entity-index array. -/
def assignOffsets (cap : Nat) : Nat → List (Nat × Nat) → List Column
  | _, [] => []
  | off, (t, sz) :: rest =>
    { typeID := t, offset := off, size := sz, vals := List.replicate cap 0 }
      :: assignOffsets cap (alignUp64 (off + sz * cap)) rest

/-- The per-entity byte cost: `sizeof(uint32_t)` for the entity index plus the
sum of the component sizes. -/
def perEntitySize (cols : List (Nat × Nat)) : Nat :=
  4 + (cols.map Prod.snd).sum

/-- `_capacity = (CHUNK_SIZE - 256) / perEntitySize` (256 bytes reserved). -/
def chunkCapacityOf (cols : List (Nat × Nat)) : Nat :=
  (CHUNK_SIZE - 256) / perEntitySize cols

/-- The capacity a chunk built for `sig` gets (0 when some type in `sig` is
unregistered). -/
def chunkCapacity (reg : Registry) (sig : List Nat) : Nat :=
  let c := collectCols reg sig
  if c.2 then chunkCapacityOf c.1 else 0

/-- A `Chunk`: column descriptors with payloads, the entity-index array, the
live count and the fixed capacity. -/
structure Chunk where
  columns : List Column
  entityIndices : List Nat
  count : Nat
  capacity : Nat
  deriving Repr, DecidableEq, Inhabited

/-- `Chunk::Chunk` + `CalculateLayout`: compute the layout once and zero the
buffer (`memset`); on an unregistered type the capacity is 0, the entity-index
array is never resized, and the columns collected so far keep offset 0. -/
def mkChunk (reg : Registry) (sig : List Nat) : Chunk :=
  let c := collectCols reg sig
  if c.2 then
    let cap := chunkCapacityOf c.1
    { columns := assignOffsets cap (alignUp64 (4 * cap)) c.1
      entityIndices := List.replicate cap 0
      count := 0
      capacity := cap }
  else
    { columns := c.1.map fun p =>
        { typeID := p.1, offset := 0, size := p.2, vals := [] }
      entityIndices := []
      count := 0
      capacity := 0 }

/-- `Chunk::IsFull`. -/
def Chunk.isFull (c : Chunk) : Bool := c.capacity ≤ c.count

/-- `Chunk::AddEntity`: append at `count`, or report full (`-1` becomes
`none`). -/
def Chunk.addEntity (c : Chunk) (entityIndex : Nat) : Chunk × Option Nat :=
  if c.isFull then (c, none)
  else
    ({ c with entityIndices := c.entityIndices.set c.count entityIndex
              count := c.count + 1 }, some c.count)

/-- Write the payload of the first column with the given type id at `idx`
(the effect of a `memcpy` into the column found by a linear scan). -/
def setFirstCol : List Column → Nat → Nat → Nat → List Column
  | [], _, _, _ => []
  | col :: rest, tid, idx, v =>
    if col.typeID = tid then { col with vals := col.vals.set idx v } :: rest
    else col :: setFirstCol rest tid idx v

/-- `Chunk::RemoveEntity`: swap the removed slot with the last occupied slot
across every column, decrement the count, and return the entity index that was
moved in — 0 both when no swap occurred and when the swapped entity is entity
number 0. -/
def Chunk.removeEntity (c : Chunk) (idx : Nat) : Chunk × Nat :=
  if c.count ≤ idx then (c, 0)
  else
    let lastIndex := c.count - 1
    if idx = lastIndex then ({ c with count := lastIndex }, 0)
    else
      let swapped := c.entityIndices.getD lastIndex 0
      ({ c with
          entityIndices := c.entityIndices.set idx swapped
          columns := c.columns.map fun col =>
            { col with vals := col.vals.set idx (col.vals.getD lastIndex 0) }
          count := lastIndex }, swapped)

/-- `Chunk::GetComponent<T>`: value behind the returned pointer, or `none`
when the column is missing or the slot is not occupied. -/
def Chunk.getComponentVal (c : Chunk) (tid idx : Nat) : Option Nat :=
  match c.columns.find? (fun col => col.typeID = tid) with
  | none => none
  | some col => if idx < c.count then some (col.vals.getD idx 0) else none

/-- Write through the pointer returned by `Chunk::GetComponent<T>`. -/
def Chunk.setComponentVal (c : Chunk) (tid idx v : Nat) : Chunk :=
  { c with columns := setFirstCol c.columns tid idx v }

/-- `Chunk::GetEntityIndex`. -/
def Chunk.getEntityIndex (c : Chunk) (chunkIndex : Nat) : Nat :=
  if chunkIndex < c.count then c.entityIndices.getD chunkIndex 0 else 0

/-! ## Archetype (`Archetype.hpp`)

An archetype owns a growable list of chunks sharing one signature.  Chunks are
only ever appended, so list positions model the stable `Chunk*` pointers. -/

structure Archetype where
  signature : List Nat
  chunks : List Chunk
  deriving Repr, DecidableEq, Inhabited

/-- Index of the first chunk with free capacity, if any. -/
def findAvailIdx (chunks : List Chunk) : Option Nat :=
  chunks.findIdx? (fun c => !c.isFull)

/-- `Archetype::GetAvailableChunk`: linear scan for a chunk with space, else
append a freshly constructed chunk; returns the updated archetype and the
index (the stable address) of the chosen chunk. -/
def Archetype.getAvailableChunk (a : Archetype) (reg : Registry) :
    Archetype × Nat :=
  match findAvailIdx a.chunks with
  | some i => (a, i)
  | none => ({ a with chunks := a.chunks ++ [mkChunk reg a.signature] },
             a.chunks.length)

/-! ## World (`World.hpp`)

Entity handles are `{index : u32, version : u32}`; both are `Nat` here with
versions incremented modulo `2^32`.  `EntityRecord` stores raw `Archetype*`
and `Chunk*` pointers that are always null or non-null together; they are
modelled as an optional pair of stable indices. -/

/-- 2^32, the wrap-around modulus of the `uint32_t` version counter. -/
def U32MOD : Nat := 4294967296

structure Entity where
  index : Nat := 4294967295
  version : Nat := 0
  deriving Repr, DecidableEq, Inhabited

inductive Error where
  | InvalidEntity
  | AlreadyDestroyed
  | EntityLimitReached
  | ComponentNotFound
  | ComponentAlreadyExists
  deriving Repr, DecidableEq, Inhabited

/-- `World::EntityRecord`: `arch = some (archetypeIdx, chunkIdx)` models the
non-null `archetype`/`chunk` pointer pair. -/
structure EntityRecord where
  arch : Option (Nat × Nat) := none
  indexInChunk : Nat := 0
  deriving Repr, DecidableEq, Inhabited

structure World where
  registry : Registry := []
  maxEntities : Nat := 0
  versions : List Nat := []
  freeList : List Nat := []
  alive : List Bool := []
  aliveCount : Nat := 0
  archetypes : List Archetype := []
  entityRecords : List EntityRecord := []
  deriving Repr, DecidableEq, Inhabited

/-- `std::vector::resize(n)` with value-initialised elements. -/
def resizeTo (l : List EntityRecord) (n : Nat) : List EntityRecord :=
  l.take n ++ List.replicate (n - l.length) default

/-- `World::IsAlive`. -/
def World.isAlive (w : World) (e : Entity) : Bool :=
  decide (e.index < w.versions.length) && w.alive.getD e.index false
    && decide (w.versions.getD e.index 0 = e.version)

/-- `World::Validate`. -/
def World.validate (w : World) (e : Entity) : Except Error Unit :=
  if w.isAlive e then .ok () else .error .InvalidEntity

/-- `World::CreateEntity`: pop the back of the free list (reusing the already
incremented version), or append a fresh slot at version 1; a bounded world
that is full returns the sentinel `Entity{}`. -/
def World.createEntity (w : World) : World × Entity :=
  match w.freeList.getLast? with
  | some idx =>
    ({ w with
        freeList := w.freeList.dropLast
        alive := w.alive.set idx true
        aliveCount := w.aliveCount + 1
        entityRecords :=
          if w.entityRecords.length ≤ idx then resizeTo w.entityRecords (idx + 1)
          else w.entityRecords },
     { index := idx, version := w.versions.getD idx 0 })
  | none =>
    if w.maxEntities ≠ 0 ∧ w.maxEntities ≤ w.versions.length then (w, {})
    else
      let idx := w.versions.length
      ({ w with
          versions := w.versions ++ [1]
          alive := w.alive ++ [true]
          aliveCount := w.aliveCount + 1
          entityRecords := resizeTo w.entityRecords (idx + 1) },
       { index := idx, version := 1 })

/-- Replace the chunk at position `ci` of the archetype at position `ai`
(the effect of mutating through a stable `Chunk*`). -/
def World.setChunk (w : World) (ai ci : Nat) (c : Chunk) : World :=
  { w with archetypes :=
      (w.archetypes.set ai
        { w.archetypes.getD ai default with
            chunks := (w.archetypes.getD ai default).chunks.set ci c }) }

/-- The chunk-removal block of `World::DestroyEntity`: remove the entity from
its chunk, repair the swapped entity's record only when the returned index is
non-zero, and clear the record. -/
def World.destroyRemoveFromChunk (w : World) (e : Entity) : World :=
  if e.index < w.entityRecords.length then
    let record := w.entityRecords.getD e.index default
    match record.arch with
    | some (ai, ci) =>
      let ch := (w.archetypes.getD ai default).chunks.getD ci default
      let r := ch.removeEntity record.indexInChunk
      let wa := w.setChunk ai ci r.1
      let wb :=
        if r.2 ≠ 0 ∧ r.2 < wa.entityRecords.length then
          { wa with entityRecords :=
              (wa.entityRecords.set r.2
                { wa.entityRecords.getD r.2 default with
                    indexInChunk := record.indexInChunk }) }
        else wa
      { wb with entityRecords := wb.entityRecords.set e.index default }
    | none => w
  else w

/-- `World::DestroyEntity`: validate, remove from the chunk, flip the alive
flag, bump the version modulo `2^32`, and push the index onto the free
list. -/
def World.destroyEntity (w : World) (e : Entity) : World × Option Error :=
  if w.versions.length ≤ e.index then (w, some .InvalidEntity)
  else if w.alive.getD e.index false = false ∨
      w.versions.getD e.index 0 ≠ e.version then
    (w, some .AlreadyDestroyed)
  else
    let w1 := w.destroyRemoveFromChunk e
    ({ w1 with
        alive := w1.alive.set e.index false
        aliveCount := w1.aliveCount - 1
        versions := w1.versions.set e.index
          ((w1.versions.getD e.index 0 + 1) % U32MOD)
        freeList := w1.freeList ++ [e.index] }, none)

/-- `World::Has<T>`: alive, record non-null, and the archetype's signature
contains the type id. -/
def World.hasComponent (w : World) (tid : Nat) (e : Entity) : Bool :=
  if w.isAlive e = false then false
  else if w.entityRecords.length ≤ e.index then false
  else
    match (w.entityRecords.getD e.index default).arch with
    | none => false
    | some (ai, _) => ((w.archetypes.getD ai default).signature).contains tid

/-- `World::Get<T>`: the value behind the returned pointer. -/
def World.getComponent (w : World) (tid : Nat) (e : Entity) :
    Except Error Nat :=
  if w.isAlive e = false then .error .InvalidEntity
  else if w.entityRecords.length ≤ e.index then .error .ComponentNotFound
  else
    let record := w.entityRecords.getD e.index default
    match record.arch with
    | none => .error .ComponentNotFound
    | some (ai, ci) =>
      let ch := (w.archetypes.getD ai default).chunks.getD ci default
      match ch.getComponentVal tid record.indexInChunk with
      | none => .error .ComponentNotFound
      | some v => .ok v

/-- Write through the pointer returned by `World::Get<T>` (the
`*componentResult.value() = value` step of `World::Add<T>`). -/
def World.setComponent (w : World) (tid : Nat) (e : Entity) (v : Nat) : World :=
  let record := w.entityRecords.getD e.index default
  match record.arch with
  | none => w
  | some (ai, ci) =>
    let ch := (w.archetypes.getD ai default).chunks.getD ci default
    w.setChunk ai ci (ch.setComponentVal tid record.indexInChunk v)

/-- `World::GetOrCreateArchetype`: find the archetype with this exact
signature, else append a fresh empty one; returns its stable index. -/
def World.getOrCreateArchetype (w : World) (sig : List Nat) : World × Nat :=
  match w.archetypes.findIdx? (fun a => a.signature = sig) with
  | some i => (w, i)
  | none => ({ w with archetypes := w.archetypes ++ [{ signature := sig, chunks := [] }] },
             w.archetypes.length)

/-- The body of the copy loop in `World::MoveEntity`: for each type id of the
old signature also present in the new signature and registered, copy the value
from the old chunk's column at `oldIndex` into the new chunk's column at
`newIndex` (a `memcpy` of `meta->size` bytes). -/
def moveCopyStep (oldAi oldCi oldIndex nAi nCi newIndex : Nat)
    (newSig : List Nat) (reg : Registry) (acc : World) (tid : Nat) : World :=
  if newSig.contains tid then
    match regFind reg tid with
    | none => acc
    | some _ =>
      let oc := (acc.archetypes.getD oldAi default).chunks.getD oldCi default
      let nc := (acc.archetypes.getD nAi default).chunks.getD nCi default
      match oc.columns.find? (fun col => col.typeID = tid),
            nc.columns.find? (fun col => col.typeID = tid) with
      | some ocol, some _ =>
        acc.setChunk nAi nCi
          { nc with columns :=
              setFirstCol nc.columns tid newIndex (ocol.vals.getD oldIndex 0) }
      | _, _ => acc
  else acc

/-- `World::MoveEntity`: allocate a slot in the destination archetype's
available chunk (bailing out, after the possible chunk creation, when the
chunk reports full); update the entity's record before touching the old
chunk; copy the shared component values; remove the entity from the old chunk
and repair the swapped entity's record only when the returned index is
non-zero. -/
def World.moveEntity (w : World) (e : Entity) (nAi : Nat) : World :=
  let record := w.entityRecords.getD e.index default
  let oldLoc := record.arch
  let oldIndex := record.indexInChunk
  let a := w.archetypes.getD nAi default
  let av := a.getAvailableChunk w.registry
  let nCi := av.2
  let ch := av.1.chunks.getD nCi default
  let add := ch.addEntity e.index
  let w0 := { w with archetypes :=
      w.archetypes.set nAi ({ av.1 with chunks := av.1.chunks.set nCi add.1 }) }
  match add.2 with
  | none => w0
  | some newIndex =>
    let w1 := { w0 with entityRecords :=
        (w0.entityRecords.set e.index
          { arch := some (nAi, nCi), indexInChunk := newIndex }) }
    match oldLoc with
    | none => w1
    | some (oldAi, oldCi) =>
      let oldSig := (w.archetypes.getD oldAi default).signature
      let newSig := (w.archetypes.getD nAi default).signature
      let w2 := oldSig.foldl
        (moveCopyStep oldAi oldCi oldIndex nAi nCi newIndex newSig w.registry) w1
      let oc := (w2.archetypes.getD oldAi default).chunks.getD oldCi default
      let r := oc.removeEntity oldIndex
      let w3 := w2.setChunk oldAi oldCi r.1
      if r.2 ≠ 0 ∧ r.2 < w3.entityRecords.length then
        { w3 with entityRecords :=
            (w3.entityRecords.set r.2
              { w3.entityRecords.getD r.2 default with indexInChunk := oldIndex }) }
      else w3

/-- The second phase of `World::MoveEntity` (after the destination slot is
allocated and the record updated): copy the shared component values, remove
the entity from its old chunk, and repair the swapped entity's record only
when the returned index is non-zero. -/
def movePhase2 (w1 : World) (oldAi oldCi s nAi nCi k : Nat)
    (oldSig newSig : List Nat) (reg : Registry) : World :=
  let w2 := oldSig.foldl (moveCopyStep oldAi oldCi s nAi nCi k newSig reg) w1
  let oc := (w2.archetypes.getD oldAi default).chunks.getD oldCi default
  let r := oc.removeEntity s
  let w3 := w2.setChunk oldAi oldCi r.1
  if r.2 ≠ 0 ∧ r.2 < w3.entityRecords.length then
    { w3 with entityRecords :=
        (w3.entityRecords.set r.2
          { w3.entityRecords.getD r.2 default with indexInChunk := s }) }
  else w3

/-- The entity's current signature as `World::Add<T>` reads it: the
archetype's signature when the record is non-null, else empty. -/
def currentSigOf (w : World) (e : Entity) : List Nat :=
  if e.index < w.entityRecords.length then
    match (w.entityRecords.getD e.index default).arch with
    | some (ai, _) => (w.archetypes.getD ai default).signature
    | none => []
  else []

/-- `World::Add<T>`: validate, register the type, fail with
`ComponentAlreadyExists` when the signature already has it, else migrate to
`currentSignature ∪ {T}` and write the value through `Get<T>` (skipping the
write when `Get` fails, exactly as the code does). -/
def World.add (w : World) (tid sz : Nat) (v : Nat) (e : Entity) :
    World × Option Error :=
  if w.isAlive e = false then (w, some .InvalidEntity)
  else
    let w0 := { w with registry := regRegister w.registry tid sz }
    if w0.hasComponent tid e then (w0, some .ComponentAlreadyExists)
    else
      let newSig := sigAdd tid (currentSigOf w0 e)
      let g := w0.getOrCreateArchetype newSig
      let w2 := g.1.moveEntity e g.2
      match w2.getComponent tid e with
      | .ok _ => (w2.setComponent tid e v, none)
      | .error _ => (w2, none)

/-- `World::Remove<T>`: validate, fail with `ComponentNotFound` when absent,
else migrate to `currentSignature − {T}`. -/
def World.remove (w : World) (tid : Nat) (e : Entity) : World × Option Error :=
  if w.isAlive e = false then (w, some .InvalidEntity)
  else if w.hasComponent tid e = false then (w, some .ComponentNotFound)
  else
    let record := w.entityRecords.getD e.index default
    let newSig :=
      match record.arch with
      | some (ai, _) => sigRemove tid (w.archetypes.getD ai default).signature
      | none => []
    let g := w.getOrCreateArchetype newSig
    (g.1.moveEntity e g.2, none)

/-! ## Concrete scenario worlds used by the claim theorems below -/

/-- First entity of an empty world: handle `{0, 1}`. -/
def c1Step1 : World × Entity := World.createEntity {}
/-- Second entity: handle `{1, 1}`. -/
def c1Step2 : World × Entity := c1Step1.1.createEntity
/-- Add component `T` (id 1, 32636 bytes, chunk capacity 2) to entity 1. -/
def c1Step3 : World × Option Error := c1Step2.1.add 1 32636 10 c1Step2.2
/-- Add the same component to entity 0: it lands in slot 1 of the chunk. -/
def c1Step4 : World × Option Error := c1Step3.1.add 1 32636 20 c1Step1.2
/-- Destroy entity 1 (slot 0): the chunk swaps entity 0 into slot 0 and
returns its index 0, which the caller treats as "no swap". -/
def c1Step5 : World × Option Error := c1Step4.1.destroyEntity c1Step2.2
/-- The chunk shared by the two entities. -/
def c1Chunk : Chunk := ((c1Step5.1.archetypes.getD 0 default).chunks.getD 0 default)

/-- Registry of five components sized 21, 21, 21, 21 and 41 bytes. -/
def c2Registry : Registry := [(1, 21), (2, 21), (3, 21), (4, 21), (5, 41)]
/-- The chunk built for the five-component signature. -/
def c2Chunk : Chunk := mkChunk c2Registry [1, 2, 3, 4, 5]

/-- One entity in an empty world. -/
def c4Step1 : World × Entity := World.createEntity {}
/-- Give it component `A` (id 1, 16000 bytes). -/
def c4Step2 : World × Option Error := c4Step1.1.add 1 16000 111 c4Step1.2
/-- Give it component `B` (id 2, 16000 bytes). -/
def c4Step3 : World × Option Error := c4Step2.1.add 2 16000 222 c4Step1.2
/-- `Add<C>` with `sizeof(C) = 40000`: the combined per-entity size 52004
exceeds 65280, so the destination chunk's capacity is 0. -/
def c4StepAdd : World × Option Error := c4Step3.1.add 3 40000 333 c4Step1.2
/-- The subsequent `Remove<C>`. -/
def c4StepRem : World × Option Error := c4StepAdd.1.remove 3 c4Step1.2

/-- One entity in an empty world. -/
def c6Step1 : World × Entity := World.createEntity {}
/-- `Add<T>` with `sizeof(T) = 65277`: per-entity size 65281 > 65280, so the
chunk capacity is 0 and `AddEntity` always fails. -/
def c6StepAdd : World × Option Error := c6Step1.1.add 1 65277 42 c6Step1.2

/-! ## Job scheduler (`Jobs/Scheduler.cpp`)

The scheduler is modelled as a transition system over a sequential abstraction
of its shared state: per-worker deques of job handles, the deferred queue, the
job table and the statistics counters.  A job body is abstracted to the one
bit the scheduler inspects: whether running it throws (`fails`).
`ExecuteJobDirect` is a total Lean function — the catch-all in the code means
job execution always returns normally to the scheduler. -/

inductive JobStatus where
  | Pending
  | Running
  | Completed
  | Cancelled
  deriving Repr, DecidableEq, Inhabited

/-- One `Scheduler::Job`: the abstracted body and the status field. -/
structure SJob where
  fails : Bool
  status : JobStatus
  deriving Repr, DecidableEq, Inhabited

/-- `Scheduler::Stats`, including the `jobsFailed` counter that
`Scheduler.cpp` increments. -/
structure SchedStats where
  jobsSubmitted : Nat := 0
  jobsExecuted : Nat := 0
  jobsFailed : Nat := 0
  jobsStolen : Nat := 0
  jobsCancelled : Nat := 0
  deriving Repr, DecidableEq, Inhabited

/-- The scheduler state: `jobs` is the job table indexed by handle (the
monotonically increasing `_nextJobIndex`), `queues` the per-worker deques of
handles, `deferred` the hazard-deferred queue. -/
structure SchedState where
  jobs : List SJob := []
  queues : List (List Nat) := []
  deferred : List Nat := []
  stats : SchedStats := {}
  deriving Repr, DecidableEq, Inhabited

/-- `Scheduler::Submit`: allocate the job (status `Pending`), count it as
submitted, and append its handle to the target worker's queue. -/
def SchedState.submit (st : SchedState) (fails : Bool) (target : Nat) :
    SchedState :=
  let h := st.jobs.length
  { st with
      jobs := st.jobs ++ [{ fails := fails, status := .Pending }]
      stats := { st.stats with jobsSubmitted := st.stats.jobsSubmitted + 1 }
      queues := st.queues.set target (st.queues.getD target [] ++ [h]) }

/-- `Scheduler::ExecuteJobDirect`: run the body inside a catch-all, store
`Completed` whether or not it threw, and bump `jobsFailed` for a throwing
body, `jobsExecuted` otherwise. -/
def SchedState.executeJobDirect (st : SchedState) (h : Nat) : SchedState :=
  let job := st.jobs.getD h default
  { st with
      jobs := st.jobs.set h { job with status := .Completed }
      stats :=
        if job.fails then
          { st.stats with jobsFailed := st.stats.jobsFailed + 1 }
        else
          { st.stats with jobsExecuted := st.stats.jobsExecuted + 1 } }

/-- The exit condition of the spin loop in `Scheduler::Wait`: the handle is
unknown, or the job's status is `Completed` or `Cancelled`. -/
def SchedState.waitReturns (st : SchedState) (h : Nat) : Bool :=
  if st.jobs.length ≤ h then true
  else
    let s := (st.jobs.getD h default).status
    s = .Completed || s = .Cancelled

/-- Admissible interleavings of the scheduler: submissions, a worker running
the job at the front of its own queue, a thief running (and counting as
stolen) the job at the back of another worker's queue, `ExecuteJob` deferring
a hazard-blocked job, and `TryExecuteDeferredJobs` running a deferred job. -/
inductive SchedStep : SchedState → SchedState → Prop where
  | submit (st : SchedState) (fails : Bool) (target : Nat) :
      SchedStep st (st.submit fails target)
  | runLocal (st : SchedState) (wkr : Nat) (h : Nat) (rest : List Nat)
      (hq : st.queues.getD wkr [] = h :: rest) :
      SchedStep st
        (SchedState.executeJobDirect
          { st with queues := st.queues.set wkr rest } h)
  | runStolen (st : SchedState) (wkr : Nat) (h : Nat) (rest : List Nat)
      (hq : st.queues.getD wkr [] = rest ++ [h]) :
      SchedStep st
        (SchedState.executeJobDirect
          { st with
              queues := st.queues.set wkr rest
              stats := { st.stats with
                  jobsStolen := st.stats.jobsStolen + 1 } } h)
  | deferJob (st : SchedState) (wkr : Nat) (h : Nat) (rest : List Nat)
      (hq : st.queues.getD wkr [] = h :: rest) :
      SchedStep st
        { st with
            queues := st.queues.set wkr rest
            deferred := st.deferred ++ [h] }
  | runDeferred (st : SchedState) (h : Nat) (pre post : List Nat)
      (hq : st.deferred = pre ++ h :: post) :
      SchedStep st
        (SchedState.executeJobDirect
          { st with deferred := pre ++ post } h)

/-- Reachability from the freshly initialised scheduler
(`queues` may have any number of idle workers). -/
def SchedReachable (workers : Nat) (st : SchedState) : Prop :=
  Relation.ReflTransGen SchedStep
    { jobs := [], queues := List.replicate workers [], deferred := [],
      stats := {} } st

/-- Scenario for the C3 counterexample: one worker, one submitted job whose
body throws, run from the local queue. -/
def c3Init : SchedState :=
  { jobs := [], queues := [[]], deferred := [], stats := {} }
/-- Submit the throwing job. -/
def c3Submitted : SchedState := c3Init.submit true 0
/-- The worker pops and executes it. -/
def c3Done : SchedState :=
  SchedState.executeJobDirect
    { c3Submitted with queues := c3Submitted.queues.set 0 [] } 0

/-- The multiset of handles currently parked in worker queues or in the
deferred queue. -/
def PH (st : SchedState) : List Nat := st.queues.flatten ++ st.deferred

/-- Inductive invariant of the scheduler model: the submitted counter equals
the job-table size, the executed/failed counters count the completed jobs
with non-throwing/throwing bodies, every parked handle denotes a pending job,
no handle is parked twice, and every job is `Pending` or `Completed`. -/
def SchedInv (st : SchedState) : Prop :=
  st.stats.jobsSubmitted = st.jobs.length ∧
  st.stats.jobsExecuted =
    (st.jobs.filter (fun j => decide (j.status = .Completed) && !j.fails)).length ∧
  st.stats.jobsFailed =
    (st.jobs.filter (fun j => decide (j.status = .Completed) && j.fails)).length ∧
  (∀ h ∈ PH st, h < st.jobs.length ∧
    (st.jobs.getD h default).status = .Pending) ∧
  (PH st).Nodup ∧
  (∀ j ∈ st.jobs, j.status = .Pending ∨ j.status = .Completed)

/-- Scenario A (for the C8 witness): two entities each holding a `Position`
component (type id 1, 32636 bytes so a chunk holds two entities). -/
def c8Step1 : World × Entity := World.createEntity {}
/-- The second entity. -/
def c8Step2 : World × Entity := c8Step1.1.createEntity
/-- `Position{1,0,0}` on entity 0. -/
def c8Step3 : World × Option Error := c8Step2.1.add 1 32636 1 c8Step1.2
/-- `Position{2,0,0}` on entity 1. -/
def c8Step4 : World × Option Error := c8Step3.1.add 1 32636 2 c8Step2.2

/-- A one-job scheduler state whose job body throws (for the C9 witness). -/
def c9State : SchedState :=
  { jobs := [{ fails := true, status := .Pending }], queues := [[]],
    deferred := [], stats := { jobsSubmitted := 1 } }

/-! ## Hazard tracker (`Jobs/HazardTracker.cpp`)

`_resources` is an `unordered_map<ResourceKey, ResourceAccess>`, modelled as
an association list with at most one entry per key (entries are only created
through `operator[]`, which inserts when absent). -/

/-- `ResourceAccess`: reader count and writing flag. -/
structure RAccess where
  readCount : Nat := 0
  writing : Bool := false
  deriving Repr, DecidableEq, Inhabited

abbrev HazardMap := List (Nat × RAccess)

/-- `_resources.find(key)`. -/
def hazFind : HazardMap → Nat → Option RAccess
  | [], _ => none
  | (k2, a) :: rest, k => if k2 = k then some a else hazFind rest k

/-- `_resources[key]` followed by a mutation: update the entry in place, or
insert a default-constructed one first. -/
def hazUpdate : HazardMap → Nat → (RAccess → RAccess) → HazardMap
  | [], k, f => [(k, f {})]
  | (k2, a) :: rest, k, f =>
    if k2 = k then (k2, f a) :: rest else (k2, a) :: hazUpdate rest k f

/-- `_resources.erase(it)` for the entry with the given key. -/
def hazErase : HazardMap → Nat → HazardMap
  | [], _ => []
  | (k2, a) :: rest, k => if k2 = k then rest else (k2, a) :: hazErase rest k

/-- `HazardTracker::CanExecute`: a write key conflicts when its resource has
readers or a writer; a read key conflicts when its resource has a writer. -/
def canExecute (m : HazardMap) (reads writes : List Nat) : Bool :=
  writes.all (fun k =>
    match hazFind m k with
    | none => true
    | some a => !(decide (0 < a.readCount) || a.writing)) &&
  reads.all (fun k =>
    match hazFind m k with
    | none => true
    | some a => !a.writing)

/-- `HazardTracker::AcquireResources`: bump reader counts, then set writing
flags, unconditionally. -/
def acquireResources (m : HazardMap) (reads writes : List Nat) : HazardMap :=
  let m1 := reads.foldl
    (fun acc k => hazUpdate acc k
      (fun a => { a with readCount := a.readCount + 1 })) m
  writes.foldl
    (fun acc k => hazUpdate acc k (fun a => { a with writing := true })) m1

/-- The per-key body of the read-release loop in
`HazardTracker::ReleaseResources`. -/
def hazReleaseRead (m : HazardMap) (k : Nat) : HazardMap :=
  match hazFind m k with
  | none => m
  | some a =>
    let a2 := if 0 < a.readCount then { a with readCount := a.readCount - 1 }
              else a
    if a2.readCount = 0 ∧ a2.writing = false then hazErase m k
    else hazUpdate m k (fun _ => a2)

/-- The per-key body of the write-release loop in
`HazardTracker::ReleaseResources`. -/
def hazReleaseWrite (m : HazardMap) (k : Nat) : HazardMap :=
  match hazFind m k with
  | none => m
  | some a =>
    let a2 := { a with writing := false }
    if a2.readCount = 0 ∧ a2.writing = false then hazErase m k
    else hazUpdate m k (fun _ => a2)

/-- `HazardTracker::ReleaseResources`: release the reads, then the writes,
erasing entries that become unused. -/
def releaseResources (m : HazardMap) (reads writes : List Nat) : HazardMap :=
  writes.foldl hazReleaseWrite (reads.foldl hazReleaseRead m)

/-- Sequential tracker histories in which every `AcquireResources` call is
made immediately after `CanExecute` returned true for the same key sets with
disjoint reads and writes (the amended discipline), and `ReleaseResources`
may be called at any point. -/
inductive HazReachable : HazardMap → Prop where
  | init : HazReachable []
  | acquire (m : HazardMap) (rs ws : List Nat) : HazReachable m →
      canExecute m rs ws = true → List.Disjoint rs ws →
      HazReachable (acquireResources m rs ws)
  | release (m : HazardMap) (rs ws : List Nat) : HazReachable m →
      HazReachable (releaseResources m rs ws)

/-- The raw value of the column with the given type id at a slot, ignoring
the count check (the bytes at `offset + idx * size`). -/
def colVal (c : Chunk) (tid idx : Nat) : Nat :=
  match c.columns.find? (fun col => col.typeID = tid) with
  | none => 0
  | some col => col.vals.getD idx 0

/-- Well-formedness of a chunk for a signature: the columns are the
signature's type ids in order, every column holds one value per slot up to
the capacity, the entity-index array spans the capacity, the count is within
capacity, and the capacity is the one `CalculateLayout` computes. -/
def ChunkWF (reg : Registry) (sig : List Nat) (c : Chunk) : Prop :=
  c.columns.map Column.typeID = sig ∧
  (∀ col ∈ c.columns, col.vals.length = c.capacity) ∧
  c.entityIndices.length = c.capacity ∧
  c.count ≤ c.capacity ∧
  c.capacity = chunkCapacity reg sig

/-! ## Query matching (`Query.hpp`, `World::QueryComponents`) -/

/-- `SignatureMatches<IncludeTs...>`: every required type id is contained in
the signature. -/
def signatureMatches (incl : List Nat) (sig : List Nat) : Bool :=
  incl.all (fun t => sig.contains t)

/-- `SignatureMatches<IncludeTs..., Exclude<ExcludeTs...>>`: all required
present and no excluded present. -/
def signatureMatchesEx (incl excl : List Nat) (sig : List Nat) : Bool :=
  incl.all (fun t => sig.contains t) && !(excl.any (fun t => sig.contains t))

/-- The archetype positions `World::QueryComponents` selects (the
`matchingArchetypes` vector, by stable index). -/
def World.queryArchIdx (w : World) (incl excl : List Nat) : List Nat :=
  (List.range w.archetypes.length).filter
    (fun i => signatureMatchesEx incl excl
      (w.archetypes.getD i default).signature)

/-- `Query::EntityCount`: sum of the chunk counts over the matching
archetypes. -/
def World.queryEntityCount (w : World) (incl excl : List Nat) : Nat :=
  ((w.queryArchIdx incl excl).map (fun i =>
    (((w.archetypes.getD i default).chunks).map (fun c => c.count)).sum)).sum

/-- The entity indices the query's chunk iteration visits: for each matching
archetype, each chunk's occupied slots in order. -/
def World.queryEntities (w : World) (incl excl : List Nat) : List Nat :=
  (w.queryArchIdx incl excl).flatMap (fun i =>
    ((w.archetypes.getD i default).chunks).flatMap
      (fun c => c.entityIndices.take c.count))

/-- Record/slot consistency (spec invariant 3): every occupied chunk slot
names an entity whose record points back at exactly that slot, every
non-null record names an occupied slot holding that entity, and chunk counts
never exceed the entity-index array. -/
def World.SlotConsistent (w : World) : Prop :=
  (∀ ai, ai < w.archetypes.length →
    ∀ ci, ci < (w.archetypes.getD ai default).chunks.length →
    ∀ t, t < ((w.archetypes.getD ai default).chunks.getD ci default).count →
    (((w.archetypes.getD ai default).chunks.getD ci
        default).entityIndices.getD t 0 < w.entityRecords.length ∧
      w.entityRecords.getD
        (((w.archetypes.getD ai default).chunks.getD ci
          default).entityIndices.getD t 0) default =
        { arch := some (ai, ci), indexInChunk := t })) ∧
  (∀ eIdx, eIdx < w.entityRecords.length →
    ∀ ai ci, (w.entityRecords.getD eIdx default).arch = some (ai, ci) →
      ai < w.archetypes.length ∧
      ci < (w.archetypes.getD ai default).chunks.length ∧
      (w.entityRecords.getD eIdx default).indexInChunk <
        ((w.archetypes.getD ai default).chunks.getD ci default).count ∧
      ((w.archetypes.getD ai default).chunks.getD ci
        default).entityIndices.getD
          ((w.entityRecords.getD eIdx default).indexInChunk) 0 = eIdx) ∧
  (∀ ai, ai < w.archetypes.length →
    ∀ ci, ci < (w.archetypes.getD ai default).chunks.length →
    ((w.archetypes.getD ai default).chunks.getD ci default).count ≤
      ((w.archetypes.getD ai default).chunks.getD ci
        default).entityIndices.length)

/-- Global well-formedness: every archetype's signature types are
registered and deduplicated, every chunk is well formed for its archetype's
signature, records and slots are mutually consistent, and the record table
spans the entity table. -/
def WorldWF (w : World) : Prop :=
  (∀ ai, ai < w.archetypes.length →
    (∀ t ∈ (w.archetypes.getD ai default).signature,
      (regFind w.registry t).isSome = true) ∧
    (w.archetypes.getD ai default).signature.Nodup ∧
    ∀ ci, ci < (w.archetypes.getD ai default).chunks.length →
      ChunkWF w.registry (w.archetypes.getD ai default).signature
        ((w.archetypes.getD ai default).chunks.getD ci default)) ∧
  w.SlotConsistent ∧
  w.entityRecords.length = w.versions.length

/-! ## Parallel query model (`Query.hpp` ForEach, `ParallelQuery.hpp` Execute)

`Query::ForEach` walks the matching chunks in order and calls the user
function once per live entity with references into that entity's components;
`ParallelQueryExecutor::Execute` submits one job per non-empty chunk, each
job iterating its chunk and calling the same function, and falls back to
`ForEach` when the scheduler is not initialized.  The claim restricts the
user function to one that mutates only the queried components of the entity
it is invoked on, so the per-entity state is `α` and the function `α → α`;
a world slice is the list of chunks, each a list of per-entity states. -/

/-- The loop `for (i = 0; i < count; ++i) func(columns[i]...)`: mutate the
entity at slot `i` in place, then continue. -/
def iterChunkGo {α : Type} [Inhabited α] (f : α → α) (ch : List α) (i : Nat) :
    List α :=
  if h : i < ch.length then
    iterChunkGo f (ch.set i (f (ch.getD i default))) (i + 1)
  else ch
termination_by ch.length - i
decreasing_by simp [List.length_set]; omega

def iterChunk {α : Type} [Inhabited α] (f : α → α) (ch : List α) : List α :=
  iterChunkGo f ch 0

def chunkUpd {α : Type} [Inhabited α] (f : α → α) (chunks : List (List α))
    (i : Nat) : List (List α) :=
  chunks.set i (iterChunk f (chunks.getD i []))

def seqForEach {α : Type} [Inhabited α] (f : α → α)
    (chunks : List (List α)) : List (List α) :=
  (List.range chunks.length).foldl (chunkUpd f) chunks

def parExecute {α : Type} [Inhabited α] (f : α → α)
    (chunks : List (List α)) (order : List Nat) : List (List α) :=
  order.foldl (chunkUpd f) chunks

def nonEmptyChunkIdx {α : Type} (chunks : List (List α)) : List Nat :=
  (List.range chunks.length).filter (fun i => !(chunks.getD i []).isEmpty)

def executeModel {α : Type} [Inhabited α] (schedulerInitialized : Bool)
    (order : List Nat) (f : α → α) (chunks : List (List α)) :
    List (List α) :=
  if schedulerInitialized then parExecute f chunks order
  else seqForEach f chunks


/-! ## List helper lemmas -/

theorem getD_set_self {α : Type} (l : List α) (a d : α) (i : Nat)
    (h : i < l.length) : (l.set i a).getD i d = a := by
  rw [List.getD_eq_getElem?_getD, List.getElem?_set]
  simp [h]

theorem getD_set_ne {α : Type} (l : List α) (a d : α) (i j : Nat)
    (h : i ≠ j) : (l.set i a).getD j d = l.getD j d := by
  rw [List.getD_eq_getElem?_getD, List.getElem?_set]
  simp [h, List.getD_eq_getElem?_getD]

/-! ## Frame lemmas for the World operations -/

/-- The chunk-removal block of `DestroyEntity` touches only the archetypes and
the entity records. -/
theorem destroyRemoveFromChunk_eq (w : World) (e : Entity) :
    ∃ arch recs, w.destroyRemoveFromChunk e =
      { w with archetypes := arch, entityRecords := recs } := by
  unfold World.destroyRemoveFromChunk
  split
  · dsimp only
    rcases h2 : (w.entityRecords.getD e.index default).arch with _ | ⟨ai, ci⟩
    · simp only [h2]
      exact ⟨_, _, rfl⟩
    · simp only [h2]
      split
      · exact ⟨_, _, rfl⟩
      · exact ⟨_, _, rfl⟩
  · exact ⟨_, _, rfl⟩

/-- Field-level frame facts derived from `destroyRemoveFromChunk_eq`. -/
theorem destroyRemoveFromChunk_frame (w : World) (e : Entity) :
    (w.destroyRemoveFromChunk e).versions = w.versions ∧
    (w.destroyRemoveFromChunk e).alive = w.alive ∧
    (w.destroyRemoveFromChunk e).freeList = w.freeList ∧
    (w.destroyRemoveFromChunk e).aliveCount = w.aliveCount ∧
    (w.destroyRemoveFromChunk e).maxEntities = w.maxEntities ∧
    (w.destroyRemoveFromChunk e).registry = w.registry := by
  obtain ⟨a, r, h⟩ := destroyRemoveFromChunk_eq w e
  rw [h]
  exact ⟨rfl, rfl, rfl, rfl, rfl, rfl⟩

/-- A successful `DestroyEntity`: no error, version bumped modulo `2^32`,
alive flag cleared, index pushed onto the free list. -/
theorem destroyEntity_success (w : World) (e : Entity)
    (h1 : e.index < w.versions.length)
    (h2 : w.alive.getD e.index false = true)
    (h3 : w.versions.getD e.index 0 = e.version) :
    (w.destroyEntity e).2 = none ∧
    (w.destroyEntity e).1.versions =
      w.versions.set e.index ((e.version + 1) % U32MOD) ∧
    (w.destroyEntity e).1.alive = w.alive.set e.index false ∧
    (w.destroyEntity e).1.freeList = w.freeList ++ [e.index] ∧
    (w.destroyEntity e).1.maxEntities = w.maxEntities := by
  obtain ⟨hv, ha, hf, hc, hm, hr⟩ := destroyRemoveFromChunk_frame w e
  unfold World.destroyEntity
  rw [if_neg (by omega)]
  rw [if_neg (by rw [h2, h3]; simp)]
  refine ⟨rfl, ?_, ?_, ?_, ?_⟩ <;> simp only [hv, ha, hf, hm, h3]

/-! ## C1: chunk-slot back-reference invariant -/

/-- C1: the back-reference invariant is violated by the code when the
swapped-in entity has index 0.  In the concrete run (create entities 0 and 1,
give component 1 first to entity 1 then to entity 0, destroy entity 1) the
chunk swap moves entity 0 from slot 1 into slot 0 and returns 0, which
`World::DestroyEntity` treats as "no swap": entity 0 stays alive with a
non-null record naming slot 1, but the chunk's only occupied slot is slot 0
(which does hold entity 0's index), so `Has` reports the component while
`Get` fails. -/
theorem C1_backref_invariant_violated_for_entity_zero :
    c1Step5.2 = none ∧
    c1Step5.1.isAlive { index := 0, version := 1 } = true ∧
    c1Step5.1.entityRecords.getD 0 default =
      { arch := some (0, 0), indexInChunk := 1 } ∧
    c1Chunk.count = 1 ∧
    c1Chunk.entityIndices.getD 0 0 = 0 ∧
    c1Step5.1.hasComponent 1 { index := 0, version := 1 } = true ∧
    c1Step5.1.getComponent 1 { index := 0, version := 1 } =
      .error .ComponentNotFound :=
  ⟨rfl, rfl, rfl, rfl, rfl, rfl, rfl⟩

/-! ## C2: column layout versus the 64 KiB chunk -/

/-- C2: the computed column layout does not always fit in the 64 KiB chunk.
For five registered components of sizes 21, 21, 21, 21 and 41 the capacity is
506 and the last column starts at byte 44800, so its slot 505 occupies bytes
65505–65545 while the chunk buffer ends at byte 65535. -/
theorem C2_layout_exceeds_chunk_size :
    c2Chunk.capacity = 506 ∧
    (c2Chunk.columns.getD 4 default).offset = 44800 ∧
    (c2Chunk.columns.getD 4 default).size = 41 ∧
    505 < c2Chunk.capacity ∧
    CHUNK_SIZE <
      (c2Chunk.columns.getD 4 default).offset +
        (c2Chunk.columns.getD 4 default).size * c2Chunk.capacity ∧
    CHUNK_SIZE <
      (c2Chunk.columns.getD 4 default).offset + 41 * 505 + 41 :=
  ⟨rfl, rfl, rfl, by decide, by decide, by decide⟩

/-! ## C4 / C6 counterexamples: capacity-0 destination chunks -/

/-- C4 as stated is false: with components A (16000 bytes) and B (16000
bytes) on the entity, `Add<C>` for a 40000-byte C reports success even though
the destination chunk's capacity is 0 and the migration silently bailed out,
and the subsequent `Remove<C>` fails with `ComponentNotFound`. -/
theorem C4_add_remove_roundtrip_fails_for_oversized_component :
    c4Step2.2 = none ∧ c4Step3.2 = none ∧
    c4StepAdd.2 = none ∧
    c4StepRem.2 = some .ComponentNotFound :=
  ⟨rfl, rfl, rfl, rfl⟩

/-- C6 as stated is false: on an entity with no components, `Add<T>` for a
65277-byte T (per-entity size 65281 > 65280, chunk capacity 0) returns
success, yet the following `Get<T>` fails with `ComponentNotFound`. -/
theorem C6_add_succeeds_but_get_fails_for_oversized_component :
    c6StepAdd.2 = none ∧
    c6StepAdd.1.getComponent 1 c6Step1.2 = .error .ComponentNotFound :=
  ⟨rfl, rfl⟩

/-! ## C5: generation-counter recycling -/

/-- `CreateEntity` on a world whose free list ends in `i`: pops `i` and
reuses the already incremented version. -/
theorem createEntity_pop (w : World) (i : Nat)
    (h : w.freeList.getLast? = some i) :
    (w.createEntity).2 = { index := i, version := w.versions.getD i 0 } ∧
    (w.createEntity).1.versions = w.versions ∧
    (w.createEntity).1.alive = w.alive.set i true := by
  unfold World.createEntity
  rw [h]
  exact ⟨rfl, rfl, rfl⟩

/-- A handle that `IsAlive` rejects is rejected uniformly by `Has`, `Get`
and `Validate`. -/
theorem rejected_of_not_alive (w : World) (e : Entity) (tid : Nat)
    (h : w.isAlive e = false) :
    w.hasComponent tid e = false ∧
    w.getComponent tid e = .error .InvalidEntity ∧
    w.validate e = .error .InvalidEntity := by
  refine ⟨?_, ?_, ?_⟩
  · unfold World.hasComponent; rw [h]; rfl
  · unfold World.getComponent; rw [h]; rfl
  · unfold World.validate; rw [h]; rfl

/-- A handle with a mismatched stored version is not alive. -/
theorem isAlive_false_of_version_ne (w : World) (e : Entity)
    (h : w.versions.getD e.index 0 ≠ e.version) : w.isAlive e = false := by
  unfold World.isAlive
  simp only [Bool.and_eq_false_iff]
  right
  simpa using h

/-- An out-of-range handle is not alive. -/
theorem isAlive_false_of_oob (w : World) (e : Entity)
    (h : w.versions.length ≤ e.index) : w.isAlive e = false := by
  unfold World.isAlive
  simp only [Bool.and_eq_false_iff]
  left
  left
  simpa using Nat.not_lt.mpr h

/-- C5: destroying an alive handle `{i, v}` bumps slot `i`'s stored version
to `(v+1) % 2^32`, the immediately following `CreateEntity` pops `i` from the
free list and returns `{i, (v+1) % 2^32}`, and afterwards the stale handle
`{i, v}` is rejected by `Has` (false) and by `Get`/`Validate`
(`InvalidEntity`), exactly as any out-of-range handle is. -/
theorem C5_generation_recycling (w : World) (e : Entity) (tid : Nat)
    (halive : w.isAlive e = true) (hv : e.version < U32MOD) :
    (w.destroyEntity e).2 = none ∧
    (w.destroyEntity e).1.versions.getD e.index 0 = (e.version + 1) % U32MOD ∧
    ((w.destroyEntity e).1.createEntity).2 =
      { index := e.index, version := (e.version + 1) % U32MOD } ∧
    (((w.destroyEntity e).1.createEntity).1.isAlive e = false ∧
      ((w.destroyEntity e).1.createEntity).1.hasComponent tid e = false ∧
      ((w.destroyEntity e).1.createEntity).1.getComponent tid e =
        .error .InvalidEntity ∧
      ((w.destroyEntity e).1.createEntity).1.validate e =
        .error .InvalidEntity) ∧
    ∀ eo : Entity,
      ((w.destroyEntity e).1.createEntity).1.versions.length ≤ eo.index →
      ((w.destroyEntity e).1.createEntity).1.isAlive eo = false ∧
      ((w.destroyEntity e).1.createEntity).1.hasComponent tid eo = false ∧
      ((w.destroyEntity e).1.createEntity).1.getComponent tid eo =
        .error .InvalidEntity ∧
      ((w.destroyEntity e).1.createEntity).1.validate eo =
        .error .InvalidEntity := by
  have hiff := halive
  unfold World.isAlive at hiff
  simp only [Bool.and_eq_true, decide_eq_true_eq] at hiff
  obtain ⟨⟨h1, h2⟩, h3⟩ := hiff
  obtain ⟨hd0, hdv, hda, hdf, hdm⟩ := destroyEntity_success w e h1 h2 h3
  have hvset : (w.destroyEntity e).1.versions.getD e.index 0 =
      (e.version + 1) % U32MOD := by
    rw [hdv]; exact getD_set_self _ _ _ _ h1
  have hlast : (w.destroyEntity e).1.freeList.getLast? = some e.index := by
    rw [hdf]; exact List.getLast?_concat _
  obtain ⟨hce, hcv, hca⟩ := createEntity_pop (w.destroyEntity e).1 e.index hlast
  have hne : (e.version + 1) % U32MOD ≠ e.version := by
    unfold U32MOD at hv ⊢; omega
  have hstale : ((w.destroyEntity e).1.createEntity).1.isAlive e = false := by
    apply isAlive_false_of_version_ne
    rw [hcv, hvset]
    exact hne
  obtain ⟨hh, hg, hva⟩ :=
    rejected_of_not_alive ((w.destroyEntity e).1.createEntity).1 e tid hstale
  refine ⟨hd0, hvset, ?_, ⟨hstale, hh, hg, hva⟩, ?_⟩
  · rw [hce, hvset]
  · intro eo ho
    have hoob : ((w.destroyEntity e).1.createEntity).1.isAlive eo = false :=
      isAlive_false_of_oob _ _ ho
    obtain ⟨hh2, hg2, hva2⟩ :=
      rejected_of_not_alive ((w.destroyEntity e).1.createEntity).1 eo tid hoob
    exact ⟨hoob, hh2, hg2, hva2⟩

/-- Witness for C5: the spec's concrete scenario B — destroy `{0, 1}` in a
one-entity world, then `CreateEntity` returns `{0, 2}` and the stale handle
is rejected. -/
theorem C5_generation_recycling_witness :
    ((World.createEntity {}).1.isAlive (World.createEntity {}).2 = true ∧
      (World.createEntity {}).2.version < U32MOD) ∧
    (((World.createEntity {}).1.destroyEntity
        (World.createEntity {}).2).1.createEntity).2 =
      { index := 0, version := 2 } := by
  have h := C5_generation_recycling (World.createEntity {}).1
    (World.createEntity {}).2 0 (by decide) (by decide)
  exact ⟨⟨by decide, by decide⟩, h.2.2.1⟩


/-! ## Scheduler invariant lemmas (C3, C9) -/

/-- Extracting one handle out of one worker queue permutes the flattened
queue contents accordingly. -/
theorem flatten_extract_perm (qs : List (List Nat)) (t a : Nat)
    (pre post : List Nat) (hq : qs.getD t [] = pre ++ a :: post)
    (ht : t < qs.length) :
    qs.flatten.Perm (a :: (qs.set t (pre ++ post)).flatten) := by
  induction qs generalizing t with
  | nil => simp at ht
  | cons y ys ih =>
    cases t with
    | zero =>
      simp only [List.getD_cons_zero] at hq
      subst hq
      simp only [List.set_cons_zero, List.flatten_cons, List.append_assoc,
        List.cons_append]
      exact List.perm_middle
    | succ t =>
      simp only [List.getD_cons_succ] at hq
      have ht2 : t < ys.length := by simpa using ht
      have h2 := ih t hq ht2
      simp only [List.set_cons_succ, List.flatten_cons]
      exact (h2.append_left y).trans List.perm_middle

/-- Appending one handle to one worker queue permutes the flattened queue
contents accordingly. -/
theorem flatten_set_append_perm (qs : List (List Nat)) (t x : Nat)
    (ht : t < qs.length) :
    (qs.set t (qs.getD t [] ++ [x])).flatten.Perm (x :: qs.flatten) := by
  induction qs generalizing t with
  | nil => simp at ht
  | cons y ys ih =>
    cases t with
    | zero =>
      simp only [List.getD_cons_zero, List.set_cons_zero, List.flatten_cons,
        List.append_assoc, List.singleton_append]
      exact List.perm_middle
    | succ t =>
      have ht2 : t < ys.length := by simpa using ht
      simp only [List.getD_cons_succ, List.set_cons_succ, List.flatten_cons]
      exact ((ih t ht2).append_left y).trans List.perm_middle

/-- Replacing one list element changes a filtered length by the difference of
the old and the new element's contribution. -/
theorem length_filter_set (l : List SJob) (i : Nat) (a : SJob)
    (p : SJob → Bool) (hlt : i < l.length) :
    ((l.set i a).filter p).length + (if p (l.getD i default) then 1 else 0) =
    (l.filter p).length + (if p a then 1 else 0) := by
  induction l generalizing i with
  | nil => simp at hlt
  | cons x xs ih =>
    cases i with
    | zero =>
      rcases Bool.eq_false_or_eq_true (p a) with hpa | hpa <;>
        rcases Bool.eq_false_or_eq_true (p x) with hpx | hpx <;>
          simp [List.filter_cons, hpa, hpx]
    | succ i =>
      have hlt2 : i < xs.length := by simpa using hlt
      have h2 := ih i hlt2
      rcases Bool.eq_false_or_eq_true (p x) with hpx | hpx <;>
        simp only [List.set_cons_succ, List.getD_cons_succ, List.filter_cons,
          hpx, if_true, if_false, Bool.false_eq_true, List.length_cons] <;>
        omega


/-- `length_filter_set` with the two contributions given as hypotheses. -/
theorem length_filter_setV (l : List SJob) (i : Nat) (a : SJob)
    (p : SJob → Bool) (hlt : i < l.length) (bOld bNew : Bool)
    (hOld : p (l.getD i default) = bOld) (hNew : p a = bNew) :
    ((l.set i a).filter p).length + (if bOld then 1 else 0) =
    (l.filter p).length + (if bNew then 1 else 0) := by
  subst hOld
  subst hNew
  exact length_filter_set l i a p hlt

theorem filter_exec_set_of_fails (l : List SJob) (i : Nat) (hlt : i < l.length)
    (hpend : (l.getD i default).status = .Pending)
    (hf : (l.getD i default).fails = true) :
    ((l.set i { l.getD i default with status := .Completed }).filter
      (fun j => decide (j.status = .Completed) && !j.fails)).length =
    (l.filter (fun j => decide (j.status = .Completed) && !j.fails)).length := by
  have h2 := length_filter_setV l i
    { l.getD i default with status := .Completed }
    (fun j => decide (j.status = .Completed) && !j.fails) hlt false false
    (by show (decide ((l.getD i default).status = JobStatus.Completed) &&
          !(l.getD i default).fails) = false
        rw [hpend]; rfl)
    (by show (decide (JobStatus.Completed = JobStatus.Completed) &&
          !(l.getD i default).fails) = false
        rw [hf]; rfl)
  simpa using h2

theorem filter_fail_set_of_fails (l : List SJob) (i : Nat) (hlt : i < l.length)
    (hpend : (l.getD i default).status = .Pending)
    (hf : (l.getD i default).fails = true) :
    ((l.set i { l.getD i default with status := .Completed }).filter
      (fun j => decide (j.status = .Completed) && j.fails)).length =
    (l.filter (fun j => decide (j.status = .Completed) && j.fails)).length + 1 := by
  have h2 := length_filter_setV l i
    { l.getD i default with status := .Completed }
    (fun j => decide (j.status = .Completed) && j.fails) hlt false true
    (by show (decide ((l.getD i default).status = JobStatus.Completed) &&
          (l.getD i default).fails) = false
        rw [hpend]; rfl)
    (by show (decide (JobStatus.Completed = JobStatus.Completed) &&
          (l.getD i default).fails) = true
        rw [hf]; rfl)
  simpa using h2

theorem filter_exec_set_of_ok (l : List SJob) (i : Nat) (hlt : i < l.length)
    (hpend : (l.getD i default).status = .Pending)
    (hf : (l.getD i default).fails = false) :
    ((l.set i { l.getD i default with status := .Completed }).filter
      (fun j => decide (j.status = .Completed) && !j.fails)).length =
    (l.filter (fun j => decide (j.status = .Completed) && !j.fails)).length + 1 := by
  have h2 := length_filter_setV l i
    { l.getD i default with status := .Completed }
    (fun j => decide (j.status = .Completed) && !j.fails) hlt false true
    (by show (decide ((l.getD i default).status = JobStatus.Completed) &&
          !(l.getD i default).fails) = false
        rw [hpend]; rfl)
    (by show (decide (JobStatus.Completed = JobStatus.Completed) &&
          !(l.getD i default).fails) = true
        rw [hf]; rfl)
  simpa using h2

theorem filter_fail_set_of_ok (l : List SJob) (i : Nat) (hlt : i < l.length)
    (hpend : (l.getD i default).status = .Pending)
    (hf : (l.getD i default).fails = false) :
    ((l.set i { l.getD i default with status := .Completed }).filter
      (fun j => decide (j.status = .Completed) && j.fails)).length =
    (l.filter (fun j => decide (j.status = .Completed) && j.fails)).length := by
  have h2 := length_filter_setV l i
    { l.getD i default with status := .Completed }
    (fun j => decide (j.status = .Completed) && j.fails) hlt false false
    (by show (decide ((l.getD i default).status = JobStatus.Completed) &&
          (l.getD i default).fails) = false
        rw [hpend]; rfl)
    (by show (decide (JobStatus.Completed = JobStatus.Completed) &&
          (l.getD i default).fails) = false
        rw [hf]; rfl)
  simpa using h2


/-- `ExecuteJobDirect` on a throwing job, written out. -/
theorem executeJobDirect_fails_eq (st : SchedState) (h : Nat)
    (hf : (st.jobs.getD h default).fails = true) :
    st.executeJobDirect h =
      { st with
          jobs := st.jobs.set h
            ({ st.jobs.getD h default with status := .Completed })
          stats := { st.stats with jobsFailed := st.stats.jobsFailed + 1 } } := by
  unfold SchedState.executeJobDirect
  simp only [hf, if_true]


/-- `ExecuteJobDirect` on a non-throwing job, written out. -/
theorem executeJobDirect_ok_eq (st : SchedState) (h : Nat)
    (hf : (st.jobs.getD h default).fails = false) :
    st.executeJobDirect h =
      { st with
          jobs := st.jobs.set h
            ({ st.jobs.getD h default with status := .Completed })
          stats := { st.stats with jobsExecuted := st.stats.jobsExecuted + 1 } } := by
  unfold SchedState.executeJobDirect
  simp only [hf, if_false, Bool.false_eq_true]

/-- A fresh scheduler has empty worker queues. -/
theorem flatten_replicate_nil (n : Nat) :
    (List.replicate n ([] : List Nat)).flatten = [] := by
  induction n with
  | zero => rfl
  | succ n ih => simpa using ih

/-- `ExecuteJobDirect` on a pending, un-parked job preserves the scheduler
invariant. -/
theorem schedInv_execute (st : SchedState) (h : Nat)
    (hinv : SchedInv st) (hlt : h < st.jobs.length)
    (hpend : (st.jobs.getD h default).status = .Pending)
    (hnotin : h ∉ PH st) :
    SchedInv (st.executeJobDirect h) := by
  obtain ⟨i1, i2, i3, i4, i5, i6⟩ := hinv
  have hcommon : (∀ h2 ∈ PH (st.executeJobDirect h),
      h2 < (st.executeJobDirect h).jobs.length ∧
      ((st.executeJobDirect h).jobs.getD h2 default).status = .Pending) ∧
      (PH (st.executeJobDirect h)).Nodup ∧
      (∀ j ∈ (st.executeJobDirect h).jobs,
        j.status = .Pending ∨ j.status = .Completed) := by
    rcases Bool.eq_false_or_eq_true ((st.jobs.getD h default).fails) with hf | hf
    all_goals
      first
      | rw [executeJobDirect_fails_eq st h hf]
      | rw [executeJobDirect_ok_eq st h hf]
    all_goals
      refine ⟨?_, ?_, ?_⟩
      · intro h2 hmem
        have hm2 : h2 ∈ PH st := hmem
        obtain ⟨hb, hp⟩ := i4 h2 hm2
        have hne : h ≠ h2 := fun he => hnotin (he ▸ hm2)
        refine ⟨by simpa [List.length_set] using hb, ?_⟩
        rw [getD_set_ne _ _ _ _ _ hne]
        exact hp
      · exact i5
      · intro j hj
        rcases List.mem_or_eq_of_mem_set hj with hmem | rfl
        · exact i6 j hmem
        · exact Or.inr rfl
  obtain ⟨c4, c5, c6⟩ := hcommon
  rcases Bool.eq_false_or_eq_true ((st.jobs.getD h default).fails) with hf | hf
  · rw [executeJobDirect_fails_eq st h hf] at c4 c5 c6 ⊢
    refine ⟨by simpa [List.length_set] using i1, ?_, ?_, c4, c5, c6⟩
    · show st.stats.jobsExecuted = _
      rw [filter_exec_set_of_fails st.jobs h hlt hpend hf]
      exact i2
    · show st.stats.jobsFailed + 1 = _
      rw [filter_fail_set_of_fails st.jobs h hlt hpend hf]
      omega
  · rw [executeJobDirect_ok_eq st h hf] at c4 c5 c6 ⊢
    refine ⟨by simpa [List.length_set] using i1, ?_, ?_, c4, c5, c6⟩
    · show st.stats.jobsExecuted + 1 = _
      rw [filter_exec_set_of_ok st.jobs h hlt hpend hf]
      omega
    · show st.stats.jobsFailed = _
      rw [filter_fail_set_of_ok st.jobs h hlt hpend hf]
      exact i3

/-- Appending one element and reading it back. -/
theorem getD_concat_length {α : Type} (l : List α) (a d : α) :
    (l ++ [a]).getD l.length d = a := by
  induction l with
  | nil => rfl
  | cons x xs ih => simpa using ih

/-- One scheduler step preserves the invariant. -/
theorem schedInv_step {st st2 : SchedState} (hstep : SchedStep st st2)
    (hinv : SchedInv st) : SchedInv st2 := by
  obtain ⟨i1, i2, i3, i4, i5, i6⟩ := hinv
  cases hstep with
  | submit fails target =>
    by_cases ht : target < st.queues.length
    · have hflat := flatten_set_append_perm st.queues target st.jobs.length ht
      have hperm : (PH (st.submit fails target)).Perm
          (st.jobs.length :: PH st) := hflat.append_right st.deferred
      refine ⟨?_, ?_, ?_, ?_, ?_, ?_⟩
      · simp [SchedState.submit, i1]
      · simp [SchedState.submit, List.filter_append, i2]
      · simp [SchedState.submit, List.filter_append, i3]
      · intro h hmem
        rcases List.mem_cons.mp (hperm.mem_iff.mp hmem) with rfl | hq2
        · refine ⟨by simp [SchedState.submit], ?_⟩
          show ((st.jobs ++ [({ fails := fails, status := .Pending } : SJob)]).getD
            st.jobs.length default).status = .Pending
          rw [getD_concat_length]
        · obtain ⟨hb, hp⟩ := i4 h hq2
          refine ⟨by simp [SchedState.submit]; omega, ?_⟩
          show ((st.jobs ++ [({ fails := fails, status := .Pending } : SJob)]).getD
            h default).status = .Pending
          rw [List.getD_append _ _ _ _ hb]
          exact hp
      · apply hperm.nodup_iff.mpr
        refine List.nodup_cons.mpr ⟨?_, i5⟩
        intro hmem
        obtain ⟨hb, _⟩ := i4 _ hmem
        omega
      · intro j hj
        rcases List.mem_append.mp hj with hmem | hnew
        · exact i6 j hmem
        · simp only [List.mem_singleton] at hnew
          subst hnew
          exact Or.inl rfl
    · have hset : st.queues.set target (st.queues.getD target [] ++
          [st.jobs.length]) = st.queues := by
        apply List.set_eq_of_length_le
        omega
      have hph : PH (st.submit fails target) = PH st := by
        show (st.queues.set target (st.queues.getD target [] ++
          [st.jobs.length])).flatten ++ st.deferred = _
        rw [hset]
        rfl
      refine ⟨?_, ?_, ?_, ?_, ?_, ?_⟩
      · simp [SchedState.submit, i1]
      · simp [SchedState.submit, List.filter_append, i2]
      · simp [SchedState.submit, List.filter_append, i3]
      · intro h hmem
        rw [hph] at hmem
        obtain ⟨hb, hp⟩ := i4 h hmem
        refine ⟨by simp [SchedState.submit]; omega, ?_⟩
        show ((st.jobs ++ [({ fails := fails, status := .Pending } : SJob)]).getD
          h default).status = .Pending
        rw [List.getD_append _ _ _ _ hb]
        exact hp
      · show (PH (st.submit fails target)).Nodup
        rw [hph]
        exact i5
      · intro j hj
        rcases List.mem_append.mp hj with hmem | hnew
        · exact i6 j hmem
        · simp only [List.mem_singleton] at hnew
          subst hnew
          exact Or.inl rfl
  | runLocal wkr h rest hq =>
    have ht : wkr < st.queues.length := by
      by_contra hcon
      rw [List.getD_eq_default] at hq
      · exact List.noConfusion hq
      · omega
    have hflat := flatten_extract_perm st.queues wkr h [] rest hq ht
    have hperm : (PH st).Perm
        (h :: PH { st with queues := st.queues.set wkr rest }) :=
      hflat.append_right st.deferred
    have hmemh : h ∈ PH st := hperm.mem_iff.mpr (List.mem_cons_self h _)
    obtain ⟨hb, hp⟩ := i4 h hmemh
    have hnodup2 := hperm.nodup_iff.mp i5
    have hinv2 : SchedInv { st with queues := st.queues.set wkr rest } := by
      refine ⟨i1, i2, i3, ?_, ?_, i6⟩
      · intro h2 hmem
        exact i4 h2 (hperm.mem_iff.mpr (List.mem_cons_of_mem h hmem))
      · exact (List.nodup_cons.mp hnodup2).2
    exact schedInv_execute _ h hinv2 hb hp (List.nodup_cons.mp hnodup2).1
  | runStolen wkr h rest hq =>
    have ht : wkr < st.queues.length := by
      by_contra hcon
      rw [List.getD_eq_default] at hq
      · exact (List.append_ne_nil_of_right_ne_nil rest (by simp)) hq.symm
      · omega
    have hflat := flatten_extract_perm st.queues wkr h rest [] hq ht
    rw [List.append_nil] at hflat
    have hperm : (PH st).Perm (h :: PH { st with
        queues := st.queues.set wkr rest
        stats := { st.stats with jobsStolen := st.stats.jobsStolen + 1 } }) :=
      hflat.append_right st.deferred
    have hmemh : h ∈ PH st := hperm.mem_iff.mpr (List.mem_cons_self h _)
    obtain ⟨hb, hp⟩ := i4 h hmemh
    have hnodup2 := hperm.nodup_iff.mp i5
    have hinv2 : SchedInv { st with
        queues := st.queues.set wkr rest
        stats := { st.stats with jobsStolen := st.stats.jobsStolen + 1 } } := by
      refine ⟨i1, i2, i3, ?_, ?_, i6⟩
      · intro h2 hmem
        exact i4 h2 (hperm.mem_iff.mpr (List.mem_cons_of_mem h hmem))
      · exact (List.nodup_cons.mp hnodup2).2
    exact schedInv_execute _ h hinv2 hb hp (List.nodup_cons.mp hnodup2).1
  | deferJob wkr h rest hq =>
    have ht : wkr < st.queues.length := by
      by_contra hcon
      rw [List.getD_eq_default] at hq
      · exact List.noConfusion hq
      · omega
    have hflat := flatten_extract_perm st.queues wkr h [] rest hq ht
    have h1 : (PH st).Perm
        (h :: ((st.queues.set wkr rest).flatten ++ st.deferred)) :=
      hflat.append_right st.deferred
    have hperm : (PH st).Perm (PH { st with
        queues := st.queues.set wkr rest
        deferred := st.deferred ++ [h] }) := by
      show (PH st).Perm
        ((st.queues.set wkr rest).flatten ++ (st.deferred ++ [h]))
      rw [← List.append_assoc]
      exact h1.trans (@List.perm_append_comm _ [h]
        ((st.queues.set wkr rest).flatten ++ st.deferred))
    refine ⟨i1, i2, i3, ?_, ?_, i6⟩
    · intro h2 hmem
      exact i4 h2 (hperm.mem_iff.mpr hmem)
    · exact hperm.nodup_iff.mp i5
  | runDeferred h pre post hq =>
    have hperm : (PH st).Perm
        (h :: PH { st with deferred := pre ++ post }) := by
      show (st.queues.flatten ++ st.deferred).Perm
        (h :: (st.queues.flatten ++ (pre ++ post)))
      rw [hq, ← List.append_assoc, ← List.append_assoc]
      exact List.perm_middle
    have hmemh : h ∈ PH st := hperm.mem_iff.mpr (List.mem_cons_self h _)
    obtain ⟨hb, hp⟩ := i4 h hmemh
    have hnodup2 := hperm.nodup_iff.mp i5
    have hinv2 : SchedInv { st with deferred := pre ++ post } := by
      refine ⟨i1, i2, i3, ?_, ?_, i6⟩
      · intro h2 hmem
        exact i4 h2 (hperm.mem_iff.mpr (List.mem_cons_of_mem h hmem))
      · exact (List.nodup_cons.mp hnodup2).2
    exact schedInv_execute _ h hinv2 hb hp (List.nodup_cons.mp hnodup2).1

/-- Every reachable scheduler state satisfies the invariant. -/
theorem schedInv_reachable (workers : Nat) (st : SchedState)
    (h : SchedReachable workers st) : SchedInv st := by
  unfold SchedReachable at h
  induction h with
  | refl =>
    refine ⟨rfl, rfl, rfl, ?_, ?_, ?_⟩
    · intro h2 hmem
      unfold PH at hmem
      simp [flatten_replicate_nil] at hmem
    · unfold PH
      simp [flatten_replicate_nil]
    · intro j hj
      simp at hj
  | tail hsteps hstep ih => exact schedInv_step hstep ih

/-- Splitting the completed jobs by whether the body threw accounts for all
of them. -/
theorem filter_split_completed (jobs : List SJob)
    (hall : ∀ j ∈ jobs, j.status = .Completed) :
    (jobs.filter (fun j => decide (j.status = .Completed) && !j.fails)).length +
    (jobs.filter (fun j => decide (j.status = .Completed) && j.fails)).length =
    jobs.length := by
  induction jobs with
  | nil => rfl
  | cons j rest ih =>
    have hj := hall j (List.mem_cons_self j rest)
    have hrest := ih fun x hx => hall x (List.mem_cons_of_mem j hx)
    rw [List.filter_cons, List.filter_cons]
    cases hf : j.fails <;> simp [hj, hf] <;> omega


/-! ## C3: scheduler conservation -/

/-- C3 as stated is false for throwing bodies: submitting one job whose body
throws and running it reaches a state where every `Wait` has returned, yet
`jobsExecuted − jobsSubmitted` is `0 − 1 ≠ 0` — the failing execution is
counted in `jobsFailed` instead of `jobsExecuted`. -/
theorem C3_throwing_job_breaks_conservation :
    SchedReachable 1 c3Done ∧
    (∀ h, h < c3Done.jobs.length → c3Done.waitReturns h = true) ∧
    c3Done.stats.jobsSubmitted = 1 ∧
    c3Done.stats.jobsExecuted = 0 ∧
    c3Done.stats.jobsFailed = 1 ∧
    c3Done.stats.jobsExecuted ≠ c3Done.stats.jobsSubmitted := by
  refine ⟨?_, by decide, rfl, rfl, rfl, by decide⟩
  have s1 : SchedStep c3Init c3Submitted := SchedStep.submit c3Init true 0
  have s2 : SchedStep c3Submitted c3Done :=
    SchedStep.runLocal c3Submitted 0 0 [] rfl
  exact Relation.ReflTransGen.tail (Relation.ReflTransGen.single s1) s2

/-- C3 (amended): in every reachable scheduler state in which `Wait` has
returned for every submitted handle, `jobsExecuted + jobsFailed =
jobsSubmitted` — no job is silently dropped — and when no submitted body
throws, `jobsExecuted = jobsSubmitted` exactly as the claim states. -/
theorem C3_scheduler_conservation (workers : Nat) (st : SchedState)
    (hreach : SchedReachable workers st)
    (hdone : ∀ h, h < st.jobs.length → st.waitReturns h = true) :
    st.stats.jobsExecuted + st.stats.jobsFailed = st.stats.jobsSubmitted ∧
    ((∀ j ∈ st.jobs, j.fails = false) →
      st.stats.jobsExecuted = st.stats.jobsSubmitted) := by
  obtain ⟨i1, i2, i3, i4, i5, i6⟩ := schedInv_reachable workers st hreach
  have hall : ∀ j ∈ st.jobs, j.status = .Completed := by
    intro j hj
    obtain ⟨i, hi, rfl⟩ := List.mem_iff_getElem.mp hj
    have hw := hdone i hi
    unfold SchedState.waitReturns at hw
    rw [if_neg (by omega)] at hw
    have hgd : st.jobs.getD i default = st.jobs[i] := by
      rw [List.getD_eq_getElem?_getD, List.getElem?_eq_getElem hi]
      rfl
    rw [hgd] at hw
    simp only [Bool.or_eq_true, decide_eq_true_eq] at hw
    rcases hw with hc | hc
    · exact hc
    · have h6 := i6 _ (List.getElem_mem hi)
      rw [hc] at h6
      rcases h6 with h1 | h1 <;> exact absurd h1 (by simp)
  constructor
  · rw [i2, i3, i1]
    exact filter_split_completed st.jobs hall
  · intro hnof
    rw [i2, i1]
    congr 1
    apply List.filter_eq_self.mpr
    intro j hj
    rw [hall j hj, hnof j hj]
    rfl

/-- Witness for the amended C3: one worker, one non-throwing job submitted
and executed; both conservation equations hold with all handles waited. -/
theorem C3_scheduler_conservation_witness :
    (SchedReachable 1 (SchedState.executeJobDirect
        { c3Init.submit false 0 with
            queues := (c3Init.submit false 0).queues.set 0 [] } 0) ∧
      (∀ h, h < (SchedState.executeJobDirect
          { c3Init.submit false 0 with
              queues := (c3Init.submit false 0).queues.set 0 [] } 0).jobs.length →
        (SchedState.executeJobDirect
          { c3Init.submit false 0 with
              queues := (c3Init.submit false 0).queues.set 0 [] } 0).waitReturns
          h = true)) ∧
    (SchedState.executeJobDirect
        { c3Init.submit false 0 with
            queues := (c3Init.submit false 0).queues.set 0 [] } 0).stats.jobsExecuted +
      (SchedState.executeJobDirect
        { c3Init.submit false 0 with
            queues := (c3Init.submit false 0).queues.set 0 [] } 0).stats.jobsFailed =
      (SchedState.executeJobDirect
        { c3Init.submit false 0 with
            queues := (c3Init.submit false 0).queues.set 0 [] } 0).stats.jobsSubmitted := by
  have hr : SchedReachable 1 (SchedState.executeJobDirect
      { c3Init.submit false 0 with
          queues := (c3Init.submit false 0).queues.set 0 [] } 0) := by
    have s1 : SchedStep c3Init (c3Init.submit false 0) :=
      SchedStep.submit c3Init false 0
    have s2 : SchedStep (c3Init.submit false 0)
        (SchedState.executeJobDirect
          { c3Init.submit false 0 with
              queues := (c3Init.submit false 0).queues.set 0 [] } 0) :=
      SchedStep.runLocal (c3Init.submit false 0) 0 0 [] rfl
    exact Relation.ReflTransGen.tail (Relation.ReflTransGen.single s1) s2
  have hd : ∀ h, h < (SchedState.executeJobDirect
      { c3Init.submit false 0 with
          queues := (c3Init.submit false 0).queues.set 0 [] } 0).jobs.length →
      (SchedState.executeJobDirect
        { c3Init.submit false 0 with
            queues := (c3Init.submit false 0).queues.set 0 [] } 0).waitReturns
        h = true := by decide
  exact ⟨⟨hr, hd⟩, (C3_scheduler_conservation 1 _ hr hd).1⟩

/-! ## C9: job exception containment -/

/-- C9: a job whose body throws is caught inside `ExecuteJobDirect` (which,
as a total function, always returns to the scheduler): its status is still
set to `Completed`, `Wait` on its handle returns, only `jobsFailed` is
incremented, and no other job or queue is touched. -/
theorem C9_job_exception_containment (st : SchedState) (h : Nat)
    (hlt : h < st.jobs.length)
    (hfails : (st.jobs.getD h default).fails = true) :
    ((st.executeJobDirect h).jobs.getD h default).status = .Completed ∧
    (st.executeJobDirect h).waitReturns h = true ∧
    (st.executeJobDirect h).stats.jobsFailed = st.stats.jobsFailed + 1 ∧
    (st.executeJobDirect h).stats.jobsExecuted = st.stats.jobsExecuted ∧
    (st.executeJobDirect h).stats.jobsSubmitted = st.stats.jobsSubmitted ∧
    (∀ h2, h2 ≠ h →
      (st.executeJobDirect h).jobs.getD h2 default = st.jobs.getD h2 default) ∧
    (st.executeJobDirect h).queues = st.queues ∧
    (st.executeJobDirect h).deferred = st.deferred := by
  rw [executeJobDirect_fails_eq st h hfails]
  have hset : (st.jobs.set h
      ({ st.jobs.getD h default with status := .Completed })).getD h default =
      { st.jobs.getD h default with status := .Completed } :=
    getD_set_self _ _ _ _ hlt
  refine ⟨by rw [hset], ?_, rfl, rfl, rfl, ?_, rfl, rfl⟩
  · unfold SchedState.waitReturns
    rw [if_neg (by simp [List.length_set]; omega)]
    simp only [hset]
    simp
  · intro h2 hne
    exact getD_set_ne _ _ _ _ _ (fun he => hne he.symm)

/-- Witness for C9: the one-job throwing state. -/
theorem C9_job_exception_containment_witness :
    (0 < c9State.jobs.length ∧
      (c9State.jobs.getD 0 default).fails = true) ∧
    ((c9State.executeJobDirect 0).jobs.getD 0 default).status = .Completed ∧
    (c9State.executeJobDirect 0).waitReturns 0 = true ∧
    (c9State.executeJobDirect 0).stats.jobsFailed = 1 := by
  have h := C9_job_exception_containment c9State 0 (by decide) (by decide)
  exact ⟨⟨by decide, by decide⟩, h.1, h.2.1, h.2.2.1⟩



/-! ## C10: hazard tracker exclusivity -/

/-- The per-resource exclusivity invariant: a written resource has no
readers. -/
def HazInv (m : HazardMap) : Prop :=
  ∀ p ∈ m, p.2.writing = false ∨ (p.2.readCount = 0 ∧ p.2.writing = true)

theorem hazFind_update_self (m : HazardMap) (k : Nat) (f : RAccess → RAccess) :
    hazFind (hazUpdate m k f) k = some (f ((hazFind m k).getD {})) := by
  induction m with
  | nil => simp [hazUpdate, hazFind]
  | cons p rest ih =>
    obtain ⟨k2, a⟩ := p
    by_cases h : k2 = k
    · simp [hazUpdate, hazFind, h]
    · simp [hazUpdate, hazFind, h, ih]

theorem hazFind_update_ne (m : HazardMap) (k k2 : Nat) (f : RAccess → RAccess)
    (h : k2 ≠ k) : hazFind (hazUpdate m k f) k2 = hazFind m k2 := by
  induction m with
  | nil =>
    simp only [hazUpdate, hazFind]
    rw [if_neg (fun he => h he.symm)]
  | cons p rest ih =>
    obtain ⟨k3, a⟩ := p
    by_cases h3 : k3 = k
    · subst h3
      have hne : ¬k3 = k2 := fun he => h he.symm
      simp only [hazUpdate, if_pos rfl, hazFind]
      rw [if_neg hne, if_neg hne]
    · simp only [hazUpdate, if_neg h3]
      by_cases h32 : k3 = k2
      · simp [hazFind, h32]
      · simp [hazFind, h32, ih]

theorem mem_hazUpdate (m : HazardMap) (k : Nat) (f : RAccess → RAccess)
    (p : Nat × RAccess) (hp : p ∈ hazUpdate m k f) :
    p ∈ m ∨ p = (k, f ((hazFind m k).getD {})) := by
  induction m with
  | nil => simpa [hazUpdate, hazFind] using hp
  | cons q rest ih =>
    obtain ⟨k2, a⟩ := q
    by_cases h : k2 = k
    · subst h
      simp only [hazUpdate, if_pos rfl] at hp
      rcases List.mem_cons.mp hp with rfl | hmem
      · right
        simp [hazFind]
      · exact Or.inl (List.mem_cons_of_mem _ hmem)
    · simp only [hazUpdate, if_neg h] at hp
      rcases List.mem_cons.mp hp with rfl | hmem
      · exact Or.inl (List.mem_cons_self _ _)
      · rcases ih hmem with hm | he
        · exact Or.inl (List.mem_cons_of_mem _ hm)
        · right
          simpa [hazFind, h] using he

theorem mem_hazErase (m : HazardMap) (k : Nat) (p : Nat × RAccess)
    (hp : p ∈ hazErase m k) : p ∈ m := by
  induction m with
  | nil => simpa [hazErase] using hp
  | cons q rest ih =>
    obtain ⟨k2, a⟩ := q
    by_cases h : k2 = k
    · simp only [hazErase, if_pos h] at hp
      exact List.mem_cons_of_mem _ hp
    · simp only [hazErase, if_neg h] at hp
      rcases List.mem_cons.mp hp with rfl | hmem
      · exact List.mem_cons_self _ _
      · exact List.mem_cons_of_mem _ (ih hmem)

theorem hazFind_mem (m : HazardMap) (k : Nat) (a : RAccess)
    (h : hazFind m k = some a) : (k, a) ∈ m := by
  induction m with
  | nil => simp [hazFind] at h
  | cons q rest ih =>
    obtain ⟨k2, b⟩ := q
    by_cases h2 : k2 = k
    · subst h2
      have hba : b = a := by simpa [hazFind] using h
      subst hba
      exact List.mem_cons_self _ _
    · simp only [hazFind, if_neg h2] at h
      exact List.mem_cons_of_mem _ (ih h)

/-- Keys not in the read set keep their entry across the read-acquire
fold. -/
theorem hazFind_readfold_notmem (rs : List Nat) (m : HazardMap) (k : Nat)
    (h : k ∉ rs) :
    hazFind (rs.foldl (fun acc k2 => hazUpdate acc k2
      (fun a => { a with readCount := a.readCount + 1 })) m) k =
    hazFind m k := by
  induction rs generalizing m with
  | nil => rfl
  | cons k2 rest ih =>
    have hne : k ≠ k2 := fun he => h (he ▸ List.mem_cons_self k2 rest)
    have hrest : k ∉ rest := fun hm => h (List.mem_cons_of_mem k2 hm)
    simp only [List.foldl_cons]
    rw [ih _ hrest, hazFind_update_ne _ _ _ _ hne]

/-- The read-acquire fold keeps the invariant when every read key is free of
writers. -/
theorem hazInv_readfold (rs : List Nat) (m : HazardMap)
    (hg : ∀ k ∈ rs, ∀ a, hazFind m k = some a → a.writing = false)
    (hinv : HazInv m) :
    HazInv (rs.foldl (fun acc k2 => hazUpdate acc k2
      (fun a => { a with readCount := a.readCount + 1 })) m) := by
  induction rs generalizing m with
  | nil => exact hinv
  | cons k rest ih =>
    simp only [List.foldl_cons]
    apply ih
    · intro k2 hk2 a hfind
      by_cases he : k2 = k
      · subst he
        rw [hazFind_update_self] at hfind
        obtain rfl := Option.some_inj.mp hfind
        show ((hazFind m k2).getD {}).writing = false
        cases hfm : hazFind m k2 with
        | none => rfl
        | some a0 =>
          simp only [hfm, Option.getD_some]
          exact hg k2 (List.mem_cons_self _ _) a0 hfm
      · rw [hazFind_update_ne _ _ _ _ he] at hfind
        exact hg k2 (List.mem_cons_of_mem _ hk2) a hfind
    · intro p hp
      rcases mem_hazUpdate _ _ _ _ hp with hm | rfl
      · exact hinv p hm
      · left
        show ((hazFind m k).getD {}).writing = false
        cases hfm : hazFind m k with
        | none => rfl
        | some a0 =>
          simp only [hfm, Option.getD_some]
          exact hg k (List.mem_cons_self _ _) a0 hfm

/-- The write-acquire fold keeps the invariant when every write key has no
readers. -/
theorem hazInv_writefold (ws : List Nat) (m : HazardMap)
    (hg : ∀ k ∈ ws, ∀ a, hazFind m k = some a → a.readCount = 0)
    (hinv : HazInv m) :
    HazInv (ws.foldl (fun acc k2 => hazUpdate acc k2
      (fun a => { a with writing := true })) m) := by
  induction ws generalizing m with
  | nil => exact hinv
  | cons k rest ih =>
    simp only [List.foldl_cons]
    apply ih
    · intro k2 hk2 a hfind
      by_cases he : k2 = k
      · subst he
        rw [hazFind_update_self] at hfind
        obtain rfl := Option.some_inj.mp hfind
        show ((hazFind m k2).getD {}).readCount = 0
        cases hfm : hazFind m k2 with
        | none => rfl
        | some a0 =>
          simp only [hfm, Option.getD_some]
          exact hg k2 (List.mem_cons_self _ _) a0 hfm
      · rw [hazFind_update_ne _ _ _ _ he] at hfind
        exact hg k2 (List.mem_cons_of_mem _ hk2) a hfind
    · intro p hp
      rcases mem_hazUpdate _ _ _ _ hp with hm | rfl
      · exact hinv p hm
      · right
        refine ⟨?_, rfl⟩
        show ((hazFind m k).getD {}).readCount = 0
        cases hfm : hazFind m k with
        | none => rfl
        | some a0 =>
          simp only [hfm, Option.getD_some]
          exact hg k (List.mem_cons_self _ _) a0 hfm

/-- A gated acquire with disjoint reads and writes keeps the invariant. -/
theorem hazInv_acquire (m : HazardMap) (rs ws : List Nat)
    (hcan : canExecute m rs ws = true) (hdisj : rs.Disjoint ws)
    (hinv : HazInv m) : HazInv (acquireResources m rs ws) := by
  unfold canExecute at hcan
  rw [Bool.and_eq_true] at hcan
  obtain ⟨hcw, hcr⟩ := hcan
  rw [List.all_eq_true] at hcw hcr
  have hR : ∀ k ∈ rs, ∀ a, hazFind m k = some a → a.writing = false := by
    intro k hk a hfind
    have := hcr k hk
    rw [hfind] at this
    simpa using this
  have hW : ∀ k ∈ ws, ∀ a, hazFind m k = some a → a.readCount = 0 := by
    intro k hk a hfind
    have := hcw k hk
    rw [hfind] at this
    simp only [Bool.not_eq_eq_eq_not, Bool.not_true, Bool.or_eq_false_iff,
      decide_eq_false_iff_not] at this
    omega
  unfold acquireResources
  apply hazInv_writefold
  · intro k hk a hfind
    rw [hazFind_readfold_notmem rs m k (fun hmem => hdisj hmem hk)] at hfind
    exact hW k hk a hfind
  · exact hazInv_readfold rs m hR hinv

/-- Replacing or erasing one resource entry with a value that itself
satisfies the exclusivity condition keeps the invariant. -/
theorem hazInv_entry_update (m : HazardMap) (k : Nat) (a2 : RAccess)
    (hinv : HazInv m)
    (ha2 : a2.writing = false ∨ (a2.readCount = 0 ∧ a2.writing = true)) :
    HazInv (if a2.readCount = 0 ∧ a2.writing = false then hazErase m k
            else hazUpdate m k (fun _ => a2)) := by
  split
  · intro p hp
    exact hinv p (mem_hazErase _ _ _ hp)
  · intro p hp
    rcases mem_hazUpdate _ _ _ _ hp with hm | rfl
    · exact hinv p hm
    · exact ha2

/-- Releasing a read key keeps the invariant. -/
theorem hazInv_releaseRead (m : HazardMap) (k : Nat) (hinv : HazInv m) :
    HazInv (hazReleaseRead m k) := by
  unfold hazReleaseRead
  cases hfm : hazFind m k with
  | none => exact hinv
  | some a =>
    rcases hinv (k, a) (hazFind_mem m k a hfm) with hw | ⟨hrc, hw⟩
    · apply hazInv_entry_update m k _ hinv
      left
      by_cases h0 : 0 < a.readCount
      · rw [if_pos h0]
        exact hw
      · rw [if_neg h0]
        exact hw
    · have hrc2 : a.readCount = 0 := hrc
      have hw2 : a.writing = true := hw
      have ha2 : (if 0 < a.readCount then
          ({ a with readCount := a.readCount - 1 } : RAccess) else a) = a := by
        rw [if_neg (by omega)]
      dsimp only
      rw [ha2]
      exact hazInv_entry_update m k a hinv (Or.inr ⟨hrc2, hw2⟩)

/-- Releasing a write key keeps the invariant. -/
theorem hazInv_releaseWrite (m : HazardMap) (k : Nat) (hinv : HazInv m) :
    HazInv (hazReleaseWrite m k) := by
  unfold hazReleaseWrite
  cases hfm : hazFind m k with
  | none => exact hinv
  | some a =>
    exact hazInv_entry_update m k { a with writing := false } hinv (Or.inl rfl)

/-- The read-release fold keeps the invariant. -/
theorem hazInv_readReleaseFold (rs : List Nat) :
    ∀ m : HazardMap, HazInv m → HazInv (rs.foldl hazReleaseRead m) := by
  induction rs with
  | nil => intro m h; exact h
  | cons k rest ih =>
    intro m h
    exact ih _ (hazInv_releaseRead m k h)

/-- The write-release fold keeps the invariant. -/
theorem hazInv_writeReleaseFold (ws : List Nat) :
    ∀ m : HazardMap, HazInv m → HazInv (ws.foldl hazReleaseWrite m) := by
  induction ws with
  | nil => intro m h; exact h
  | cons k rest ih =>
    intro m h
    exact ih _ (hazInv_releaseWrite m k h)

/-- `ReleaseResources` keeps the invariant. -/
theorem hazInv_release (m : HazardMap) (rs ws : List Nat) (hinv : HazInv m) :
    HazInv (releaseResources m rs ws) :=
  hazInv_writeReleaseFold ws _ (hazInv_readReleaseFold rs m hinv)

/-- C10 (amended): along every admissible history whose acquires additionally
have disjoint read and write sets, the tracker's per-resource state always
satisfies "readers and not writing" or "no readers and writing"; in
particular no resource ever has readers while being written. -/
theorem C10_hazard_tracker_exclusivity (m : HazardMap) (h : HazReachable m) :
    ∀ p ∈ m, (p.2.writing = false ∨
      (p.2.readCount = 0 ∧ p.2.writing = true)) ∧
      ¬(0 < p.2.readCount ∧ p.2.writing = true) := by
  have hinv : HazInv m := by
    induction h with
    | init => intro p hp; simp at hp
    | acquire m rs ws hr hcan hdisj ih => exact hazInv_acquire m rs ws hcan hdisj ih
    | release m rs ws hr ih => exact hazInv_release m rs ws ih
  intro p hp
  rcases hinv p hp with hw | ⟨hrc, hw⟩
  · exact ⟨Or.inl hw, fun ⟨_, hc⟩ => by rw [hw] at hc; exact Bool.noConfusion hc⟩
  · exact ⟨Or.inr ⟨hrc, hw⟩, fun ⟨hpos, _⟩ => by omega⟩



/-- C10 as stated is false: a single job declaring the same key 7 both as a
read and as a write passes `CanExecute` on an idle tracker, and the
immediately following `AcquireResources` leaves key 7 with one reader and the
writing flag set — both simultaneously. -/
theorem C10_overlapping_readwrite_counterexample :
    canExecute [] [7] [7] = true ∧
    acquireResources [] [7] [7] =
      [(7, { readCount := 1, writing := true })] ∧
    ∃ p ∈ acquireResources [] [7] [7],
      0 < p.2.readCount ∧ p.2.writing = true := by
  refine ⟨rfl, rfl,
    ⟨(7, { readCount := 1, writing := true }), by decide, by decide⟩⟩

/-- Witness for the amended C10: acquire read key 1 and write key 2 after a
passing `CanExecute`; the invariant holds in the resulting state. -/
theorem C10_hazard_tracker_exclusivity_witness :
    HazReachable (acquireResources [] [1] [2]) ∧
    ∀ p ∈ acquireResources [] [1] [2],
      (p.2.writing = false ∨ (p.2.readCount = 0 ∧ p.2.writing = true)) ∧
      ¬(0 < p.2.readCount ∧ p.2.writing = true) := by
  have hd : List.Disjoint [1] [2] := by
    intro a h1 h2
    simp at h1 h2
    omega
  have hr : HazReachable (acquireResources [] [1] [2]) :=
    HazReachable.acquire [] [1] [2] HazReachable.init (by decide) hd
  exact ⟨hr, C10_hazard_tracker_exclusivity _ hr⟩



/-! ## C7: parallel/sequential equivalence -/

theorem iterChunkGo_eq {α : Type} [Inhabited α] (f : α → α) :
    ∀ (n : Nat) (ch : List α) (i : Nat), ch.length - i ≤ n →
    iterChunkGo f ch i = ch.take i ++ (ch.drop i).map f := by
  intro n
  induction n with
  | zero =>
    intro ch i h
    have hle : ch.length ≤ i := by omega
    rw [iterChunkGo, dif_neg (by omega)]
    rw [List.take_of_length_le hle, List.drop_of_length_le hle]
    simp
  | succ n ih =>
    intro ch i h
    by_cases hlt : i < ch.length
    · rw [iterChunkGo, dif_pos hlt]
      rw [ih _ (i + 1) (by simp [List.length_set]; omega)]
      rw [List.getD_eq_getElem ch default hlt]
      rw [List.set_eq_take_append_cons_drop, if_pos hlt]
      have hlen : (List.take i ch).length = i := by
        simp [List.length_take]
        omega
      rw [List.take_append_eq_append_take, List.drop_append_eq_append_drop]
      rw [hlen]
      have h1 : List.take (i + 1) (List.take i ch) = List.take i ch :=
        List.take_of_length_le (by omega)
      have h2 : List.drop (i + 1) (List.take i ch) = [] :=
        List.drop_of_length_le (by omega)
      rw [h1, h2]
      have h3 : i + 1 - i = 1 := by omega
      rw [h3]
      rw [List.drop_eq_getElem_cons hlt]
      simp
      rw [List.drop_eq_getElem_cons (show i < (List.map f ch).length by
        simpa using hlt)]
      simp
    · rw [iterChunkGo, dif_neg hlt]
      rw [List.take_of_length_le (by omega), List.drop_of_length_le (by omega)]
      simp

theorem iterChunk_eq_map {α : Type} [Inhabited α] (f : α → α) (ch : List α) :
    iterChunk f ch = ch.map f := by
  unfold iterChunk
  rw [iterChunkGo_eq f ch.length ch 0 (by omega)]
  simp


theorem range_map_getD {α : Type} (l : List α) (d : α) :
    (List.range l.length).map (fun i => l.getD i d) = l := by
  apply List.ext_getElem
  · simp
  · intro i h1 h2
    simp only [List.getElem_map, List.getElem_range]
    exact List.getD_eq_getElem l d h2

theorem parExecute_eq {α : Type} [Inhabited α] (f : α → α) :
    ∀ (order : List Nat) (chunks : List (List α)), order.Nodup →
    (∀ i ∈ order, i < chunks.length) →
    parExecute f chunks order =
      (List.range chunks.length).map
        (fun i => if i ∈ order then (chunks.getD i []).map f
                  else chunks.getD i []) := by
  intro order
  induction order with
  | nil =>
    intro chunks hnd hval
    simp only [parExecute, List.foldl_nil, List.not_mem_nil, if_false]
    exact (range_map_getD chunks []).symm
  | cons i rest ih =>
    intro chunks hnd hval
    have hi : i < chunks.length := hval i (List.mem_cons_self _ _)
    have hnotin : i ∉ rest := (List.nodup_cons.mp hnd).1
    have hlen : (chunkUpd f chunks i).length = chunks.length := by
      simp [chunkUpd, List.length_set]
    have hstep : parExecute f chunks (i :: rest) =
        parExecute f (chunkUpd f chunks i) rest := rfl
    rw [hstep, ih (chunkUpd f chunks i) (List.nodup_cons.mp hnd).2
      (fun j hj => by rw [hlen]; exact hval j (List.mem_cons_of_mem _ hj))]
    rw [hlen]
    apply List.map_congr_left
    intro j hj
    have hjlt : j < chunks.length := List.mem_range.mp hj
    by_cases hje : j = i
    · subst hje
      rw [if_neg hnotin, if_pos (List.mem_cons_self _ _)]
      unfold chunkUpd
      rw [getD_set_self _ _ _ _ hi, iterChunk_eq_map]
    · have hgd : (chunkUpd f chunks i).getD j [] = chunks.getD j [] := by
        unfold chunkUpd
        exact getD_set_ne _ _ _ _ _ (fun he => hje he.symm)
      by_cases hjr : j ∈ rest
      · rw [if_pos hjr, if_pos (List.mem_cons_of_mem _ hjr), hgd]
      · rw [if_neg hjr,
          if_neg (fun hc => (List.mem_cons.mp hc).elim hje hjr), hgd]

theorem seqForEach_eq_map {α : Type} [Inhabited α] (f : α → α)
    (chunks : List (List α)) :
    seqForEach f chunks = chunks.map (List.map f) := by
  have hstep : seqForEach f chunks =
      parExecute f chunks (List.range chunks.length) := rfl
  rw [hstep, parExecute_eq f (List.range chunks.length) chunks
    (List.nodup_range _) (fun i hi => List.mem_range.mp hi)]
  apply List.ext_getElem
  · simp
  · intro i h1 h2
    have hilt : i < chunks.length := by simpa using h2
    simp only [List.getElem_map, List.getElem_range]
    rw [if_pos (List.mem_range.mpr hilt),
      List.getD_eq_getElem chunks [] hilt]

theorem parExecute_eq_seq {α : Type} [Inhabited α] (f : α → α)
    (chunks : List (List α)) (order : List Nat)
    (hperm : order.Perm (nonEmptyChunkIdx chunks)) :
    parExecute f chunks order = seqForEach f chunks := by
  have hnd : order.Nodup :=
    hperm.nodup_iff.mpr ((List.nodup_range _).filter _)
  have hval : ∀ i ∈ order, i < chunks.length := by
    intro i hi
    have h2 := hperm.mem_iff.mp hi
    unfold nonEmptyChunkIdx at h2
    exact List.mem_range.mp (List.mem_filter.mp h2).1
  rw [parExecute_eq f order chunks hnd hval, seqForEach_eq_map]
  apply List.ext_getElem
  · simp
  · intro i h1 h2
    have hilt : i < chunks.length := by simpa using h2
    simp only [List.getElem_map, List.getElem_range]
    by_cases hmem : i ∈ order
    · rw [if_pos hmem, List.getD_eq_getElem chunks [] hilt]
    · rw [if_neg hmem]
      have hne : i ∉ nonEmptyChunkIdx chunks :=
        fun hc => hmem (hperm.mem_iff.mpr hc)
      unfold nonEmptyChunkIdx at hne
      have hemp : (chunks.getD i []).isEmpty = true := by
        by_contra hc
        exact hne (List.mem_filter.mpr
          ⟨List.mem_range.mpr hilt, by simpa using hc⟩)
      rw [List.isEmpty_iff] at hemp
      rw [List.getD_eq_getElem chunks [] hilt] at hemp ⊢
      rw [hemp]
      rfl


/-- C7: for a per-entity function that touches only the entity it is invoked
on, executing the query's chunks as parallel jobs in any completion order (a
permutation of the non-empty chunk list) yields exactly the state of the
sequential `ForEach`; and with the scheduler uninitialized, `Execute` is the
sequential `ForEach` computation itself. -/
theorem C7_parallel_sequential_equivalence {α : Type} [Inhabited α]
    (f : α → α) (chunks : List (List α)) (order : List Nat)
    (hperm : order.Perm (nonEmptyChunkIdx chunks)) :
    executeModel true order f chunks = executeModel false order f chunks ∧
    executeModel false order f chunks = seqForEach f chunks := by
  constructor
  · show parExecute f chunks order = seqForEach f chunks
    exact parExecute_eq_seq f chunks order hperm
  · rfl

/-- Witness for C7: three chunks (one empty), jobs completing out of order. -/
theorem C7_parallel_sequential_equivalence_witness :
    ([2, 0].Perm (nonEmptyChunkIdx [[1, 2], [], [3]])) ∧
    executeModel true [2, 0] (fun x : Nat => x + 1) [[1, 2], [], [3]] =
      executeModel false [2, 0] (fun x : Nat => x + 1) [[1, 2], [], [3]] := by
  have hp : ([2, 0] : List Nat).Perm (nonEmptyChunkIdx [[1, 2], [], [3]]) := by
    decide
  exact ⟨hp, (C7_parallel_sequential_equivalence _ _ _ hp).1⟩



/-! ## C8: query membership -/

/-- Membership in an initial segment, by slot position. -/
theorem mem_take_iff (l : List Nat) (count : Nat) (hc : count ≤ l.length)
    (e : Nat) : e ∈ l.take count ↔ ∃ t, t < count ∧ l.getD t 0 = e := by
  constructor
  · intro h
    obtain ⟨t, ht, he⟩ := List.mem_iff_getElem.mp h
    have htc : t < count := by
      simp [List.length_take] at ht
      omega
    refine ⟨t, htc, ?_⟩
    rw [List.getElem_take] at he
    rw [List.getD_eq_getElem l 0 (by omega)]
    exact he
  · rintro ⟨t, htc, he⟩
    apply List.mem_iff_getElem.mpr
    refine ⟨t, by simp [List.length_take]; omega, ?_⟩
    rw [List.getElem_take]
    rw [List.getD_eq_getElem l 0 (by omega)] at he
    exact he

/-- C8: `QueryComponents` selects exactly the archetypes whose signature
contains every included id and none of the excluded ids; the entities the
query iterates are exactly those whose record points into a selected
archetype; `EntityCount` equals the number of iterated entities; and the
match predicate means superset-of-includes and disjoint-from-excludes (the
no-exclusion overload agreeing with the empty exclusion list). -/
theorem C8_query_membership (w : World) (incl excl : List Nat)
    (hwf : w.SlotConsistent) :
    (∀ i, i ∈ w.queryArchIdx incl excl ↔
      i < w.archetypes.length ∧
      signatureMatchesEx incl excl
        (w.archetypes.getD i default).signature = true) ∧
    (∀ e, e ∈ w.queryEntities incl excl ↔
      ∃ ai ci, e < w.entityRecords.length ∧
        (w.entityRecords.getD e default).arch = some (ai, ci) ∧
        signatureMatchesEx incl excl
          (w.archetypes.getD ai default).signature = true) ∧
    w.queryEntityCount incl excl = (w.queryEntities incl excl).length ∧
    (∀ sig : List Nat, signatureMatchesEx incl excl sig = true ↔
      ((∀ t ∈ incl, sig.contains t = true) ∧
        (∀ t ∈ excl, sig.contains t = false))) ∧
    (∀ sig : List Nat, signatureMatches incl sig =
      signatureMatchesEx incl [] sig) := by
  obtain ⟨wf1, wf2, wf3⟩ := hwf
  have harch : ∀ i, i ∈ w.queryArchIdx incl excl ↔
      i < w.archetypes.length ∧
      signatureMatchesEx incl excl
        (w.archetypes.getD i default).signature = true := by
    intro i
    unfold World.queryArchIdx
    rw [List.mem_filter, List.mem_range]
  refine ⟨harch, ?_, ?_, ?_, ?_⟩
  · intro e
    unfold World.queryEntities
    rw [List.mem_flatMap]
    constructor
    · rintro ⟨i, hi, hmem⟩
      obtain ⟨hilt, hmatch⟩ := (harch i).mp hi
      rw [List.mem_flatMap] at hmem
      obtain ⟨c, hc, hmemt⟩ := hmem
      obtain ⟨ci, hci, hceq⟩ := List.mem_iff_getElem.mp hc
      have hcg : (w.archetypes.getD i default).chunks.getD ci default = c := by
        rw [List.getD_eq_getElem _ default hci]
        exact hceq
      have hcle := wf3 i hilt ci hci
      rw [hcg] at hcle
      obtain ⟨t, htc, hte⟩ := (mem_take_iff _ _ hcle e).mp hmemt
      have h1 := wf1 i hilt ci hci t (by rw [hcg]; exact htc)
      rw [hcg, hte] at h1
      exact ⟨i, ci, h1.1, by rw [h1.2], hmatch⟩
    · rintro ⟨ai, ci, hb, hrec, hmatch⟩
      obtain ⟨h2a, h2b, h2c, h2d⟩ := wf2 e hb ai ci hrec
      refine ⟨ai, (harch ai).mpr ⟨h2a, hmatch⟩, ?_⟩
      rw [List.mem_flatMap]
      refine ⟨(w.archetypes.getD ai default).chunks.getD ci default, ?_, ?_⟩
      · rw [List.getD_eq_getElem _ default h2b]
        exact List.getElem_mem h2b
      · exact (mem_take_iff _ _ (wf3 ai h2a ci h2b) e).mpr
          ⟨(w.entityRecords.getD e default).indexInChunk, h2c, h2d⟩
  · unfold World.queryEntityCount World.queryEntities
    rw [List.length_flatMap]
    apply congrArg List.sum
    apply List.map_congr_left
    intro i hi
    obtain ⟨hilt, _⟩ := (harch i).mp hi
    rw [Function.comp_apply, List.length_flatMap]
    apply congrArg List.sum
    apply List.ext_getElem (by simp)
    intro ci h1 h2
    simp only [List.getElem_map, Function.comp_apply]
    have hci : ci < (w.archetypes.getD i default).chunks.length := by
      simpa using h1
    have hcle := wf3 i hilt ci hci
    rw [List.getD_eq_getElem _ default hci] at hcle
    rw [List.length_take]
    omega
  · intro sig
    unfold signatureMatchesEx
    rw [Bool.and_eq_true, List.all_eq_true, Bool.not_eq_eq_eq_not,
      Bool.not_true, List.any_eq_false]
    constructor
    · rintro ⟨h1, h2⟩
      exact ⟨h1, fun t ht => Bool.eq_false_iff.mpr (h2 t ht)⟩
    · rintro ⟨h1, h2⟩
      exact ⟨h1, fun t ht => Bool.eq_false_iff.mp (h2 t ht)⟩
  · intro sig
    unfold signatureMatches signatureMatchesEx
    simp

/-- Witness for C8: the spec's scenario A — two entities with `Position`;
the query for type id 1 with no exclusions counts exactly 2 entities, and
both entity indices are iterated. -/
theorem C8_query_membership_witness :
    c8Step4.1.SlotConsistent ∧
    c8Step4.1.queryEntityCount [1] [] = 2 ∧
    (0 ∈ c8Step4.1.queryEntities [1] [] ∧ 1 ∈ c8Step4.1.queryEntities [1] []) := by
  have hwf : c8Step4.1.SlotConsistent := by
    refine ⟨by decide, ?_, by decide⟩
    intro eIdx h ai ci harch
    have hlen : c8Step4.1.entityRecords.length = 2 := rfl
    rw [hlen] at h
    interval_cases eIdx
    · have h2 : (some ((0 : Nat), (0 : Nat)) : Option (Nat × Nat)) =
          some (ai, ci) := harch
      injection h2 with h3
      rw [Prod.mk.injEq] at h3
      obtain ⟨h4, h5⟩ := h3
      subst h4
      subst h5
      decide
    · have h2 : (some ((0 : Nat), (0 : Nat)) : Option (Nat × Nat)) =
          some (ai, ci) := harch
      injection h2 with h3
      rw [Prod.mk.injEq] at h3
      obtain ⟨h4, h5⟩ := h3
      subst h4
      subst h5
      decide
  have h := C8_query_membership c8Step4.1 [1] [] hwf
  refine ⟨hwf, ?_, ?_, ?_⟩
  · rw [h.2.2.1]
    decide
  · decide
  · decide




/-! ## Migration machinery for C4 and C6 (Add/Remove/MoveEntity) -/

/-- `insertSorted` permutes to consing. -/
theorem insertSorted_perm (x : Nat) (l : List Nat) :
    List.Perm (insertSorted x l) (x :: l) := by
  induction l with
  | nil => exact List.Perm.refl _
  | cons y ys ih =>
    by_cases h : x ≤ y
    · simp [insertSorted, h]
    · rw [insertSorted, if_neg h]
      exact (ih.cons y).trans (List.Perm.swap x y ys)

/-- Insertion sort permutes its input. -/
theorem sortNat_perm (l : List Nat) : List.Perm (sortNat l) l := by
  induction l with
  | nil => exact List.Perm.refl _
  | cons x xs ih => exact (insertSorted_perm x (sortNat xs)).trans (ih.cons x)

/-- Membership in a signature after `ComponentSignature::Add`. -/
theorem mem_sigAdd (t a : Nat) (s : List Nat) :
    a ∈ sigAdd t s ↔ a = t ∨ a ∈ s := by
  unfold sigAdd
  by_cases h : s.contains t
  · rw [if_pos h]
    have ht : t ∈ s := by simpa using h
    constructor
    · exact fun hm => Or.inr hm
    · rintro (rfl | hm)
      · exact ht
      · exact hm
  · rw [if_neg h, (sortNat_perm _).mem_iff]
    simp [or_comm]

/-- `ComponentSignature::Add` keeps the signature deduplicated. -/
theorem nodup_sigAdd (t : Nat) (s : List Nat) (h : s.Nodup) :
    (sigAdd t s).Nodup := by
  unfold sigAdd
  by_cases hc : s.contains t
  · rwa [if_pos hc]
  · have ht : t ∉ s := by simpa using hc
    rw [if_neg hc, (sortNat_perm _).nodup_iff]
    simp [List.nodup_append, h, ht]

/-- Length of the signature after an `Add` of an absent id. -/
theorem length_sigAdd (t : Nat) (s : List Nat) (h : s.contains t = false) :
    (sigAdd t s).length = s.length + 1 := by
  unfold sigAdd
  rw [if_neg (by rw [h]; simp), (sortNat_perm _).length_eq]
  simp

/-- Looking up an id registered in the prefix ignores the appended tail. -/
theorem regFind_append_of_isSome (l1 l2 : Registry) (t : Nat)
    (h : (regFind l1 t).isSome = true) :
    regFind (l1 ++ l2) t = regFind l1 t := by
  induction l1 with
  | nil => simp [regFind] at h
  | cons p rest ih =>
    obtain ⟨a, b⟩ := p
    by_cases hp : a = t
    · simp [regFind, hp]
    · rw [List.cons_append, regFind, if_neg hp]
      rw [regFind, if_neg hp] at h ⊢
      exact ih h

/-- Looking up an id absent from the prefix searches the tail. -/
theorem regFind_append_none (l1 l2 : Registry) (t : Nat)
    (h : regFind l1 t = none) : regFind (l1 ++ l2) t = regFind l2 t := by
  induction l1 with
  | nil => simp
  | cons p rest ih =>
    obtain ⟨a, b⟩ := p
    rw [regFind] at h
    by_cases hp : a = t
    · rw [if_pos hp] at h
      exact absurd h (by simp)
    · rw [if_neg hp] at h
      rw [List.cons_append, regFind, if_neg hp]
      exact ih h

/-- `Register` does not disturb ids that are already registered. -/
theorem regFind_regRegister_preserve (reg : Registry) (tid sz t : Nat)
    (h : (regFind reg t).isSome = true) :
    regFind (regRegister reg tid sz) t = regFind reg t := by
  unfold regRegister
  split
  · rfl
  · exact regFind_append_of_isSome reg [(tid, sz)] t h

/-- After `Register`, the id has metadata. -/
theorem regFind_regRegister_self (reg : Registry) (tid sz : Nat) :
    (regFind (regRegister reg tid sz) tid).isSome = true := by
  unfold regRegister
  cases h : (regFind reg tid).isSome with
  | true => rw [if_pos rfl]; exact h
  | false =>
    rw [if_neg (by simp)]
    have hn : regFind reg tid = none := by
      cases hr : regFind reg tid with
      | none => rfl
      | some v => rw [hr] at h; simp at h
    rw [regFind_append_none reg [(tid, sz)] tid hn, regFind, if_pos rfl]
    rfl

/-- `CalculateLayout`'s collection loop on a fully registered signature:
it succeeds and records exactly the signature's ids with their sizes. -/
theorem collectCols_ok (reg : Registry) (sig : List Nat)
    (h : ∀ t ∈ sig, (regFind reg t).isSome = true) :
    (collectCols reg sig).2 = true ∧
    (collectCols reg sig).1.map Prod.fst = sig ∧
    (collectCols reg sig).1.map Prod.snd
      = sig.map (fun t => (regFind reg t).getD 0) := by
  induction sig with
  | nil => exact ⟨rfl, rfl, rfl⟩
  | cons t ts ih =>
    have ht := h t (by simp)
    obtain ⟨sz, hsz⟩ := Option.isSome_iff_exists.mp ht
    have ihr := ih (fun u hu => h u (by simp [hu]))
    rw [collectCols, hsz]
    refine ⟨ihr.1, ?_, ?_⟩
    · simp [ihr.2.1]
    · simp [ihr.2.2, hsz]

/-- The capacity of a fully registered signature, as a function of the
component sizes. -/
theorem chunkCapacity_eq (reg : Registry) (sig : List Nat)
    (h : ∀ t ∈ sig, (regFind reg t).isSome = true) :
    chunkCapacity reg sig =
      (CHUNK_SIZE - 256) /
        (4 + (sig.map (fun t => (regFind reg t).getD 0)).sum) := by
  obtain ⟨h1, _, h3⟩ := collectCols_ok reg sig h
  unfold chunkCapacity chunkCapacityOf perEntitySize
  simp only [h1, if_true, h3]

/-- Registering a fresh type does not change the capacity of a signature all
of whose types were already registered. -/
theorem chunkCapacity_regRegister (reg : Registry) (tid sz : Nat)
    (sig : List Nat) (h : ∀ t ∈ sig, (regFind reg t).isSome = true) :
    chunkCapacity (regRegister reg tid sz) sig = chunkCapacity reg sig := by
  have h2 : ∀ t ∈ sig, (regFind (regRegister reg tid sz) t).isSome = true :=
    fun t ht => by
      rw [regFind_regRegister_preserve reg tid sz t (h t ht)]; exact h t ht
  rw [chunkCapacity_eq reg sig h, chunkCapacity_eq (regRegister reg tid sz) sig h2]
  have hm : sig.map (fun t => (regFind (regRegister reg tid sz) t).getD 0)
      = sig.map (fun t => (regFind reg t).getD 0) :=
    List.map_congr_left (fun t ht => by
      rw [regFind_regRegister_preserve reg tid sz t (h t ht)])
  rw [hm]

/-- Capacity is antitone in the signature (a sub-signature fits at least as
many entities per chunk). -/
theorem chunkCapacity_le_of_sublist (reg : Registry) (sig1 sig2 : List Nat)
    (hsub : List.Sublist sig2 sig1)
    (h1 : ∀ t ∈ sig1, (regFind reg t).isSome = true) :
    chunkCapacity reg sig1 ≤ chunkCapacity reg sig2 := by
  have h2 : ∀ t ∈ sig2, (regFind reg t).isSome = true :=
    fun t ht => h1 t (hsub.subset ht)
  rw [chunkCapacity_eq reg sig1 h1, chunkCapacity_eq reg sig2 h2]
  refine Nat.div_le_div_left ?_ ?_
  · have hs : (sig2.map (fun t => (regFind reg t).getD 0)).sum
        ≤ (sig1.map (fun t => (regFind reg t).getD 0)).sum :=
      (hsub.map _).sum_le_sum (fun b _ => Nat.zero_le b)
    omega
  · omega

/-! ### Chunk construction and column lemmas -/

/-- `assignOffsets` lays out exactly the collected type ids, in order. -/
theorem assignOffsets_typeIDs (cap off : Nat) (cols : List (Nat × Nat)) :
    (assignOffsets cap off cols).map Column.typeID = cols.map Prod.fst := by
  induction cols generalizing off with
  | nil => rfl
  | cons p rest ih =>
    obtain ⟨t, sz⟩ := p
    simp [assignOffsets, ih]

/-- Every column `assignOffsets` creates is zero-filled to the capacity. -/
theorem assignOffsets_vals (cap off : Nat) (cols : List (Nat × Nat))
    (col : Column) (h : col ∈ assignOffsets cap off cols) :
    col.vals = List.replicate cap 0 := by
  induction cols generalizing off with
  | nil => simp [assignOffsets] at h
  | cons p rest ih =>
    obtain ⟨t, sz⟩ := p
    rw [assignOffsets] at h
    rcases List.mem_cons.mp h with rfl | hm
    · rfl
    · exact ih _ hm

/-- A chunk freshly built for a fully registered signature is well formed. -/
theorem mkChunk_WF (reg : Registry) (sig : List Nat)
    (h : ∀ t ∈ sig, (regFind reg t).isSome = true) :
    ChunkWF reg sig (mkChunk reg sig) := by
  obtain ⟨h1, h2, _⟩ := collectCols_ok reg sig h
  unfold mkChunk
  simp only [h1, if_true]
  refine ⟨?_, ?_, ?_, ?_, ?_⟩
  · rw [assignOffsets_typeIDs]
    exact h2
  · intro col hc
    rw [assignOffsets_vals _ _ _ _ hc]
    simp
  · simp
  · simp
  · show chunkCapacityOf (collectCols reg sig).1 = chunkCapacity reg sig
    unfold chunkCapacity
    simp only [h1, if_true]

/-- A freshly built chunk is empty. -/
theorem mkChunk_count (reg : Registry) (sig : List Nat) :
    (mkChunk reg sig).count = 0 := by
  unfold mkChunk
  dsimp only
  split <;> rfl

/-- `findIdx?` success on the chunk list: the index is in range and the chunk
there has space. -/
theorem findAvailIdx_some (chunks : List Chunk) (i : Nat)
    (h : findAvailIdx chunks = some i) :
    i < chunks.length ∧ (chunks.getD i default).isFull = false := by
  unfold findAvailIdx at h
  induction chunks generalizing i with
  | nil => simp at h
  | cons c rest ih =>
    rw [List.findIdx?_cons] at h
    by_cases hc : c.isFull
    · rw [if_neg (by simp [hc])] at h
      rw [List.findIdx?_succ] at h
      obtain ⟨j, hj, rfl⟩ : ∃ j, rest.findIdx? (fun x => !x.isFull) = some j ∧
          i = j + 1 := by
        cases hr : rest.findIdx? (fun x => !x.isFull) with
        | none => rw [hr] at h; simp at h
        | some j =>
          rw [hr] at h
          simp at h
          exact ⟨j, rfl, h.symm⟩
      obtain ⟨hlt, hfull⟩ := ih j hj
      constructor
      · simpa using hlt
      · simpa using hfull
    · rw [if_pos (by simp [hc])] at h
      injection h with h'
      subst h'
      exact ⟨by simp, by simpa using hc⟩

/-- `Archetype::GetAvailableChunk` on a well-formed archetype with positive
per-chunk capacity: the returned index names an existing, non-full,
well-formed chunk; existing chunks are untouched, any new chunk is empty, and
the chunk list only grows. -/
theorem getAvailableChunk_spec (a : Archetype) (reg : Registry)
    (hwf : ∀ cj, cj < a.chunks.length →
      ChunkWF reg a.signature (a.chunks.getD cj default))
    (hreg : ∀ t ∈ a.signature, (regFind reg t).isSome = true)
    (hcap : 1 ≤ chunkCapacity reg a.signature) :
    (a.getAvailableChunk reg).1.signature = a.signature ∧
    (a.getAvailableChunk reg).2 < (a.getAvailableChunk reg).1.chunks.length ∧
    ((a.getAvailableChunk reg).1.chunks.getD (a.getAvailableChunk reg).2
      default).isFull = false ∧
    (∀ cj, cj < a.chunks.length →
      (a.getAvailableChunk reg).1.chunks.getD cj default
        = a.chunks.getD cj default) ∧
    (∀ cj, cj < (a.getAvailableChunk reg).1.chunks.length →
      ChunkWF reg a.signature
        ((a.getAvailableChunk reg).1.chunks.getD cj default)) ∧
    (∀ cj, a.chunks.length ≤ cj →
      cj < (a.getAvailableChunk reg).1.chunks.length →
      ((a.getAvailableChunk reg).1.chunks.getD cj default).count = 0) ∧
    a.chunks.length ≤ (a.getAvailableChunk reg).1.chunks.length := by
  unfold Archetype.getAvailableChunk
  cases hf : findAvailIdx a.chunks with
  | some i =>
    obtain ⟨hi, hfull⟩ := findAvailIdx_some a.chunks i hf
    dsimp only
    exact ⟨rfl, hi, hfull, fun cj _ => rfl, hwf,
      fun cj h1 h2 => absurd h2 (by omega), Nat.le_refl _⟩
  | none =>
    have hwfm := mkChunk_WF reg a.signature hreg
    have hc0 := mkChunk_count reg a.signature
    have hlen : (a.chunks ++ [mkChunk reg a.signature]).length
        = a.chunks.length + 1 := by simp
    have hend : (a.chunks ++ [mkChunk reg a.signature]).getD a.chunks.length
        default = mkChunk reg a.signature := getD_concat_length _ _ _
    refine ⟨rfl, ?_, ?_, ?_, ?_, ?_, ?_⟩
    · simp
    · show ((a.chunks ++ [mkChunk reg a.signature]).getD a.chunks.length
        default).isFull = false
      rw [hend]
      unfold Chunk.isFull
      rw [hc0, hwfm.2.2.2.2]
      simp
      omega
    · intro cj hcj
      exact List.getD_append _ _ _ _ hcj
    · intro cj hcj
      rw [hlen] at hcj
      by_cases hlt : cj < a.chunks.length
      · rw [List.getD_append _ _ _ _ hlt]
        exact hwf cj hlt
      · have : cj = a.chunks.length := by omega
        subst this
        rw [hend]
        exact hwfm
    · intro cj h1 h2
      rw [hlen] at h2
      have : cj = a.chunks.length := by omega
      subst this
      rw [hend]
      exact hc0
    · simp

/-- `setFirstCol` keeps the column ids (and order). -/
theorem setFirstCol_typeIDs (cols : List Column) (tid idx v : Nat) :
    (setFirstCol cols tid idx v).map Column.typeID
      = cols.map Column.typeID := by
  induction cols with
  | nil => rfl
  | cons col rest ih =>
    rw [setFirstCol]
    by_cases h : col.typeID = tid
    · rw [if_pos h]
      simp
    · rw [if_neg h]
      simp [ih]

/-- Every column after `setFirstCol` has the payload length of some original
column. -/
theorem mem_setFirstCol (cols : List Column) (tid idx v : Nat) (col2 : Column)
    (h : col2 ∈ setFirstCol cols tid idx v) :
    ∃ col1 ∈ cols, col2.vals.length = col1.vals.length := by
  induction cols with
  | nil => simp [setFirstCol] at h
  | cons col rest ih =>
    rw [setFirstCol] at h
    by_cases hc : col.typeID = tid
    · rw [if_pos hc] at h
      rcases List.mem_cons.mp h with rfl | hm
      · exact ⟨col, by simp, by simp⟩
      · exact ⟨col2, by simp [hm], rfl⟩
    · rw [if_neg hc] at h
      rcases List.mem_cons.mp h with rfl | hm
      · exact ⟨col2, by simp, rfl⟩
      · obtain ⟨col1, hm1, hl⟩ := ih hm
        exact ⟨col1, by simp [hm1], hl⟩

/-- A linear scan for a different id is unaffected by `setFirstCol`. -/
theorem find?_setFirstCol_ne (cols : List Column) (tid t idx v : Nat)
    (h : t ≠ tid) :
    (setFirstCol cols tid idx v).find? (fun c => c.typeID = t)
      = cols.find? (fun c => c.typeID = t) := by
  induction cols with
  | nil => rfl
  | cons col rest ih =>
    rw [setFirstCol]
    by_cases hc : col.typeID = tid
    · rw [if_pos hc]
      have hne : ¬(col.typeID = t) := by
        rw [hc]
        exact fun hh => h hh.symm
      rw [List.find?_cons_of_neg _ (by simpa using hne),
        List.find?_cons_of_neg _ (by simpa using hne)]
    · rw [if_neg hc]
      by_cases hpt : col.typeID = t
      · rw [List.find?_cons_of_pos _ (by simpa using hpt),
          List.find?_cons_of_pos _ (by simpa using hpt)]
      · rw [List.find?_cons_of_neg _ (by simpa using hpt),
          List.find?_cons_of_neg _ (by simpa using hpt)]
        exact ih

/-- The scan for the written id finds the updated payload. -/
theorem find?_setFirstCol_self (cols : List Column) (tid idx v : Nat)
    (col : Column)
    (h : cols.find? (fun c => c.typeID = tid) = some col) :
    (setFirstCol cols tid idx v).find? (fun c => c.typeID = tid)
      = some { col with vals := col.vals.set idx v } := by
  induction cols with
  | nil => simp at h
  | cons c0 rest ih =>
    by_cases hc : c0.typeID = tid
    · rw [List.find?_cons_of_pos _ (by simpa using hc)] at h
      injection h with h'
      subst h'
      rw [setFirstCol, if_pos hc]
      exact List.find?_cons_of_pos _ (by simpa using hc)
    · rw [List.find?_cons_of_neg _ (by simpa using hc)] at h
      rw [setFirstCol, if_neg hc]
      rw [List.find?_cons_of_neg _ (by simpa using hc)]
      exact ih h

/-- An id among the column ids is found by the linear scan. -/
theorem find?_typeID_of_mem (cols : List Column) (tid : Nat)
    (h : tid ∈ cols.map Column.typeID) :
    ∃ col, cols.find? (fun c => c.typeID = tid) = some col ∧
      col.typeID = tid ∧ col ∈ cols := by
  induction cols with
  | nil => simp at h
  | cons c0 rest ih =>
    by_cases hc : c0.typeID = tid
    · exact ⟨c0, List.find?_cons_of_pos _ (by simpa using hc), hc, by simp⟩
    · have h' : tid ∈ rest.map Column.typeID := by
        rcases List.mem_cons.mp h with heq | hm
        · exact absurd heq.symm hc
        · exact hm
      obtain ⟨col, hfind, ht, hm⟩ := ih h'
      refine ⟨col, ?_, ht, List.mem_cons_of_mem _ hm⟩
      rw [List.find?_cons_of_neg _ (by simpa using hc)]
      exact hfind

/-- Reading back the slot just written through `setFirstCol`. -/
theorem colVal_setFirstCol_self (c : Chunk) (tid idx v : Nat) (col : Column)
    (hfind : c.columns.find? (fun x => x.typeID = tid) = some col)
    (hlen : idx < col.vals.length) :
    colVal { c with columns := setFirstCol c.columns tid idx v } tid idx
      = v := by
  unfold colVal
  dsimp only
  rw [find?_setFirstCol_self c.columns tid idx v col hfind]
  exact getD_set_self _ _ _ _ hlen

/-- A write to one column leaves every other column's values alone. -/
theorem colVal_setFirstCol_ne (c : Chunk) (tid t idx v ix : Nat)
    (h : t ≠ tid) :
    colVal { c with columns := setFirstCol c.columns tid idx v } t ix
      = colVal c t ix := by
  unfold colVal
  dsimp only
  rw [find?_setFirstCol_ne c.columns tid t idx v h]

/-! ### setChunk and RemoveEntity lemmas -/

/-- Writing through a chunk pointer touches only that archetype slot. -/
theorem setChunk_getD_ne (w : World) (ai ci : Nat) (c : Chunk) (j : Nat)
    (hj : j ≠ ai) :
    (w.setChunk ai ci c).archetypes.getD j default
      = w.archetypes.getD j default := by
  unfold World.setChunk
  exact getD_set_ne _ _ _ _ _ (fun hh => hj hh.symm)

/-- The written chunk is read back. -/
theorem setChunk_getD_self (w : World) (ai ci : Nat) (c : Chunk)
    (hai : ai < w.archetypes.length)
    (hci : ci < (w.archetypes.getD ai default).chunks.length) :
    ((w.setChunk ai ci c).archetypes.getD ai default).chunks.getD ci default
      = c := by
  unfold World.setChunk
  dsimp only
  rw [getD_set_self _ _ _ _ hai]
  exact getD_set_self _ _ _ _ hci

/-- Other chunks of the same archetype are untouched. -/
theorem setChunk_getD_ci_ne (w : World) (ai ci : Nat) (c : Chunk) (cj : Nat)
    (hai : ai < w.archetypes.length) (hcj : cj ≠ ci) :
    ((w.setChunk ai ci c).archetypes.getD ai default).chunks.getD cj default
      = (w.archetypes.getD ai default).chunks.getD cj default := by
  unfold World.setChunk
  dsimp only
  rw [getD_set_self _ _ _ _ hai]
  exact getD_set_ne _ _ _ _ _ (fun hh => hcj hh.symm)

/-- `setChunk` keeps the archetype count. -/
theorem setChunk_archLen (w : World) (ai ci : Nat) (c : Chunk) :
    (w.setChunk ai ci c).archetypes.length = w.archetypes.length := by
  unfold World.setChunk
  exact List.length_set _ _ _

/-- `setChunk` keeps the signature of the touched archetype. -/
theorem setChunk_sig (w : World) (ai ci : Nat) (c : Chunk)
    (hai : ai < w.archetypes.length) :
    ((w.setChunk ai ci c).archetypes.getD ai default).signature
      = (w.archetypes.getD ai default).signature := by
  unfold World.setChunk
  dsimp only
  rw [getD_set_self _ _ _ _ hai]

/-- `setChunk` keeps the chunk count of the touched archetype. -/
theorem setChunk_chunksLen (w : World) (ai ci : Nat) (c : Chunk)
    (hai : ai < w.archetypes.length) :
    ((w.setChunk ai ci c).archetypes.getD ai default).chunks.length
      = (w.archetypes.getD ai default).chunks.length := by
  unfold World.setChunk
  dsimp only
  rw [getD_set_self _ _ _ _ hai]
  exact List.length_set _ _ _

/-- `Chunk::RemoveEntity` preserves well-formedness. -/
theorem removeEntity_WF (reg : Registry) (sig : List Nat) (c : Chunk)
    (idx : Nat) (hwf : ChunkWF reg sig c) :
    ChunkWF reg sig (c.removeEntity idx).1 := by
  obtain ⟨h1, h2, h3, h4, h5⟩ := hwf
  unfold Chunk.removeEntity
  by_cases hle : c.count ≤ idx
  · rw [if_pos hle]
    exact ⟨h1, h2, h3, h4, h5⟩
  · rw [if_neg hle]
    dsimp only
    by_cases heq : idx = c.count - 1
    · rw [if_pos heq]
      exact ⟨h1, h2, h3, by dsimp only; omega, h5⟩
    · rw [if_neg heq]
      refine ⟨?_, ?_, ?_, ?_, h5⟩
      · show (c.columns.map fun col =>
          { col with vals := col.vals.set idx (col.vals.getD (c.count - 1) 0)
          }).map Column.typeID = sig
        rw [List.map_map]
        exact h1
      · intro col hc
        obtain ⟨col0, hm0, rfl⟩ := List.mem_map.mp hc
        dsimp only
        rw [List.length_set]
        exact h2 col0 hm0
      · dsimp only
        rw [List.length_set]
        exact h3
      · dsimp only
        omega

/-- The count after a successful `RemoveEntity`. -/
theorem removeEntity_count (c : Chunk) (idx : Nat) (h : idx < c.count) :
    (c.removeEntity idx).1.count = c.count - 1 := by
  unfold Chunk.removeEntity
  rw [if_neg (by omega)]
  dsimp only
  by_cases heq : idx = c.count - 1
  · rw [if_pos heq]
  · rw [if_neg heq]

/-- Removing the unique slot holding a given entity index leaves no occupied
slot with that index. -/
theorem removeEntity_no_target (c : Chunk) (s tgt : Nat)
    (hs : s < c.count) (hcnt : c.count ≤ c.entityIndices.length)
    (huniq : ∀ t, t < c.count → t ≠ s → c.entityIndices.getD t 0 ≠ tgt) :
    ∀ t, t < (c.removeEntity s).1.count →
      (c.removeEntity s).1.entityIndices.getD t 0 ≠ tgt := by
  intro t ht
  unfold Chunk.removeEntity at ht ⊢
  rw [if_neg (by omega)] at ht ⊢
  dsimp only at ht ⊢
  by_cases heq : s = c.count - 1
  · rw [if_pos heq] at ht ⊢
    dsimp only at ht ⊢
    exact huniq t (by omega) (by omega)
  · rw [if_neg heq] at ht ⊢
    dsimp only at ht ⊢
    by_cases hts : t = s
    · subst hts
      rw [getD_set_self _ _ _ _ (by omega)]
      exact huniq (c.count - 1) (by omega) (by omega)
    · rw [getD_set_ne _ _ _ _ _ (fun hh => hts hh.symm)]
      exact huniq t (by omega) hts

/-- The index `RemoveEntity` returns is either 0 or distinct from an entity
index that occupied no slot other than the removed one. -/
theorem removeEntity_ret (c : Chunk) (s tgt : Nat)
    (hs : s < c.count)
    (huniq : ∀ t, t < c.count → t ≠ s → c.entityIndices.getD t 0 ≠ tgt) :
    (c.removeEntity s).2 = 0 ∨ (c.removeEntity s).2 ≠ tgt := by
  unfold Chunk.removeEntity
  rw [if_neg (by omega)]
  dsimp only
  by_cases heq : s = c.count - 1
  · rw [if_pos heq]
    left
    rfl
  · rw [if_neg heq]
    right
    exact huniq (c.count - 1) (by omega) (by omega)

/-! ### The copy loop of `World::MoveEntity` -/

/-- One iteration of the copy loop either does nothing or writes the old
chunk's value for one type id into the destination chunk. -/
theorem moveCopyStep_cases (oldAi oldCi oldIndex nAi nCi newIndex : Nat)
    (newSig : List Nat) (reg : Registry) (acc : World) (t : Nat) :
    moveCopyStep oldAi oldCi oldIndex nAi nCi newIndex newSig reg acc t
      = acc ∨
    ∃ ocol,
      ((acc.archetypes.getD oldAi default).chunks.getD oldCi
        default).columns.find? (fun col => col.typeID = t) = some ocol ∧
      moveCopyStep oldAi oldCi oldIndex nAi nCi newIndex newSig reg acc t
        = acc.setChunk nAi nCi
          { (acc.archetypes.getD nAi default).chunks.getD nCi default with
              columns := setFirstCol
                ((acc.archetypes.getD nAi default).chunks.getD nCi
                  default).columns t newIndex (ocol.vals.getD oldIndex 0) } := by
  unfold moveCopyStep
  by_cases hcont : newSig.contains t
  · rw [if_pos hcont]
    cases hreg : regFind reg t with
    | none =>
      left
      rfl
    | some sz =>
      dsimp only
      cases hoc : ((acc.archetypes.getD oldAi default).chunks.getD oldCi
          default).columns.find? (fun col => col.typeID = t) with
      | none =>
        left
        cases hnc : ((acc.archetypes.getD nAi default).chunks.getD nCi
            default).columns.find? (fun col => col.typeID = t) <;> rfl
      | some ocol =>
        cases hnc : ((acc.archetypes.getD nAi default).chunks.getD nCi
            default).columns.find? (fun col => col.typeID = t) with
        | none =>
          left
          rfl
        | some ncol =>
          right
          exact ⟨ocol, rfl, rfl⟩
  · rw [if_neg hcont]
    left
    rfl

/-- When the guards hold and both chunks have the column, the copy-loop body
is exactly one chunk write. -/
theorem moveCopyStep_write (oldAi oldCi oldIndex nAi nCi newIndex : Nat)
    (newSig : List Nat) (reg : Registry) (acc : World) (t : Nat)
    (hnew : newSig.contains t = true)
    (hreg2 : (regFind reg t).isSome = true)
    (ocol ncol : Column)
    (hoc : ((acc.archetypes.getD oldAi default).chunks.getD oldCi
      default).columns.find? (fun col => col.typeID = t) = some ocol)
    (hnc : ((acc.archetypes.getD nAi default).chunks.getD nCi
      default).columns.find? (fun col => col.typeID = t) = some ncol) :
    moveCopyStep oldAi oldCi oldIndex nAi nCi newIndex newSig reg acc t
      = acc.setChunk nAi nCi
        { (acc.archetypes.getD nAi default).chunks.getD nCi default with
            columns := setFirstCol
              ((acc.archetypes.getD nAi default).chunks.getD nCi
                default).columns t newIndex (ocol.vals.getD oldIndex 0) } := by
  obtain ⟨sz, hsz⟩ := Option.isSome_iff_exists.mp hreg2
  unfold moveCopyStep
  rw [if_pos hnew]
  simp only [hsz, hoc, hnc]

/-- Frame facts for one copy-loop iteration: everything except the
destination chunk's column payloads is untouched, and the destination
chunk keeps its shape. -/
theorem moveCopyStep_frame (oldAi oldCi oldIndex nAi nCi newIndex : Nat)
    (newSig : List Nat) (reg : Registry) (acc : World) (t : Nat)
    (hnAi : nAi < acc.archetypes.length)
    (hnCi : nCi < (acc.archetypes.getD nAi default).chunks.length) :
    (moveCopyStep oldAi oldCi oldIndex nAi nCi newIndex newSig reg acc
      t).registry = acc.registry ∧
    (moveCopyStep oldAi oldCi oldIndex nAi nCi newIndex newSig reg acc
      t).versions = acc.versions ∧
    (moveCopyStep oldAi oldCi oldIndex nAi nCi newIndex newSig reg acc
      t).alive = acc.alive ∧
    (moveCopyStep oldAi oldCi oldIndex nAi nCi newIndex newSig reg acc
      t).freeList = acc.freeList ∧
    (moveCopyStep oldAi oldCi oldIndex nAi nCi newIndex newSig reg acc
      t).aliveCount = acc.aliveCount ∧
    (moveCopyStep oldAi oldCi oldIndex nAi nCi newIndex newSig reg acc
      t).maxEntities = acc.maxEntities ∧
    (moveCopyStep oldAi oldCi oldIndex nAi nCi newIndex newSig reg acc
      t).entityRecords = acc.entityRecords ∧
    (moveCopyStep oldAi oldCi oldIndex nAi nCi newIndex newSig reg acc
      t).archetypes.length = acc.archetypes.length ∧
    (∀ j, j ≠ nAi →
      (moveCopyStep oldAi oldCi oldIndex nAi nCi newIndex newSig reg acc
        t).archetypes.getD j default = acc.archetypes.getD j default) ∧
    ((moveCopyStep oldAi oldCi oldIndex nAi nCi newIndex newSig reg acc
      t).archetypes.getD nAi default).signature
      = (acc.archetypes.getD nAi default).signature ∧
    ((moveCopyStep oldAi oldCi oldIndex nAi nCi newIndex newSig reg acc
      t).archetypes.getD nAi default).chunks.length
      = (acc.archetypes.getD nAi default).chunks.length ∧
    (∀ cj, cj ≠ nCi →
      ((moveCopyStep oldAi oldCi oldIndex nAi nCi newIndex newSig reg acc
        t).archetypes.getD nAi default).chunks.getD cj default
        = (acc.archetypes.getD nAi default).chunks.getD cj default) ∧
    (((moveCopyStep oldAi oldCi oldIndex nAi nCi newIndex newSig reg acc
      t).archetypes.getD nAi default).chunks.getD nCi
      default).entityIndices
      = ((acc.archetypes.getD nAi default).chunks.getD nCi
        default).entityIndices ∧
    (((moveCopyStep oldAi oldCi oldIndex nAi nCi newIndex newSig reg acc
      t).archetypes.getD nAi default).chunks.getD nCi default).count
      = ((acc.archetypes.getD nAi default).chunks.getD nCi default).count ∧
    (((moveCopyStep oldAi oldCi oldIndex nAi nCi newIndex newSig reg acc
      t).archetypes.getD nAi default).chunks.getD nCi default).capacity
      = ((acc.archetypes.getD nAi default).chunks.getD nCi
        default).capacity ∧
    (((moveCopyStep oldAi oldCi oldIndex nAi nCi newIndex newSig reg acc
      t).archetypes.getD nAi default).chunks.getD nCi
      default).columns.map Column.typeID
      = ((acc.archetypes.getD nAi default).chunks.getD nCi
        default).columns.map Column.typeID ∧
    (∀ col2 ∈ (((moveCopyStep oldAi oldCi oldIndex nAi nCi newIndex newSig
      reg acc t).archetypes.getD nAi default).chunks.getD nCi
      default).columns,
      ∃ col1 ∈ ((acc.archetypes.getD nAi default).chunks.getD nCi
        default).columns, col2.vals.length = col1.vals.length) := by
  rcases moveCopyStep_cases oldAi oldCi oldIndex nAi nCi newIndex newSig reg
      acc t with hid | ⟨ocol, hoc, heq⟩
  · rw [hid]
    exact ⟨rfl, rfl, rfl, rfl, rfl, rfl, rfl, rfl, fun j _ => rfl, rfl, rfl,
      fun cj _ => rfl, rfl, rfl, rfl, rfl, fun col2 h2 => ⟨col2, h2, rfl⟩⟩
  · rw [heq]
    refine ⟨rfl, rfl, rfl, rfl, rfl, rfl, rfl, setChunk_archLen _ _ _ _,
      fun j hj => setChunk_getD_ne _ _ _ _ _ hj,
      setChunk_sig _ _ _ _ hnAi,
      setChunk_chunksLen _ _ _ _ hnAi,
      fun cj hcj => setChunk_getD_ci_ne _ _ _ _ _ hnAi hcj, ?_, ?_, ?_, ?_, ?_⟩
    · rw [setChunk_getD_self _ _ _ _ hnAi hnCi]
    · rw [setChunk_getD_self _ _ _ _ hnAi hnCi]
    · rw [setChunk_getD_self _ _ _ _ hnAi hnCi]
    · rw [setChunk_getD_self _ _ _ _ hnAi hnCi]
      exact setFirstCol_typeIDs _ _ _ _
    · intro col2 h2
      rw [setChunk_getD_self _ _ _ _ hnAi hnCi] at h2
      exact mem_setFirstCol _ _ _ _ _ h2

/-- Frame facts for the whole copy loop. -/
theorem moveCopyFold_frame (oldAi oldCi oldIndex nAi nCi newIndex : Nat)
    (newSig : List Nat) (reg : Registry) (L : List Nat) (w1 : World)
    (hnAi : nAi < w1.archetypes.length)
    (hnCi : nCi < (w1.archetypes.getD nAi default).chunks.length) :
    (L.foldl (moveCopyStep oldAi oldCi oldIndex nAi nCi newIndex newSig reg)
      w1).registry = w1.registry ∧
    (L.foldl (moveCopyStep oldAi oldCi oldIndex nAi nCi newIndex newSig reg)
      w1).versions = w1.versions ∧
    (L.foldl (moveCopyStep oldAi oldCi oldIndex nAi nCi newIndex newSig reg)
      w1).alive = w1.alive ∧
    (L.foldl (moveCopyStep oldAi oldCi oldIndex nAi nCi newIndex newSig reg)
      w1).freeList = w1.freeList ∧
    (L.foldl (moveCopyStep oldAi oldCi oldIndex nAi nCi newIndex newSig reg)
      w1).aliveCount = w1.aliveCount ∧
    (L.foldl (moveCopyStep oldAi oldCi oldIndex nAi nCi newIndex newSig reg)
      w1).maxEntities = w1.maxEntities ∧
    (L.foldl (moveCopyStep oldAi oldCi oldIndex nAi nCi newIndex newSig reg)
      w1).entityRecords = w1.entityRecords ∧
    (L.foldl (moveCopyStep oldAi oldCi oldIndex nAi nCi newIndex newSig reg)
      w1).archetypes.length = w1.archetypes.length ∧
    (∀ j, j ≠ nAi →
      (L.foldl (moveCopyStep oldAi oldCi oldIndex nAi nCi newIndex newSig
        reg) w1).archetypes.getD j default
        = w1.archetypes.getD j default) ∧
    ((L.foldl (moveCopyStep oldAi oldCi oldIndex nAi nCi newIndex newSig
      reg) w1).archetypes.getD nAi default).signature
      = (w1.archetypes.getD nAi default).signature ∧
    ((L.foldl (moveCopyStep oldAi oldCi oldIndex nAi nCi newIndex newSig
      reg) w1).archetypes.getD nAi default).chunks.length
      = (w1.archetypes.getD nAi default).chunks.length ∧
    (∀ cj, cj ≠ nCi →
      ((L.foldl (moveCopyStep oldAi oldCi oldIndex nAi nCi newIndex newSig
        reg) w1).archetypes.getD nAi default).chunks.getD cj default
        = (w1.archetypes.getD nAi default).chunks.getD cj default) ∧
    (((L.foldl (moveCopyStep oldAi oldCi oldIndex nAi nCi newIndex newSig
      reg) w1).archetypes.getD nAi default).chunks.getD nCi
      default).entityIndices
      = ((w1.archetypes.getD nAi default).chunks.getD nCi
        default).entityIndices ∧
    (((L.foldl (moveCopyStep oldAi oldCi oldIndex nAi nCi newIndex newSig
      reg) w1).archetypes.getD nAi default).chunks.getD nCi default).count
      = ((w1.archetypes.getD nAi default).chunks.getD nCi default).count ∧
    (((L.foldl (moveCopyStep oldAi oldCi oldIndex nAi nCi newIndex newSig
      reg) w1).archetypes.getD nAi default).chunks.getD nCi
      default).capacity
      = ((w1.archetypes.getD nAi default).chunks.getD nCi
        default).capacity ∧
    (((L.foldl (moveCopyStep oldAi oldCi oldIndex nAi nCi newIndex newSig
      reg) w1).archetypes.getD nAi default).chunks.getD nCi
      default).columns.map Column.typeID
      = ((w1.archetypes.getD nAi default).chunks.getD nCi
        default).columns.map Column.typeID ∧
    (∀ col2 ∈ (((L.foldl (moveCopyStep oldAi oldCi oldIndex nAi nCi newIndex
      newSig reg) w1).archetypes.getD nAi default).chunks.getD nCi
      default).columns,
      ∃ col1 ∈ ((w1.archetypes.getD nAi default).chunks.getD nCi
        default).columns, col2.vals.length = col1.vals.length) := by
  revert hnAi hnCi
  induction L generalizing w1 with
  | nil =>
    intro hnAi hnCi
    exact ⟨rfl, rfl, rfl, rfl, rfl, rfl, rfl, rfl, fun j _ => rfl, rfl, rfl,
      fun cj _ => rfl, rfl, rfl, rfl, rfl, fun col2 h2 => ⟨col2, h2, rfl⟩⟩
  | cons t L2 ih =>
    intro hnAi hnCi
    rw [List.foldl_cons]
    obtain ⟨s1, s2, s3, s4, s5, s6, s7, s8, s9, s10, s11, s12, s13, s14, s15,
      s16, s17⟩ := moveCopyStep_frame oldAi oldCi oldIndex nAi nCi newIndex
        newSig reg w1 t hnAi hnCi
    obtain ⟨i1, i2, i3, i4, i5, i6, i7, i8, i9, i10, i11, i12, i13, i14, i15,
      i16, i17⟩ := ih
        (moveCopyStep oldAi oldCi oldIndex nAi nCi newIndex newSig reg w1 t)
        (by rw [s8]; exact hnAi) (by rw [s11]; exact hnCi)
    refine ⟨i1.trans s1, i2.trans s2, i3.trans s3, i4.trans s4, i5.trans s5,
      i6.trans s6, i7.trans s7, i8.trans s8,
      fun j hj => (i9 j hj).trans (s9 j hj), i10.trans s10, i11.trans s11,
      fun cj hcj => (i12 cj hcj).trans (s12 cj hcj), i13.trans s13,
      i14.trans s14, i15.trans s15, i16.trans s16, ?_⟩
    intro col2 h2
    obtain ⟨colm, hm, hl⟩ := i17 col2 h2
    obtain ⟨col1, h1, hl2⟩ := s17 colm hm
    exact ⟨col1, h1, hl.trans hl2⟩

/-- The copy loop writes, for every type id it processes that the new
signature retains (and the registry knows), the old chunk's value into the
destination slot — and touches no other destination column. -/
theorem moveCopyFold_val (oldAi oldCi oldIndex nAi nCi newIndex : Nat)
    (newSig : List Nat) (reg : Registry) (L : List Nat) (w1 : World)
    (hne : oldAi ≠ nAi)
    (hnAi : nAi < w1.archetypes.length)
    (hnCi : nCi < (w1.archetypes.getD nAi default).chunks.length)
    (hdcT : ((w1.archetypes.getD nAi default).chunks.getD nCi
      default).columns.map Column.typeID = newSig)
    (hdcL : ∀ col ∈ ((w1.archetypes.getD nAi default).chunks.getD nCi
      default).columns, newIndex < col.vals.length)
    (hocT : ∀ t2 ∈ L, t2 ∈ ((w1.archetypes.getD oldAi default).chunks.getD
      oldCi default).columns.map Column.typeID) :
    (∀ tid ∈ L, tid ∈ newSig → (regFind reg tid).isSome = true →
      colVal (((L.foldl (moveCopyStep oldAi oldCi oldIndex nAi nCi newIndex
          newSig reg) w1).archetypes.getD nAi default).chunks.getD nCi
          default) tid newIndex
        = colVal ((w1.archetypes.getD oldAi default).chunks.getD oldCi
          default) tid oldIndex) ∧
    (∀ tid, tid ∉ L → ∀ ix,
      colVal (((L.foldl (moveCopyStep oldAi oldCi oldIndex nAi nCi newIndex
          newSig reg) w1).archetypes.getD nAi default).chunks.getD nCi
          default) tid ix
        = colVal ((w1.archetypes.getD nAi default).chunks.getD nCi default)
          tid ix) := by
  revert hnAi hnCi hdcT hdcL hocT
  induction L generalizing w1 with
  | nil =>
    intro hnAi hnCi hdcT hdcL hocT
    exact ⟨fun tid hmem => absurd hmem (by simp), fun tid _ ix => rfl⟩
  | cons t L2 ih =>
    intro hnAi hnCi hdcT hdcL hocT
    rw [List.foldl_cons]
    obtain ⟨s1, s2, s3, s4, s5, s6, s7, s8, s9, s10, s11, s12, s13, s14, s15,
      s16, s17⟩ := moveCopyStep_frame oldAi oldCi oldIndex nAi nCi newIndex
        newSig reg w1 t hnAi hnCi
    have hA9 : (moveCopyStep oldAi oldCi oldIndex nAi nCi newIndex newSig reg
        w1 t).archetypes.getD oldAi default
        = w1.archetypes.getD oldAi default := s9 oldAi hne
    obtain ⟨ih1, ih2⟩ := ih
      (moveCopyStep oldAi oldCi oldIndex nAi nCi newIndex newSig reg w1 t)
      (by rw [s8]; exact hnAi) (by rw [s11]; exact hnCi)
      (s16.trans hdcT)
      (fun col h => by
        obtain ⟨col1, h1, hl⟩ := s17 col h
        rw [hl]
        exact hdcL col1 h1)
      (fun t2 h2 => by
        rw [hA9]
        exact hocT t2 (List.mem_cons_of_mem _ h2))
    constructor
    · intro tid hmem hnew hreg2
      by_cases hInL : tid ∈ L2
      · exact (ih1 tid hInL hnew hreg2).trans (by rw [hA9])
      · have htid : tid = t := by
          rcases List.mem_cons.mp hmem with h | h
          · exact h
          · exact absurd h hInL
        subst htid
        rw [ih2 tid hInL newIndex]
        obtain ⟨ocol, hoc, hocT2, _⟩ := find?_typeID_of_mem _ tid
          (hocT tid (List.mem_cons_self _ _))
        obtain ⟨ncol, hnc, hncT, hncM⟩ := find?_typeID_of_mem
          ((w1.archetypes.getD nAi default).chunks.getD nCi default).columns
          tid (by rw [hdcT]; exact hnew)
        rw [moveCopyStep_write oldAi oldCi oldIndex nAi nCi newIndex newSig
          reg w1 tid (by simpa using hnew) hreg2 ocol ncol hoc hnc]
        rw [setChunk_getD_self _ _ _ _ hnAi hnCi]
        rw [colVal_setFirstCol_self _ _ _ _ ncol hnc (hdcL ncol hncM)]
        unfold colVal
        rw [hoc]
    · intro tid hnot ix
      have hnt : tid ≠ t := fun hh => hnot (hh ▸ List.mem_cons_self t L2)
      have hnL : tid ∉ L2 := fun hh => hnot (List.mem_cons_of_mem _ hh)
      rw [ih2 tid hnL ix]
      rcases moveCopyStep_cases oldAi oldCi oldIndex nAi nCi newIndex newSig
          reg w1 t with hid | ⟨ocol, hoc, heq⟩
      · rw [hid]
      · rw [heq, setChunk_getD_self _ _ _ _ hnAi hnCi]
        exact colVal_setFirstCol_ne _ _ _ _ _ _ hnt

/-- `Chunk::AddEntity` on a chunk with space: append at `count`. -/
theorem addEntity_not_full (c : Chunk) (eIdx : Nat) (h : c.isFull = false) :
    c.addEntity eIdx =
      ({ c with entityIndices := c.entityIndices.set c.count eIdx
                count := c.count + 1 }, some c.count) := by
  unfold Chunk.addEntity
  rw [if_neg (by simp [h])]

/-- `MoveEntity` on an entity with a non-null record, when the destination
chunk has space, decomposes into the slot allocation followed by
`movePhase2`. -/
theorem moveEntity_eq_phase2 (w : World) (e : Entity) (nAi oldAi oldCi s : Nat)
    (hrec : w.entityRecords.getD e.index default
      = { arch := some (oldAi, oldCi), indexInChunk := s })
    (hnotfull : (((w.archetypes.getD nAi default).getAvailableChunk w.registry).1.chunks.getD ((w.archetypes.getD nAi default).getAvailableChunk w.registry).2 default).isFull = false) :
    w.moveEntity e nAi = movePhase2
      { w with
        archetypes := w.archetypes.set nAi
          { ((w.archetypes.getD nAi default).getAvailableChunk w.registry).1 with
              chunks := ((w.archetypes.getD nAi default).getAvailableChunk w.registry).1.chunks.set ((w.archetypes.getD nAi default).getAvailableChunk w.registry).2
                { (((w.archetypes.getD nAi default).getAvailableChunk w.registry).1.chunks.getD ((w.archetypes.getD nAi default).getAvailableChunk w.registry).2 default) with
                    entityIndices :=
                      (((w.archetypes.getD nAi default).getAvailableChunk w.registry).1.chunks.getD ((w.archetypes.getD nAi default).getAvailableChunk w.registry).2 default).entityIndices.set (((w.archetypes.getD nAi default).getAvailableChunk w.registry).1.chunks.getD ((w.archetypes.getD nAi default).getAvailableChunk w.registry).2 default).count e.index
                    count := (((w.archetypes.getD nAi default).getAvailableChunk w.registry).1.chunks.getD ((w.archetypes.getD nAi default).getAvailableChunk w.registry).2 default).count + 1 } }
        entityRecords := w.entityRecords.set e.index
          { arch := some (nAi, ((w.archetypes.getD nAi default).getAvailableChunk w.registry).2), indexInChunk := (((w.archetypes.getD nAi default).getAvailableChunk w.registry).1.chunks.getD ((w.archetypes.getD nAi default).getAvailableChunk w.registry).2 default).count } }
      oldAi oldCi s nAi ((w.archetypes.getD nAi default).getAvailableChunk w.registry).2 (((w.archetypes.getD nAi default).getAvailableChunk w.registry).1.chunks.getD ((w.archetypes.getD nAi default).getAvailableChunk w.registry).2 default).count
      (w.archetypes.getD oldAi default).signature
      (w.archetypes.getD nAi default).signature
      w.registry := by
  unfold World.moveEntity movePhase2
  rw [hrec]
  dsimp only
  rw [addEntity_not_full _ e.index hnotfull]

/-- `MoveEntity` on an entity with a null record, when the destination chunk
has space, is exactly the slot allocation and record update. -/
theorem moveEntity_eq_none (w : World) (e : Entity) (nAi r0 : Nat)
    (hrec : w.entityRecords.getD e.index default
      = { arch := none, indexInChunk := r0 })
    (hnotfull : (((w.archetypes.getD nAi default).getAvailableChunk w.registry).1.chunks.getD ((w.archetypes.getD nAi default).getAvailableChunk w.registry).2 default).isFull = false) :
    w.moveEntity e nAi =
      { w with
        archetypes := w.archetypes.set nAi
          { ((w.archetypes.getD nAi default).getAvailableChunk w.registry).1 with
              chunks := ((w.archetypes.getD nAi default).getAvailableChunk w.registry).1.chunks.set ((w.archetypes.getD nAi default).getAvailableChunk w.registry).2
                { (((w.archetypes.getD nAi default).getAvailableChunk w.registry).1.chunks.getD ((w.archetypes.getD nAi default).getAvailableChunk w.registry).2 default) with
                    entityIndices :=
                      (((w.archetypes.getD nAi default).getAvailableChunk w.registry).1.chunks.getD ((w.archetypes.getD nAi default).getAvailableChunk w.registry).2 default).entityIndices.set (((w.archetypes.getD nAi default).getAvailableChunk w.registry).1.chunks.getD ((w.archetypes.getD nAi default).getAvailableChunk w.registry).2 default).count e.index
                    count := (((w.archetypes.getD nAi default).getAvailableChunk w.registry).1.chunks.getD ((w.archetypes.getD nAi default).getAvailableChunk w.registry).2 default).count + 1 } }
        entityRecords := w.entityRecords.set e.index
          { arch := some (nAi, ((w.archetypes.getD nAi default).getAvailableChunk w.registry).2), indexInChunk := (((w.archetypes.getD nAi default).getAvailableChunk w.registry).1.chunks.getD ((w.archetypes.getD nAi default).getAvailableChunk w.registry).2 default).count } } := by
  unfold World.moveEntity
  rw [hrec]
  dsimp only
  rw [addEntity_not_full _ e.index hnotfull]

/-- Full characterisation of `movePhase2` under the well-formedness and
occupancy assumptions: the entity's record survives, only the two involved
archetypes change, the destination slot holds the entity and the copied
values, every chunk stays well formed, and the entity occupies exactly its
new slot. -/
theorem movePhase2_spec (w1 : World) (e : Entity)
    (oldAi oldCi s nAi nCi k : Nat) (oldSig newSig : List Nat)
    (reg : Registry)
    (hne : oldAi ≠ nAi)
    (hnAi : nAi < w1.archetypes.length)
    (holdAi : oldAi < w1.archetypes.length)
    (hnCi : nCi < (w1.archetypes.getD nAi default).chunks.length)
    (holdCi : oldCi < (w1.archetypes.getD oldAi default).chunks.length)
    (hrec1 : w1.entityRecords.getD e.index default
      = { arch := some (nAi, nCi), indexInChunk := k })
    (hsigO : (w1.archetypes.getD oldAi default).signature = oldSig)
    (hsigN : (w1.archetypes.getD nAi default).signature = newSig)
    (hregN : ∀ t ∈ newSig, (regFind reg t).isSome = true)
    (hdcWF : ChunkWF reg newSig
      ((w1.archetypes.getD nAi default).chunks.getD nCi default))
    (hdcK : k < ((w1.archetypes.getD nAi default).chunks.getD nCi
      default).count)
    (hdcE : ((w1.archetypes.getD nAi default).chunks.getD nCi
      default).entityIndices.getD k 0 = e.index)
    (hocWF : ChunkWF reg oldSig
      ((w1.archetypes.getD oldAi default).chunks.getD oldCi default))
    (hs : s < ((w1.archetypes.getD oldAi default).chunks.getD oldCi
      default).count)
    (hwfAll1 : ∀ j, j < w1.archetypes.length → ∀ cj,
      cj < (w1.archetypes.getD j default).chunks.length →
      ChunkWF reg (w1.archetypes.getD j default).signature
        ((w1.archetypes.getD j default).chunks.getD cj default))
    (hOcc : ∀ j cj t, j < w1.archetypes.length →
      cj < (w1.archetypes.getD j default).chunks.length →
      t < ((w1.archetypes.getD j default).chunks.getD cj default).count →
      ((w1.archetypes.getD j default).chunks.getD cj
        default).entityIndices.getD t 0 = e.index →
      (j = nAi ∧ cj = nCi ∧ t = k) ∨ (j = oldAi ∧ cj = oldCi ∧ t = s)) :
    (movePhase2 w1 oldAi oldCi s nAi nCi k oldSig newSig
      reg).entityRecords.getD e.index default
      = { arch := some (nAi, nCi), indexInChunk := k } ∧
    (movePhase2 w1 oldAi oldCi s nAi nCi k oldSig newSig
      reg).entityRecords.length = w1.entityRecords.length ∧
    (movePhase2 w1 oldAi oldCi s nAi nCi k oldSig newSig reg).registry
      = w1.registry ∧
    (movePhase2 w1 oldAi oldCi s nAi nCi k oldSig newSig reg).versions
      = w1.versions ∧
    (movePhase2 w1 oldAi oldCi s nAi nCi k oldSig newSig reg).alive
      = w1.alive ∧
    (movePhase2 w1 oldAi oldCi s nAi nCi k oldSig newSig reg).freeList
      = w1.freeList ∧
    (movePhase2 w1 oldAi oldCi s nAi nCi k oldSig newSig reg).aliveCount
      = w1.aliveCount ∧
    (movePhase2 w1 oldAi oldCi s nAi nCi k oldSig newSig reg).maxEntities
      = w1.maxEntities ∧
    (movePhase2 w1 oldAi oldCi s nAi nCi k oldSig newSig
      reg).archetypes.length = w1.archetypes.length ∧
    (∀ j, j < w1.archetypes.length →
      ((movePhase2 w1 oldAi oldCi s nAi nCi k oldSig newSig
        reg).archetypes.getD j default).signature
        = (w1.archetypes.getD j default).signature) ∧
    (∀ j, j ≠ nAi → j ≠ oldAi →
      (movePhase2 w1 oldAi oldCi s nAi nCi k oldSig newSig
        reg).archetypes.getD j default = w1.archetypes.getD j default) ∧
    nCi < ((movePhase2 w1 oldAi oldCi s nAi nCi k oldSig newSig
      reg).archetypes.getD nAi default).chunks.length ∧
    ChunkWF reg newSig (((movePhase2 w1 oldAi oldCi s nAi nCi k oldSig
      newSig reg).archetypes.getD nAi default).chunks.getD nCi default) ∧
    k < (((movePhase2 w1 oldAi oldCi s nAi nCi k oldSig newSig
      reg).archetypes.getD nAi default).chunks.getD nCi default).count ∧
    (((movePhase2 w1 oldAi oldCi s nAi nCi k oldSig newSig
      reg).archetypes.getD nAi default).chunks.getD nCi
      default).entityIndices.getD k 0 = e.index ∧
    (∀ tid, tid ∈ oldSig → tid ∈ newSig →
      colVal (((movePhase2 w1 oldAi oldCi s nAi nCi k oldSig newSig
        reg).archetypes.getD nAi default).chunks.getD nCi default) tid k
        = colVal ((w1.archetypes.getD oldAi default).chunks.getD oldCi
          default) tid s) ∧
    (∀ j, j < w1.archetypes.length → ∀ cj,
      cj < ((movePhase2 w1 oldAi oldCi s nAi nCi k oldSig newSig
        reg).archetypes.getD j default).chunks.length →
      ChunkWF reg (w1.archetypes.getD j default).signature
        (((movePhase2 w1 oldAi oldCi s nAi nCi k oldSig newSig
          reg).archetypes.getD j default).chunks.getD cj default)) ∧
    (∀ j cj t, j < (movePhase2 w1 oldAi oldCi s nAi nCi k oldSig newSig
        reg).archetypes.length →
      cj < ((movePhase2 w1 oldAi oldCi s nAi nCi k oldSig newSig
        reg).archetypes.getD j default).chunks.length →
      t < (((movePhase2 w1 oldAi oldCi s nAi nCi k oldSig newSig
        reg).archetypes.getD j default).chunks.getD cj default).count →
      (((movePhase2 w1 oldAi oldCi s nAi nCi k oldSig newSig
        reg).archetypes.getD j default).chunks.getD cj
        default).entityIndices.getD t 0 = e.index →
      j = nAi ∧ cj = nCi ∧ t = k) := by
  obtain ⟨f1, f2, f3, f4, f5, f6, f7, f8, f9, f10, f11, f12, f13, f14, f15,
    f16, f17⟩ := moveCopyFold_frame oldAi oldCi s nAi nCi k newSig reg oldSig
      w1 hnAi hnCi
  obtain ⟨v1, v2⟩ := moveCopyFold_val oldAi oldCi s nAi nCi k newSig reg
    oldSig w1 hne hnAi hnCi hdcWF.1
    (fun col hc => by
      rw [hdcWF.2.1 col hc]
      have h4 := hdcWF.2.2.2.1
      omega)
    (fun t2 h2 => by rw [hocWF.1]; exact h2)
  unfold movePhase2
  dsimp only
  set W2 := oldSig.foldl (moveCopyStep oldAi oldCi s nAi nCi k newSig reg) w1
    with hW2
  have hold2 : W2.archetypes.getD oldAi default
      = w1.archetypes.getD oldAi default := f9 oldAi hne
  rw [hold2]
  set OC := (w1.archetypes.getD oldAi default).chunks.getD oldCi default
    with hOC
  have hcnt : OC.count ≤ OC.entityIndices.length := by
    rw [hocWF.2.2.1]
    exact hocWF.2.2.2.1
  have huniqO : ∀ t, t < OC.count → t ≠ s →
      OC.entityIndices.getD t 0 ≠ e.index := by
    intro t ht hts hcontra
    rcases hOcc oldAi oldCi t holdAi holdCi ht hcontra with ⟨h1, _, _⟩ |
      ⟨_, _, h3⟩
    · exact hne h1
    · exact hts h3
  have hrr := removeEntity_ret OC s e.index hs huniqO
  have hrWF := removeEntity_WF reg oldSig OC s hocWF
  have hrNoT := removeEntity_no_target OC s e.index hs hcnt huniqO
  set R := OC.removeEntity s with hR
  set W3 := W2.setChunk oldAi oldCi R.1 with hW3
  have holdAi2 : oldAi < W2.archetypes.length := by
    rw [f8]
    exact holdAi
  have holdCi2 : oldCi < (W2.archetypes.getD oldAi default).chunks.length := by
    rw [hold2]
    exact holdCi
  have hnAiO : nAi ≠ oldAi := fun hh => hne hh.symm
  have hrecAll : W3.entityRecords = w1.entityRecords := by
    rw [hW3]
    show W2.entityRecords = w1.entityRecords
    exact f7
  have m1 : W3.entityRecords.getD e.index default
      = { arch := some (nAi, nCi), indexInChunk := k } := by
    rw [hrecAll]
    exact hrec1
  have m2 : W3.entityRecords.length = w1.entityRecords.length := by
    rw [hrecAll]
  have m3 : W3.registry = w1.registry := by
    rw [hW3]
    show W2.registry = w1.registry
    exact f1
  have m4 : W3.versions = w1.versions := by
    rw [hW3]
    show W2.versions = w1.versions
    exact f2
  have m5 : W3.alive = w1.alive := by
    rw [hW3]
    show W2.alive = w1.alive
    exact f3
  have m6 : W3.freeList = w1.freeList := by
    rw [hW3]
    show W2.freeList = w1.freeList
    exact f4
  have m7 : W3.aliveCount = w1.aliveCount := by
    rw [hW3]
    show W2.aliveCount = w1.aliveCount
    exact f5
  have m8 : W3.maxEntities = w1.maxEntities := by
    rw [hW3]
    show W2.maxEntities = w1.maxEntities
    exact f6
  have m9 : W3.archetypes.length = w1.archetypes.length := by
    rw [hW3, setChunk_archLen, f8]
  have m10 : ∀ j, j < w1.archetypes.length →
      (W3.archetypes.getD j default).signature
        = (w1.archetypes.getD j default).signature := by
    intro j hj
    by_cases hjo : j = oldAi
    · subst hjo
      rw [hW3, setChunk_sig _ _ _ _ holdAi2, hold2]
    · rw [hW3, setChunk_getD_ne _ _ _ _ _ hjo]
      by_cases hjn : j = nAi
      · subst hjn
        rw [f10]
      · rw [f9 j hjn]
  have m11 : ∀ j, j ≠ nAi → j ≠ oldAi →
      W3.archetypes.getD j default = w1.archetypes.getD j default := by
    intro j hjn hjo
    rw [hW3, setChunk_getD_ne _ _ _ _ _ hjo, f9 j hjn]
  have harchNW3 : W3.archetypes.getD nAi default
      = W2.archetypes.getD nAi default := by
    rw [hW3, setChunk_getD_ne _ _ _ _ _ hnAiO]
  have m12 : nCi < (W3.archetypes.getD nAi default).chunks.length := by
    rw [harchNW3, f11]
    exact hnCi
  have hdw2 : ChunkWF reg newSig
      ((W2.archetypes.getD nAi default).chunks.getD nCi default) := by
    refine ⟨f16.trans hdcWF.1, ?_, ?_, ?_, ?_⟩
    · intro col hc
      obtain ⟨col1, h1, hl⟩ := f17 col hc
      rw [hl, hdcWF.2.1 col1 h1, ← f15]
    · rw [f13, f15]
      exact hdcWF.2.2.1
    · rw [f14, f15]
      exact hdcWF.2.2.2.1
    · rw [f15]
      exact hdcWF.2.2.2.2
  have m13 : ChunkWF reg newSig
      ((W3.archetypes.getD nAi default).chunks.getD nCi default) := by
    rw [harchNW3]
    exact hdw2
  have m14 : k < ((W3.archetypes.getD nAi default).chunks.getD nCi
      default).count := by
    rw [harchNW3, f14]
    exact hdcK
  have m15 : ((W3.archetypes.getD nAi default).chunks.getD nCi
      default).entityIndices.getD k 0 = e.index := by
    rw [harchNW3, f13]
    exact hdcE
  have m16 : ∀ tid, tid ∈ oldSig → tid ∈ newSig →
      colVal ((W3.archetypes.getD nAi default).chunks.getD nCi default)
        tid k = colVal OC tid s := by
    intro tid h1 h2
    rw [harchNW3]
    exact v1 tid h1 h2 (hregN tid h2)
  have m17 : ∀ j, j < w1.archetypes.length → ∀ cj,
      cj < (W3.archetypes.getD j default).chunks.length →
      ChunkWF reg (w1.archetypes.getD j default).signature
        ((W3.archetypes.getD j default).chunks.getD cj default) := by
    intro j hj cj hcj
    by_cases hjo : j = oldAi
    · rw [hjo] at hcj ⊢
      rw [hW3] at hcj ⊢
      by_cases hcjo : cj = oldCi
      · rw [hcjo]
        rw [setChunk_getD_self _ _ _ _ holdAi2 holdCi2, hsigO]
        exact hrWF
      · rw [setChunk_getD_ci_ne _ _ _ _ _ holdAi2 hcjo]
        rw [setChunk_chunksLen _ _ _ _ holdAi2, hold2] at hcj
        rw [hold2]
        exact hwfAll1 oldAi holdAi cj hcj
    · rw [hW3] at hcj ⊢
      rw [setChunk_getD_ne _ _ _ _ _ hjo] at hcj ⊢
      by_cases hjn : j = nAi
      · rw [hjn] at hcj ⊢
        by_cases hcjn : cj = nCi
        · rw [hcjn]
          rw [hsigN]
          exact hdw2
        · rw [f12 cj hcjn]
          rw [f11] at hcj
          exact hwfAll1 nAi hnAi cj hcj
      · rw [f9 j hjn] at hcj ⊢
        exact hwfAll1 j hj cj hcj
  have m18 : ∀ j cj t, j < W3.archetypes.length →
      cj < (W3.archetypes.getD j default).chunks.length →
      t < ((W3.archetypes.getD j default).chunks.getD cj default).count →
      ((W3.archetypes.getD j default).chunks.getD cj
        default).entityIndices.getD t 0 = e.index →
      j = nAi ∧ cj = nCi ∧ t = k := by
    intro j cj t hj hcj ht hval
    rw [m9] at hj
    by_cases hjo : j = oldAi
    · rw [hjo] at hj hcj ht hval
      rw [hW3] at hcj ht hval
      by_cases hcjo : cj = oldCi
      · rw [hcjo] at ht hval
        rw [setChunk_getD_self _ _ _ _ holdAi2 holdCi2] at ht hval
        exact absurd hval (hrNoT t ht)
      · rw [setChunk_getD_ci_ne _ _ _ _ _ holdAi2 hcjo] at ht hval
        rw [setChunk_chunksLen _ _ _ _ holdAi2, hold2] at hcj
        rw [hold2] at ht hval
        rcases hOcc oldAi cj t holdAi hcj ht hval with ⟨h1, _, _⟩ |
          ⟨_, h2, _⟩
        · exact absurd h1 hne
        · exact absurd h2 hcjo
    · rw [hW3] at hcj ht hval
      rw [setChunk_getD_ne _ _ _ _ _ hjo] at hcj ht hval
      by_cases hjn : j = nAi
      · rw [hjn] at hcj ht hval
        by_cases hcjn : cj = nCi
        · rw [hcjn] at ht hval
          rw [f13] at hval
          rw [f14] at ht
          rcases hOcc nAi nCi t hnAi hnCi ht hval with ⟨_, _, h3⟩ |
            ⟨h1, _, _⟩
          · exact ⟨hjn, hcjn, h3⟩
          · exact absurd h1.symm hne
        · rw [f12 cj hcjn] at ht hval
          rw [f11] at hcj
          rcases hOcc nAi cj t hnAi hcj ht hval with ⟨_, h2, _⟩ |
            ⟨h1, _, _⟩
          · exact absurd h2 hcjn
          · exact absurd h1.symm hne
      · rw [f9 j hjn] at hcj ht hval
        rcases hOcc j cj t hj hcj ht hval with ⟨h1, _, _⟩ | ⟨h2, _, _⟩
        · exact absurd h1 hjn
        · exact absurd h2 hjo
  by_cases hif : R.2 ≠ 0 ∧ R.2 < W3.entityRecords.length
  · rw [if_pos hif]
    have hne2 : R.2 ≠ e.index := by
      rcases hrr with h0 | hx
      · exact absurd h0 hif.1
      · exact hx
    refine ⟨?_, ?_, m3, m4, m5, m6, m7, m8, m9, m10, m11, m12, m13, m14,
      m15, m16, m17, m18⟩
    · show (W3.entityRecords.set R.2
        { W3.entityRecords.getD R.2 default with
            indexInChunk := s }).getD e.index default
        = { arch := some (nAi, nCi), indexInChunk := k }
      rw [getD_set_ne _ _ _ _ _ hne2]
      exact m1
    · show (W3.entityRecords.set R.2
        { W3.entityRecords.getD R.2 default with
            indexInChunk := s }).length = w1.entityRecords.length
      rw [List.length_set]
      exact m2
  · rw [if_neg hif]
    exact ⟨m1, m2, m3, m4, m5, m6, m7, m8, m9, m10, m11, m12, m13, m14, m15,
      m16, m17, m18⟩

/-- Full characterisation of `World::MoveEntity` for an entity stored in an
old chunk, migrating to a different archetype whose chunks are well formed
and whose per-chunk capacity is positive. -/
theorem moveEntity_spec_some (w : World) (e : Entity)
    (nAi oldAi oldCi s : Nat)
    (hrec : w.entityRecords.getD e.index default
      = { arch := some (oldAi, oldCi), indexInChunk := s })
    (heIdx : e.index < w.entityRecords.length)
    (hnAi : nAi < w.archetypes.length)
    (holdAi : oldAi < w.archetypes.length)
    (holdCi : oldCi < (w.archetypes.getD oldAi default).chunks.length)
    (hne : oldAi ≠ nAi)
    (hwfAll : ∀ j, j < w.archetypes.length → ∀ cj,
      cj < (w.archetypes.getD j default).chunks.length →
      ChunkWF w.registry (w.archetypes.getD j default).signature
        ((w.archetypes.getD j default).chunks.getD cj default))
    (hregNew : ∀ t ∈ (w.archetypes.getD nAi default).signature,
      (regFind w.registry t).isSome = true)
    (hcap : 1 ≤ chunkCapacity w.registry
      (w.archetypes.getD nAi default).signature)
    (hs : s < ((w.archetypes.getD oldAi default).chunks.getD oldCi
      default).count)
    (hOnly : ∀ j cj t, j < w.archetypes.length →
      cj < (w.archetypes.getD j default).chunks.length →
      t < ((w.archetypes.getD j default).chunks.getD cj default).count →
      ((w.archetypes.getD j default).chunks.getD cj
        default).entityIndices.getD t 0 = e.index →
      j = oldAi ∧ cj = oldCi ∧ t = s) :
    ∃ nCi k,
      (w.moveEntity e nAi).entityRecords.getD e.index default
        = { arch := some (nAi, nCi), indexInChunk := k } ∧
      (w.moveEntity e nAi).entityRecords.length = w.entityRecords.length ∧
      (w.moveEntity e nAi).registry = w.registry ∧
      (w.moveEntity e nAi).versions = w.versions ∧
      (w.moveEntity e nAi).alive = w.alive ∧
      (w.moveEntity e nAi).freeList = w.freeList ∧
      (w.moveEntity e nAi).aliveCount = w.aliveCount ∧
      (w.moveEntity e nAi).maxEntities = w.maxEntities ∧
      (w.moveEntity e nAi).archetypes.length = w.archetypes.length ∧
      (∀ j, j < w.archetypes.length →
        ((w.moveEntity e nAi).archetypes.getD j default).signature
          = (w.archetypes.getD j default).signature) ∧
      (∀ j, j ≠ nAi → j ≠ oldAi →
        (w.moveEntity e nAi).archetypes.getD j default
          = w.archetypes.getD j default) ∧
      nCi < ((w.moveEntity e nAi).archetypes.getD nAi
        default).chunks.length ∧
      ChunkWF w.registry (w.archetypes.getD nAi default).signature
        (((w.moveEntity e nAi).archetypes.getD nAi default).chunks.getD nCi
          default) ∧
      k < (((w.moveEntity e nAi).archetypes.getD nAi default).chunks.getD
        nCi default).count ∧
      (((w.moveEntity e nAi).archetypes.getD nAi default).chunks.getD nCi
        default).entityIndices.getD k 0 = e.index ∧
      (∀ tid, tid ∈ (w.archetypes.getD oldAi default).signature →
        tid ∈ (w.archetypes.getD nAi default).signature →
        colVal (((w.moveEntity e nAi).archetypes.getD nAi
          default).chunks.getD nCi default) tid k
          = colVal ((w.archetypes.getD oldAi default).chunks.getD oldCi
            default) tid s) ∧
      (∀ j, j < w.archetypes.length → ∀ cj,
        cj < ((w.moveEntity e nAi).archetypes.getD j
          default).chunks.length →
        ChunkWF w.registry (w.archetypes.getD j default).signature
          (((w.moveEntity e nAi).archetypes.getD j default).chunks.getD cj
            default)) ∧
      (∀ j cj t, j < (w.moveEntity e nAi).archetypes.length →
        cj < ((w.moveEntity e nAi).archetypes.getD j
          default).chunks.length →
        t < (((w.moveEntity e nAi).archetypes.getD j default).chunks.getD
          cj default).count →
        (((w.moveEntity e nAi).archetypes.getD j default).chunks.getD cj
          default).entityIndices.getD t 0 = e.index →
        j = nAi ∧ cj = nCi ∧ t = k) := by
  obtain ⟨gs1, gs2, gs3, gs4, gs5, gs6, gs7⟩ :=
    getAvailableChunk_spec (w.archetypes.getD nAi default) w.registry
      (fun cj hcj => hwfAll nAi hnAi cj hcj) hregNew hcap
  have heq := moveEntity_eq_phase2 w e nAi oldAi oldCi s hrec gs3
  rw [heq]
  set AV := (w.archetypes.getD nAi default).getAvailableChunk w.registry
    with hAV
  set CH := AV.1.chunks.getD AV.2 default with hCH
  set CH2 := { CH with
      entityIndices := CH.entityIndices.set CH.count e.index
      count := CH.count + 1 } with hCH2
  set A1 := { AV.1 with chunks := AV.1.chunks.set AV.2 CH2 } with hA1
  set W1 := { w with
      archetypes := w.archetypes.set nAi A1
      entityRecords := w.entityRecords.set e.index
        { arch := some (nAi, AV.2), indexInChunk := CH.count } } with hW1
  refine ⟨AV.2, CH.count, ?_⟩
  have hnAiO : nAi ≠ oldAi := fun hh => hne hh.symm
  have hKcap : CH.count < CH.capacity := by
    have h3 : ¬(CH.capacity ≤ CH.count) := by simpa [Chunk.isFull] using gs3
    omega
  obtain ⟨hch1, hch2, hch3, hch4, hch5⟩ := gs5 AV.2 gs2
  have hW1records : W1.entityRecords = w.entityRecords.set e.index
      { arch := some (nAi, AV.2), indexInChunk := CH.count } := by rw [hW1]
  have hW1arch : W1.archetypes = w.archetypes.set nAi A1 := by rw [hW1]
  have hp_rec : W1.entityRecords.getD e.index default
      = { arch := some (nAi, AV.2), indexInChunk := CH.count } := by
    rw [hW1records]
    exact getD_set_self _ _ _ _ heIdx
  have hp_len : W1.entityRecords.length = w.entityRecords.length := by
    rw [hW1records]
    exact List.length_set _ _ _
  have hp_archlen : W1.archetypes.length = w.archetypes.length := by
    rw [hW1arch]
    exact List.length_set _ _ _
  have hp_nAi : nAi < W1.archetypes.length := by
    rw [hp_archlen]
    exact hnAi
  have hp_oldAi : oldAi < W1.archetypes.length := by
    rw [hp_archlen]
    exact holdAi
  have hatN : W1.archetypes.getD nAi default = A1 := by
    rw [hW1arch]
    exact getD_set_self _ _ _ _ hnAi
  have hatO : W1.archetypes.getD oldAi default
      = w.archetypes.getD oldAi default := by
    rw [hW1arch]
    exact getD_set_ne _ _ _ _ _ hnAiO
  have hA1chunks : A1.chunks = AV.1.chunks.set AV.2 CH2 := by rw [hA1]
  have hA1sig : A1.signature = (w.archetypes.getD nAi default).signature := by
    rw [hA1]
    exact gs1
  have hp_nCi : AV.2 < (W1.archetypes.getD nAi default).chunks.length := by
    rw [hatN, hA1chunks, List.length_set]
    exact gs2
  have hp_oldCi : oldCi < (W1.archetypes.getD oldAi
      default).chunks.length := by
    rw [hatO]
    exact holdCi
  have hdestW1 : (W1.archetypes.getD nAi default).chunks.getD AV.2 default
      = CH2 := by
    rw [hatN, hA1chunks]
    exact getD_set_self _ _ _ _ gs2
  have hCH2wf : ChunkWF w.registry
      (w.archetypes.getD nAi default).signature CH2 := by
    refine ⟨hch1, hch2, ?_, ?_, hch5⟩
    · show (CH.entityIndices.set CH.count e.index).length = CH.capacity
      rw [List.length_set]
      exact hch3
    · show CH.count + 1 ≤ CH.capacity
      omega
  have hp_hdcWF : ChunkWF w.registry
      (w.archetypes.getD nAi default).signature
      ((W1.archetypes.getD nAi default).chunks.getD AV.2 default) := by
    rw [hdestW1]
    exact hCH2wf
  have hp_hdcK : CH.count < ((W1.archetypes.getD nAi default).chunks.getD
      AV.2 default).count := by
    rw [hdestW1]
    show CH.count < CH.count + 1
    omega
  have hp_hdcE : ((W1.archetypes.getD nAi default).chunks.getD AV.2
      default).entityIndices.getD CH.count 0 = e.index := by
    rw [hdestW1]
    show (CH.entityIndices.set CH.count e.index).getD CH.count 0 = e.index
    exact getD_set_self _ _ _ _ (by rw [hch3]; exact hKcap)
  have hp_sigN : (W1.archetypes.getD nAi default).signature
      = (w.archetypes.getD nAi default).signature := by
    rw [hatN]
    exact hA1sig
  have hp_sigO : (W1.archetypes.getD oldAi default).signature
      = (w.archetypes.getD oldAi default).signature := by
    rw [hatO]
  have hp_ocWF : ChunkWF w.registry
      (w.archetypes.getD oldAi default).signature
      ((W1.archetypes.getD oldAi default).chunks.getD oldCi default) := by
    rw [hatO]
    exact hwfAll oldAi holdAi oldCi holdCi
  have hp_hs : s < ((W1.archetypes.getD oldAi default).chunks.getD oldCi
      default).count := by
    rw [hatO]
    exact hs
  have hsigW1 : ∀ j, j < w.archetypes.length →
      (W1.archetypes.getD j default).signature
        = (w.archetypes.getD j default).signature := by
    intro j hj
    by_cases hjn : j = nAi
    · rw [hjn, hatN]
      exact hA1sig
    · rw [hW1arch, getD_set_ne _ _ _ _ _ (fun hh => hjn hh.symm)]
  have hArjFn : ∀ j, j ≠ nAi → W1.archetypes.getD j default
      = w.archetypes.getD j default := by
    intro j hjn
    rw [hW1arch]
    exact getD_set_ne _ _ _ _ _ (fun hh => hjn hh.symm)
  have hp_wfAll1 : ∀ j, j < W1.archetypes.length → ∀ cj,
      cj < (W1.archetypes.getD j default).chunks.length →
      ChunkWF w.registry (W1.archetypes.getD j default).signature
        ((W1.archetypes.getD j default).chunks.getD cj default) := by
    intro j hj cj hcj
    rw [hp_archlen] at hj
    by_cases hjn : j = nAi
    · rw [hjn] at hcj ⊢
      rw [hatN] at hcj ⊢
      rw [hA1chunks] at hcj ⊢
      rw [hA1sig]
      rw [List.length_set] at hcj
      by_cases hcjn : cj = AV.2
      · rw [hcjn, getD_set_self _ _ _ _ gs2]
        exact hCH2wf
      · rw [getD_set_ne _ _ _ _ _ (fun hh => hcjn hh.symm)]
        exact gs5 cj hcj
    · rw [hArjFn j hjn] at hcj ⊢
      exact hwfAll j hj cj hcj
  have hp_Occ : ∀ j cj t, j < W1.archetypes.length →
      cj < (W1.archetypes.getD j default).chunks.length →
      t < ((W1.archetypes.getD j default).chunks.getD cj default).count →
      ((W1.archetypes.getD j default).chunks.getD cj
        default).entityIndices.getD t 0 = e.index →
      (j = nAi ∧ cj = AV.2 ∧ t = CH.count) ∨
        (j = oldAi ∧ cj = oldCi ∧ t = s) := by
    intro j cj t hj hcj ht hval
    rw [hp_archlen] at hj
    by_cases hjn : j = nAi
    · rw [hjn] at hcj ht hval
      rw [hatN, hA1chunks] at hcj ht hval
      rw [List.length_set] at hcj
      by_cases hcjn : cj = AV.2
      · rw [hcjn] at ht hval
        rw [getD_set_self _ _ _ _ gs2] at ht hval
        by_cases htk : t = CH.count
        · exact Or.inl ⟨hjn, hcjn, htk⟩
        · have ht1 : t < CH.count + 1 := ht
          have ht2 : t < CH.count := by omega
          have hv : (CH.entityIndices.set CH.count e.index).getD t 0
              = e.index := hval
          rw [getD_set_ne _ _ _ _ _ (fun hh => htk hh.symm)] at hv
          by_cases hAv2 : AV.2 < (w.archetypes.getD nAi
              default).chunks.length
          · have hcheq : CH = (w.archetypes.getD nAi default).chunks.getD
                AV.2 default := gs4 AV.2 hAv2
            have hx := hOnly nAi AV.2 t hnAi hAv2
              (by rw [← hcheq]; exact ht2) (by rw [← hcheq]; exact hv)
            exact absurd hx.1.symm hne
          · have hc0 : CH.count = 0 := gs6 AV.2 (by omega) gs2
            omega
      · rw [getD_set_ne _ _ _ _ _ (fun hh => hcjn hh.symm)] at ht hval
        by_cases hcw : cj < (w.archetypes.getD nAi default).chunks.length
        · rw [gs4 cj hcw] at ht hval
          have hx := hOnly nAi cj t hnAi hcw ht hval
          exact absurd hx.1.symm hne
        · have hc0 : (AV.1.chunks.getD cj default).count = 0 :=
            gs6 cj (by omega) hcj
          omega
    · rw [hArjFn j hjn] at hcj ht hval
      exact Or.inr (hOnly j cj t hj hcj ht hval)
  obtain ⟨p1, p2, p3, p4, p5, p6, p7, p8, p9, p10, p11, p12, p13, p14, p15,
    p16, p17, p18⟩ :=
    movePhase2_spec W1 e oldAi oldCi s nAi AV.2 CH.count
      (w.archetypes.getD oldAi default).signature
      (w.archetypes.getD nAi default).signature w.registry
      hne hp_nAi hp_oldAi hp_nCi hp_oldCi hp_rec hp_sigO hp_sigN hregNew
      hp_hdcWF hp_hdcK hp_hdcE hp_ocWF hp_hs hp_wfAll1 hp_Occ
  have hW1reg : W1.registry = w.registry := by rw [hW1]
  have hW1ver : W1.versions = w.versions := by rw [hW1]
  have hW1al : W1.alive = w.alive := by rw [hW1]
  have hW1fl : W1.freeList = w.freeList := by rw [hW1]
  have hW1ac : W1.aliveCount = w.aliveCount := by rw [hW1]
  have hW1me : W1.maxEntities = w.maxEntities := by rw [hW1]
  refine ⟨p1, p2.trans hp_len, p3.trans hW1reg, p4.trans hW1ver,
    p5.trans hW1al, p6.trans hW1fl, p7.trans hW1ac, p8.trans hW1me,
    p9.trans hp_archlen, ?_, ?_, p12, p13, p14, p15, ?_, ?_, p18⟩
  · intro j hj
    exact (p10 j (by rw [hp_archlen]; exact hj)).trans (hsigW1 j hj)
  · intro j hjn hjo
    exact (p11 j hjn hjo).trans (hArjFn j hjn)
  · intro tid h1 h2
    exact (p16 tid h1 h2).trans (by rw [hatO])
  · intro j hj cj hcj
    have hx := p17 j (by rw [hp_archlen]; exact hj) cj hcj
    rwa [hsigW1 j hj] at hx

/-- Full characterisation of `World::MoveEntity` for an entity with no old
chunk (null record), moving into a well-formed archetype with positive
per-chunk capacity. -/
theorem moveEntity_spec_none (w : World) (e : Entity) (nAi r0 : Nat)
    (hrec : w.entityRecords.getD e.index default
      = { arch := none, indexInChunk := r0 })
    (heIdx : e.index < w.entityRecords.length)
    (hnAi : nAi < w.archetypes.length)
    (hwfAll : ∀ j, j < w.archetypes.length → ∀ cj,
      cj < (w.archetypes.getD j default).chunks.length →
      ChunkWF w.registry (w.archetypes.getD j default).signature
        ((w.archetypes.getD j default).chunks.getD cj default))
    (hregNew : ∀ t ∈ (w.archetypes.getD nAi default).signature,
      (regFind w.registry t).isSome = true)
    (hcap : 1 ≤ chunkCapacity w.registry
      (w.archetypes.getD nAi default).signature)
    (hNone : ∀ j cj t, j < w.archetypes.length →
      cj < (w.archetypes.getD j default).chunks.length →
      t < ((w.archetypes.getD j default).chunks.getD cj default).count →
      ((w.archetypes.getD j default).chunks.getD cj
        default).entityIndices.getD t 0 ≠ e.index) :
    ∃ nCi k,
      (w.moveEntity e nAi).entityRecords.getD e.index default
        = { arch := some (nAi, nCi), indexInChunk := k } ∧
      (w.moveEntity e nAi).entityRecords.length = w.entityRecords.length ∧
      (w.moveEntity e nAi).registry = w.registry ∧
      (w.moveEntity e nAi).versions = w.versions ∧
      (w.moveEntity e nAi).alive = w.alive ∧
      (w.moveEntity e nAi).freeList = w.freeList ∧
      (w.moveEntity e nAi).aliveCount = w.aliveCount ∧
      (w.moveEntity e nAi).maxEntities = w.maxEntities ∧
      (w.moveEntity e nAi).archetypes.length = w.archetypes.length ∧
      (∀ j, j < w.archetypes.length →
        ((w.moveEntity e nAi).archetypes.getD j default).signature
          = (w.archetypes.getD j default).signature) ∧
      (∀ j, j ≠ nAi →
        (w.moveEntity e nAi).archetypes.getD j default
          = w.archetypes.getD j default) ∧
      nCi < ((w.moveEntity e nAi).archetypes.getD nAi
        default).chunks.length ∧
      ChunkWF w.registry (w.archetypes.getD nAi default).signature
        (((w.moveEntity e nAi).archetypes.getD nAi default).chunks.getD nCi
          default) ∧
      k < (((w.moveEntity e nAi).archetypes.getD nAi default).chunks.getD
        nCi default).count ∧
      (((w.moveEntity e nAi).archetypes.getD nAi default).chunks.getD nCi
        default).entityIndices.getD k 0 = e.index ∧
      (∀ j, j < w.archetypes.length → ∀ cj,
        cj < ((w.moveEntity e nAi).archetypes.getD j
          default).chunks.length →
        ChunkWF w.registry (w.archetypes.getD j default).signature
          (((w.moveEntity e nAi).archetypes.getD j default).chunks.getD cj
            default)) ∧
      (∀ j cj t, j < (w.moveEntity e nAi).archetypes.length →
        cj < ((w.moveEntity e nAi).archetypes.getD j
          default).chunks.length →
        t < (((w.moveEntity e nAi).archetypes.getD j default).chunks.getD
          cj default).count →
        (((w.moveEntity e nAi).archetypes.getD j default).chunks.getD cj
          default).entityIndices.getD t 0 = e.index →
        j = nAi ∧ cj = nCi ∧ t = k) := by
  obtain ⟨gs1, gs2, gs3, gs4, gs5, gs6, gs7⟩ :=
    getAvailableChunk_spec (w.archetypes.getD nAi default) w.registry
      (fun cj hcj => hwfAll nAi hnAi cj hcj) hregNew hcap
  have heq := moveEntity_eq_none w e nAi r0 hrec gs3
  rw [heq]
  set AV := (w.archetypes.getD nAi default).getAvailableChunk w.registry
    with hAV
  set CH := AV.1.chunks.getD AV.2 default with hCH
  set CH2 := { CH with
      entityIndices := CH.entityIndices.set CH.count e.index
      count := CH.count + 1 } with hCH2
  set A1 := { AV.1 with chunks := AV.1.chunks.set AV.2 CH2 } with hA1
  set W1 := { w with
      archetypes := w.archetypes.set nAi A1
      entityRecords := w.entityRecords.set e.index
        { arch := some (nAi, AV.2), indexInChunk := CH.count } } with hW1
  refine ⟨AV.2, CH.count, ?_⟩
  have hKcap : CH.count < CH.capacity := by
    have h3 : ¬(CH.capacity ≤ CH.count) := by simpa [Chunk.isFull] using gs3
    omega
  obtain ⟨hch1, hch2, hch3, hch4, hch5⟩ := gs5 AV.2 gs2
  have hW1records : W1.entityRecords = w.entityRecords.set e.index
      { arch := some (nAi, AV.2), indexInChunk := CH.count } := by rw [hW1]
  have hW1arch : W1.archetypes = w.archetypes.set nAi A1 := by rw [hW1]
  have hp_rec : W1.entityRecords.getD e.index default
      = { arch := some (nAi, AV.2), indexInChunk := CH.count } := by
    rw [hW1records]
    exact getD_set_self _ _ _ _ heIdx
  have hp_len : W1.entityRecords.length = w.entityRecords.length := by
    rw [hW1records]
    exact List.length_set _ _ _
  have hp_archlen : W1.archetypes.length = w.archetypes.length := by
    rw [hW1arch]
    exact List.length_set _ _ _
  have hatN : W1.archetypes.getD nAi default = A1 := by
    rw [hW1arch]
    exact getD_set_self _ _ _ _ hnAi
  have hA1chunks : A1.chunks = AV.1.chunks.set AV.2 CH2 := by rw [hA1]
  have hA1sig : A1.signature = (w.archetypes.getD nAi default).signature := by
    rw [hA1]
    exact gs1
  have hp_nCi : AV.2 < (W1.archetypes.getD nAi default).chunks.length := by
    rw [hatN, hA1chunks, List.length_set]
    exact gs2
  have hdestW1 : (W1.archetypes.getD nAi default).chunks.getD AV.2 default
      = CH2 := by
    rw [hatN, hA1chunks]
    exact getD_set_self _ _ _ _ gs2
  have hCH2wf : ChunkWF w.registry
      (w.archetypes.getD nAi default).signature CH2 := by
    refine ⟨hch1, hch2, ?_, ?_, hch5⟩
    · show (CH.entityIndices.set CH.count e.index).length = CH.capacity
      rw [List.length_set]
      exact hch3
    · show CH.count + 1 ≤ CH.capacity
      omega
  have hsigW1 : ∀ j, j < w.archetypes.length →
      (W1.archetypes.getD j default).signature
        = (w.archetypes.getD j default).signature := by
    intro j hj
    by_cases hjn : j = nAi
    · rw [hjn, hatN]
      exact hA1sig
    · rw [hW1arch, getD_set_ne _ _ _ _ _ (fun hh => hjn hh.symm)]
  have hArjFn : ∀ j, j ≠ nAi → W1.archetypes.getD j default
      = w.archetypes.getD j default := by
    intro j hjn
    rw [hW1arch]
    exact getD_set_ne _ _ _ _ _ (fun hh => hjn hh.symm)
  refine ⟨hp_rec, hp_len, by rw [hW1], by rw [hW1], by rw [hW1],
    by rw [hW1], by rw [hW1], by rw [hW1], hp_archlen, hsigW1, hArjFn,
    hp_nCi, ?_, ?_, ?_, ?_, ?_⟩
  · rw [hdestW1]
    exact hCH2wf
  · rw [hdestW1]
    show CH.count < CH.count + 1
    omega
  · rw [hdestW1]
    show (CH.entityIndices.set CH.count e.index).getD CH.count 0 = e.index
    exact getD_set_self _ _ _ _ (by rw [hch3]; exact hKcap)
  · intro j hj cj hcj
    by_cases hjn : j = nAi
    · rw [hjn] at hcj ⊢
      rw [hatN] at hcj ⊢
      rw [hA1chunks] at hcj ⊢
      rw [List.length_set] at hcj
      by_cases hcjn : cj = AV.2
      · rw [hcjn, getD_set_self _ _ _ _ gs2]
        exact hCH2wf
      · rw [getD_set_ne _ _ _ _ _ (fun hh => hcjn hh.symm)]
        exact gs5 cj hcj
    · rw [hArjFn j hjn] at hcj ⊢
      exact hwfAll j hj cj hcj
  · intro j cj t hj hcj ht hval
    rw [hp_archlen] at hj
    by_cases hjn : j = nAi
    · rw [hjn] at hcj ht hval
      rw [hatN, hA1chunks] at hcj ht hval
      rw [List.length_set] at hcj
      by_cases hcjn : cj = AV.2
      · rw [hcjn] at ht hval
        rw [getD_set_self _ _ _ _ gs2] at ht hval
        by_cases htk : t = CH.count
        · exact ⟨hjn, hcjn, htk⟩
        · have ht1 : t < CH.count + 1 := ht
          have ht2 : t < CH.count := by omega
          have hv : (CH.entityIndices.set CH.count e.index).getD t 0
              = e.index := hval
          rw [getD_set_ne _ _ _ _ _ (fun hh => htk hh.symm)] at hv
          by_cases hAv2 : AV.2 < (w.archetypes.getD nAi
              default).chunks.length
          · have hcheq : CH = (w.archetypes.getD nAi default).chunks.getD
                AV.2 default := gs4 AV.2 hAv2
            have hx := hNone nAi AV.2 t hnAi hAv2
              (by rw [← hcheq]; exact ht2)
            rw [← hcheq] at hx
            exact absurd hv hx
          · have hc0 : CH.count = 0 := gs6 AV.2 (by omega) gs2
            omega
      · rw [getD_set_ne _ _ _ _ _ (fun hh => hcjn hh.symm)] at ht hval
        by_cases hcw : cj < (w.archetypes.getD nAi default).chunks.length
        · rw [gs4 cj hcw] at ht hval
          exact absurd hval (hNone nAi cj t hnAi hcw ht)
        · have hc0 : (AV.1.chunks.getD cj default).count = 0 :=
            gs6 cj (by omega) hcj
          omega
    · rw [hArjFn j hjn] at hcj ht hval
      exact absurd hval (hNone j cj t hj hcj ht)

/-- `findIdx?` success on the archetype list: index in range, signature
matches. -/
theorem findIdx_sig_some (archs : List Archetype) (sig : List Nat) (i : Nat)
    (h : archs.findIdx? (fun a => a.signature = sig) = some i) :
    i < archs.length ∧ (archs.getD i default).signature = sig := by
  induction archs generalizing i with
  | nil => simp at h
  | cons a rest ih =>
    rw [List.findIdx?_cons] at h
    by_cases hc : a.signature = sig
    · rw [if_pos (by simp [hc])] at h
      injection h with h2
      subst h2
      exact ⟨by simp, hc⟩
    · rw [if_neg (by simp [hc])] at h
      rw [List.findIdx?_succ] at h
      obtain ⟨j, hj, rfl⟩ : ∃ j,
          rest.findIdx? (fun a => a.signature = sig) = some j ∧
          i = j + 1 := by
        cases hr : rest.findIdx? (fun a => a.signature = sig) with
        | none => rw [hr] at h; simp at h
        | some j =>
          rw [hr] at h
          simp at h
          exact ⟨j, rfl, h.symm⟩
      obtain ⟨hlt, hsg⟩ := ih j hj
      exact ⟨by simpa using hlt, by simpa using hsg⟩

/-- `World::GetOrCreateArchetype`: the entity tables are untouched, the
returned index names an archetype with the requested signature, existing
archetypes are unchanged, and any new archetype starts with no chunks. -/
theorem getOrCreateArchetype_facts (w : World) (sig : List Nat) :
    (w.getOrCreateArchetype sig).1.registry = w.registry ∧
    (w.getOrCreateArchetype sig).1.versions = w.versions ∧
    (w.getOrCreateArchetype sig).1.alive = w.alive ∧
    (w.getOrCreateArchetype sig).1.freeList = w.freeList ∧
    (w.getOrCreateArchetype sig).1.aliveCount = w.aliveCount ∧
    (w.getOrCreateArchetype sig).1.maxEntities = w.maxEntities ∧
    (w.getOrCreateArchetype sig).1.entityRecords = w.entityRecords ∧
    (w.getOrCreateArchetype sig).2
      < (w.getOrCreateArchetype sig).1.archetypes.length ∧
    ((w.getOrCreateArchetype sig).1.archetypes.getD
      (w.getOrCreateArchetype sig).2 default).signature = sig ∧
    w.archetypes.length ≤ (w.getOrCreateArchetype sig).1.archetypes.length ∧
    (∀ j, j < w.archetypes.length →
      (w.getOrCreateArchetype sig).1.archetypes.getD j default
        = w.archetypes.getD j default) ∧
    (∀ j, w.archetypes.length ≤ j →
      j < (w.getOrCreateArchetype sig).1.archetypes.length →
      (w.getOrCreateArchetype sig).1.archetypes.getD j default
        = { signature := sig, chunks := [] }) := by
  unfold World.getOrCreateArchetype
  cases hf : w.archetypes.findIdx? (fun a => a.signature = sig) with
  | some i =>
    obtain ⟨hi, hsig⟩ := findIdx_sig_some w.archetypes sig i hf
    dsimp only
    exact ⟨rfl, rfl, rfl, rfl, rfl, rfl, rfl, hi, hsig, Nat.le_refl _,
      fun j _ => rfl, fun j h1 h2 => absurd h1 (by omega)⟩
  | none =>
    dsimp only
    refine ⟨rfl, rfl, rfl, rfl, rfl, rfl, rfl, by simp, ?_, by simp, ?_, ?_⟩
    · rw [getD_concat_length]
    · intro j hj
      exact List.getD_append _ _ _ _ hj
    · intro j h1 h2
      simp only [List.length_append, List.length_cons, List.length_nil] at h2
      have hje : j = w.archetypes.length := by omega
      subst hje
      exact getD_concat_length _ _ _

/-- `IsAlive` depends only on the versions and alive tables. -/
theorem isAlive_frame (wa wb : World) (e : Entity)
    (hv : wa.versions = wb.versions) (ha : wa.alive = wb.alive) :
    wa.isAlive e = wb.isAlive e := by
  unfold World.isAlive
  rw [hv, ha]

/-- An alive entity's index is within the version table. -/
theorem isAlive_index_lt (w : World) (e : Entity)
    (h : w.isAlive e = true) : e.index < w.versions.length := by
  unfold World.isAlive at h
  simp only [Bool.and_eq_true, decide_eq_true_eq] at h
  exact h.1.1

/-- `World::Get<T>` succeeds on a valid record whose chunk has the column
and the slot occupied, returning the stored value. -/
theorem getComponent_spec (w : World) (tid : Nat) (e : Entity)
    (ai ci k : Nat)
    (halive : w.isAlive e = true)
    (hlen : e.index < w.entityRecords.length)
    (hrec : w.entityRecords.getD e.index default
      = { arch := some (ai, ci), indexInChunk := k })
    (hmem : tid ∈ ((w.archetypes.getD ai default).chunks.getD ci
      default).columns.map Column.typeID)
    (hk : k < ((w.archetypes.getD ai default).chunks.getD ci
      default).count) :
    w.getComponent tid e = Except.ok
      (colVal ((w.archetypes.getD ai default).chunks.getD ci default)
        tid k) := by
  obtain ⟨col, hfind, _, _⟩ := find?_typeID_of_mem _ tid hmem
  unfold World.getComponent
  rw [if_neg (by rw [halive]; simp), if_neg (by omega)]
  dsimp only
  rw [hrec]
  dsimp only
  unfold Chunk.getComponentVal
  rw [hfind]
  dsimp only
  rw [if_pos hk]
  dsimp only
  unfold colVal
  rw [hfind]

/-- `World::Add`'s final write step in terms of the record. -/
theorem setComponent_spec (w : World) (tid : Nat) (e : Entity) (v : Nat)
    (ai ci k : Nat)
    (hrec : w.entityRecords.getD e.index default
      = { arch := some (ai, ci), indexInChunk := k }) :
    w.setComponent tid e v = w.setChunk ai ci
      (((w.archetypes.getD ai default).chunks.getD ci
        default).setComponentVal tid k v) := by
  unfold World.setComponent
  rw [hrec]

/-- Replacing one chunk by a well-formed one keeps every chunk well
formed. -/
theorem setChunk_WFAll (w : World) (reg : Registry) (ai ci : Nat)
    (cNew : Chunk)
    (hai : ai < w.archetypes.length)
    (hci : ci < (w.archetypes.getD ai default).chunks.length)
    (hwfAll : ∀ j, j < w.archetypes.length → ∀ cj,
      cj < (w.archetypes.getD j default).chunks.length →
      ChunkWF reg (w.archetypes.getD j default).signature
        ((w.archetypes.getD j default).chunks.getD cj default))
    (hWFnew : ChunkWF reg (w.archetypes.getD ai default).signature cNew) :
    ∀ j, j < (w.setChunk ai ci cNew).archetypes.length → ∀ cj,
      cj < ((w.setChunk ai ci cNew).archetypes.getD j
        default).chunks.length →
      ChunkWF reg ((w.setChunk ai ci cNew).archetypes.getD j
        default).signature
        (((w.setChunk ai ci cNew).archetypes.getD j default).chunks.getD cj
          default) := by
  intro j hj cj hcj
  rw [setChunk_archLen] at hj
  by_cases hja : j = ai
  · rw [hja] at hcj ⊢
    rw [setChunk_sig _ _ _ _ hai]
    rw [setChunk_chunksLen _ _ _ _ hai] at hcj
    by_cases hcja : cj = ci
    · rw [hcja, setChunk_getD_self _ _ _ _ hai hci]
      exact hWFnew
    · rw [setChunk_getD_ci_ne _ _ _ _ _ hai hcja]
      exact hwfAll ai hai cj hcj
  · rw [setChunk_getD_ne _ _ _ _ _ hja] at hcj ⊢
    exact hwfAll j hj cj hcj

/-- Replacing one chunk by one with the same occupancy (entity indices and
count) keeps the "entity occupies exactly one slot" property. -/
theorem setChunk_OccAll (w : World) (ai ci : Nat) (cNew : Chunk)
    (tgt nAi nCi k : Nat)
    (hai : ai < w.archetypes.length)
    (hci : ci < (w.archetypes.getD ai default).chunks.length)
    (hEI : cNew.entityIndices
      = ((w.archetypes.getD ai default).chunks.getD ci
        default).entityIndices)
    (hCnt : cNew.count
      = ((w.archetypes.getD ai default).chunks.getD ci default).count)
    (hOcc : ∀ j cj t, j < w.archetypes.length →
      cj < (w.archetypes.getD j default).chunks.length →
      t < ((w.archetypes.getD j default).chunks.getD cj default).count →
      ((w.archetypes.getD j default).chunks.getD cj
        default).entityIndices.getD t 0 = tgt →
      j = nAi ∧ cj = nCi ∧ t = k) :
    ∀ j cj t, j < (w.setChunk ai ci cNew).archetypes.length →
      cj < ((w.setChunk ai ci cNew).archetypes.getD j
        default).chunks.length →
      t < (((w.setChunk ai ci cNew).archetypes.getD j default).chunks.getD
        cj default).count →
      (((w.setChunk ai ci cNew).archetypes.getD j default).chunks.getD cj
        default).entityIndices.getD t 0 = tgt →
      j = nAi ∧ cj = nCi ∧ t = k := by
  intro j cj t hj hcj ht hval
  rw [setChunk_archLen] at hj
  by_cases hja : j = ai
  · rw [hja] at hcj ht hval ⊢
    rw [setChunk_chunksLen _ _ _ _ hai] at hcj
    by_cases hcja : cj = ci
    · rw [hcja] at ht hval ⊢
      rw [setChunk_getD_self _ _ _ _ hai hci] at ht hval
      rw [hCnt] at ht
      rw [hEI] at hval
      exact hOcc ai ci t hai hci ht hval
    · rw [setChunk_getD_ci_ne _ _ _ _ _ hai hcja] at ht hval
      exact hOcc ai cj t hai hcj ht hval
  · rw [setChunk_getD_ne _ _ _ _ _ hja] at hcj ht hval
    exact hOcc j cj t hj hcj ht hval

/-- The write-back step of `World::Add` (`*Get<T>() = value`): the record is
untouched, the destination slot's other columns keep their values, the new
component reads back as `v`, and well-formedness and occupancy survive. -/
theorem addFinish_spec (W2 : World) (e : Entity) (tid v GI nCi k : Nat)
    (c1 : W2.entityRecords.getD e.index default
      = { arch := some (GI, nCi), indexInChunk := k })
    (halive2 : W2.isAlive e = true)
    (hlen2 : e.index < W2.entityRecords.length)
    (hGI : GI < W2.archetypes.length)
    (hnCi : nCi < (W2.archetypes.getD GI default).chunks.length)
    (hdwf : ChunkWF W2.registry (W2.archetypes.getD GI default).signature
      ((W2.archetypes.getD GI default).chunks.getD nCi default))
    (htid : tid ∈ (W2.archetypes.getD GI default).signature)
    (hk : k < ((W2.archetypes.getD GI default).chunks.getD nCi
      default).count)
    (hkE : ((W2.archetypes.getD GI default).chunks.getD nCi
      default).entityIndices.getD k 0 = e.index)
    (hW2wfAll : ∀ j, j < W2.archetypes.length → ∀ cj,
      cj < (W2.archetypes.getD j default).chunks.length →
      ChunkWF W2.registry (W2.archetypes.getD j default).signature
        ((W2.archetypes.getD j default).chunks.getD cj default))
    (hW2occ : ∀ j cj t, j < W2.archetypes.length →
      cj < (W2.archetypes.getD j default).chunks.length →
      t < ((W2.archetypes.getD j default).chunks.getD cj default).count →
      ((W2.archetypes.getD j default).chunks.getD cj
        default).entityIndices.getD t 0 = e.index →
      j = GI ∧ cj = nCi ∧ t = k) :
    (W2.setComponent tid e v).entityRecords.getD e.index default
      = { arch := some (GI, nCi), indexInChunk := k } ∧
    (W2.setComponent tid e v).entityRecords.length
      = W2.entityRecords.length ∧
    (W2.setComponent tid e v).registry = W2.registry ∧
    (W2.setComponent tid e v).versions = W2.versions ∧
    (W2.setComponent tid e v).alive = W2.alive ∧
    (W2.setComponent tid e v).archetypes.length = W2.archetypes.length ∧
    ((W2.setComponent tid e v).archetypes.getD GI default).signature
      = (W2.archetypes.getD GI default).signature ∧
    nCi < ((W2.setComponent tid e v).archetypes.getD GI
      default).chunks.length ∧
    ChunkWF W2.registry (W2.archetypes.getD GI default).signature
      (((W2.setComponent tid e v).archetypes.getD GI default).chunks.getD
        nCi default) ∧
    k < (((W2.setComponent tid e v).archetypes.getD GI default).chunks.getD
      nCi default).count ∧
    (((W2.setComponent tid e v).archetypes.getD GI default).chunks.getD nCi
      default).entityIndices.getD k 0 = e.index ∧
    (∀ t2, t2 ≠ tid →
      colVal (((W2.setComponent tid e v).archetypes.getD GI
        default).chunks.getD nCi default) t2 k
        = colVal ((W2.archetypes.getD GI default).chunks.getD nCi default)
          t2 k) ∧
    colVal (((W2.setComponent tid e v).archetypes.getD GI
      default).chunks.getD nCi default) tid k = v ∧
    (∀ j, j < (W2.setComponent tid e v).archetypes.length → ∀ cj,
      cj < ((W2.setComponent tid e v).archetypes.getD j
        default).chunks.length →
      ChunkWF W2.registry ((W2.setComponent tid e v).archetypes.getD j
        default).signature
        (((W2.setComponent tid e v).archetypes.getD j default).chunks.getD
          cj default)) ∧
    (∀ j cj t, j < (W2.setComponent tid e v).archetypes.length →
      cj < ((W2.setComponent tid e v).archetypes.getD j
        default).chunks.length →
      t < (((W2.setComponent tid e v).archetypes.getD j default).chunks.getD
        cj default).count →
      (((W2.setComponent tid e v).archetypes.getD j default).chunks.getD cj
        default).entityIndices.getD t 0 = e.index →
      j = GI ∧ cj = nCi ∧ t = k) ∧
    (W2.setComponent tid e v).getComponent tid e = Except.ok v := by
  have hmemT : tid ∈ ((W2.archetypes.getD GI default).chunks.getD nCi
      default).columns.map Column.typeID := by
    rw [hdwf.1]
    exact htid
  obtain ⟨col, hfind, hcolT, hcolM⟩ := find?_typeID_of_mem _ tid hmemT
  have hklen : k < col.vals.length := by
    rw [hdwf.2.1 col hcolM]
    have h4 := hdwf.2.2.2.1
    omega
  rw [setComponent_spec W2 tid e v GI nCi k c1]
  have hDC2WF : ChunkWF W2.registry
      (W2.archetypes.getD GI default).signature
      (((W2.archetypes.getD GI default).chunks.getD nCi
        default).setComponentVal tid k v) := by
    refine ⟨?_, ?_, hdwf.2.2.1, hdwf.2.2.2.1, hdwf.2.2.2.2⟩
    · show (setFirstCol ((W2.archetypes.getD GI default).chunks.getD nCi
        default).columns tid k v).map Column.typeID = _
      rw [setFirstCol_typeIDs]
      exact hdwf.1
    · intro col2 hc2
      obtain ⟨col1, h1, hl⟩ := mem_setFirstCol _ _ _ _ _ hc2
      rw [hl]
      exact hdwf.2.1 col1 h1
  have hb9 : ((W2.setChunk GI nCi (((W2.archetypes.getD GI
      default).chunks.getD nCi default).setComponentVal tid k
      v)).archetypes.getD GI default).chunks.getD nCi default
      = ((W2.archetypes.getD GI default).chunks.getD nCi
        default).setComponentVal tid k v :=
    setChunk_getD_self _ _ _ _ hGI hnCi
  refine ⟨c1, rfl, rfl, rfl, rfl, setChunk_archLen _ _ _ _,
    setChunk_sig _ _ _ _ hGI, ?_, ?_, ?_, ?_, ?_, ?_, ?_, ?_, ?_⟩
  · rw [setChunk_chunksLen _ _ _ _ hGI]
    exact hnCi
  · rw [hb9]
    exact hDC2WF
  · rw [hb9]
    exact hk
  · rw [hb9]
    exact hkE
  · intro t2 ht2
    rw [hb9]
    exact colVal_setFirstCol_ne _ _ _ _ _ _ ht2
  · rw [hb9]
    exact colVal_setFirstCol_self _ _ _ _ col hfind hklen
  · exact setChunk_WFAll W2 W2.registry GI nCi _ hGI hnCi hW2wfAll hDC2WF
  · exact setChunk_OccAll W2 GI nCi _ e.index GI nCi k hGI hnCi rfl rfl
      hW2occ
  · have halive3 : (W2.setChunk GI nCi (((W2.archetypes.getD GI
        default).chunks.getD nCi default).setComponentVal tid k
        v)).isAlive e = true :=
      (isAlive_frame _ W2 e rfl rfl).trans halive2
    have hg := getComponent_spec _ tid e GI nCi k halive3 hlen2 c1 ?_ ?_
    · rw [hg]
      rw [hb9]
      exact congrArg Except.ok
        (colVal_setFirstCol_self _ _ _ _ col hfind hklen)
    · rw [hb9]
      show tid ∈ (setFirstCol ((W2.archetypes.getD GI default).chunks.getD
        nCi default).columns tid k v).map Column.typeID
      rw [setFirstCol_typeIDs]
      exact hmemT
    · rw [hb9]
      exact hk

/-- Registering a fresh type cannot change the well-formedness of a chunk
whose signature was already fully registered. -/
theorem ChunkWF_regRegister (reg : Registry) (tid sz : Nat) (sig : List Nat)
    (c : Chunk) (h : ∀ t ∈ sig, (regFind reg t).isSome = true)
    (hwf : ChunkWF reg sig c) : ChunkWF (regRegister reg tid sz) sig c := by
  obtain ⟨a1, a2, a3, a4, a5⟩ := hwf
  exact ⟨a1, a2, a3, a4,
    a5.trans (chunkCapacity_regRegister reg tid sz sig h).symm⟩

/-- `World::Add<T>` on an alive entity that already has components but not
`T`, when the grown signature still fits at least one entity per chunk:
the call succeeds, the entity lands in a well-formed slot of the archetype
for the grown signature, the new component reads back as the written value,
and the previously stored component values survive bit-identically. -/
theorem add_spec_some (w : World) (e : Entity) (tid sz v oldAi oldCi s : Nat)
    (hwf : WorldWF w) (halive : w.isAlive e = true)
    (hrec : w.entityRecords.getD e.index default
      = { arch := some (oldAi, oldCi), indexInChunk := s })
    (hno : w.hasComponent tid e = false)
    (hcap : 1 ≤ chunkCapacity (regRegister w.registry tid sz)
      (sigAdd tid (w.archetypes.getD oldAi default).signature)) :
    ∃ GI nCi k,
      (w.add tid sz v e).2 = none ∧
      (w.add tid sz v e).1.entityRecords.getD e.index default
        = { arch := some (GI, nCi), indexInChunk := k } ∧
      (w.add tid sz v e).1.entityRecords.length = w.entityRecords.length ∧
      (w.add tid sz v e).1.registry = regRegister w.registry tid sz ∧
      (w.add tid sz v e).1.versions = w.versions ∧
      (w.add tid sz v e).1.alive = w.alive ∧
      GI < (w.add tid sz v e).1.archetypes.length ∧
      ((w.add tid sz v e).1.archetypes.getD GI default).signature
        = sigAdd tid (w.archetypes.getD oldAi default).signature ∧
      nCi < ((w.add tid sz v e).1.archetypes.getD GI
        default).chunks.length ∧
      ChunkWF (regRegister w.registry tid sz)
        (sigAdd tid (w.archetypes.getD oldAi default).signature)
        (((w.add tid sz v e).1.archetypes.getD GI default).chunks.getD nCi
          default) ∧
      k < (((w.add tid sz v e).1.archetypes.getD GI default).chunks.getD
        nCi default).count ∧
      (((w.add tid sz v e).1.archetypes.getD GI default).chunks.getD nCi
        default).entityIndices.getD k 0 = e.index ∧
      (∀ t2, t2 ∈ (w.archetypes.getD oldAi default).signature → t2 ≠ tid →
        colVal (((w.add tid sz v e).1.archetypes.getD GI
          default).chunks.getD nCi default) t2 k
          = colVal ((w.archetypes.getD oldAi default).chunks.getD oldCi
            default) t2 s) ∧
      colVal (((w.add tid sz v e).1.archetypes.getD GI default).chunks.getD
        nCi default) tid k = v ∧
      (∀ j, j < (w.add tid sz v e).1.archetypes.length → ∀ cj,
        cj < ((w.add tid sz v e).1.archetypes.getD j
          default).chunks.length →
        ChunkWF (regRegister w.registry tid sz)
          ((w.add tid sz v e).1.archetypes.getD j default).signature
          (((w.add tid sz v e).1.archetypes.getD j default).chunks.getD cj
            default)) ∧
      (∀ j cj t, j < (w.add tid sz v e).1.archetypes.length →
        cj < ((w.add tid sz v e).1.archetypes.getD j
          default).chunks.length →
        t < (((w.add tid sz v e).1.archetypes.getD j default).chunks.getD
          cj default).count →
        (((w.add tid sz v e).1.archetypes.getD j default).chunks.getD cj
          default).entityIndices.getD t 0 = e.index →
        j = GI ∧ cj = nCi ∧ t = k) ∧
      (w.add tid sz v e).1.getComponent tid e = Except.ok v := by
  obtain ⟨hwfA, hwfS, hwfL⟩ := hwf
  obtain ⟨hsc1, hsc2, hsc3⟩ := hwfS
  have hvlen := isAlive_index_lt w e halive
  have hei : e.index < w.entityRecords.length := by
    rw [hwfL]
    exact hvlen
  obtain ⟨holdAi, holdCi, hsRaw, hback⟩ :=
    hsc2 e.index hei oldAi oldCi (by rw [hrec])
  have hs : s < ((w.archetypes.getD oldAi default).chunks.getD oldCi
      default).count := by
    rw [hrec] at hsRaw
    exact hsRaw
  have hcont : ((w.archetypes.getD oldAi default).signature).contains tid
      = false := by
    unfold World.hasComponent at hno
    rw [if_neg (by rw [halive]; simp), if_neg (by omega)] at hno
    rw [hrec] at hno
    exact hno
  have hcur : currentSigOf w e
      = (w.archetypes.getD oldAi default).signature := by
    unfold currentSigOf
    rw [if_pos hei, hrec]
  unfold World.add
  rw [if_neg (by rw [halive]; simp)]
  dsimp only
  rw [show World.hasComponent
      { w with registry := regRegister w.registry tid sz } tid e
      = w.hasComponent tid e from rfl]
  rw [hno, if_neg (by simp)]
  rw [show currentSigOf
      { w with registry := regRegister w.registry tid sz } e
      = currentSigOf w e from rfl]
  rw [hcur]
  set W0 := { w with registry := regRegister w.registry tid sz } with hW0
  set S := sigAdd tid (w.archetypes.getD oldAi default).signature with hS
  obtain ⟨g1, g2, g3, g4, g5, g6, g7, g8, g9, g10, g11, g12⟩ :=
    getOrCreateArchetype_facts W0 S
  set WG := (W0.getOrCreateArchetype S).1 with hWG
  set GI := (W0.getOrCreateArchetype S).2 with hGI
  have hW0arch : W0.archetypes = w.archetypes := by rw [hW0]
  have hW0rec : W0.entityRecords = w.entityRecords := by rw [hW0]
  have hW0reg : W0.registry = regRegister w.registry tid sz := by rw [hW0]
  have hW0ver : W0.versions = w.versions := by rw [hW0]
  have hW0al : W0.alive = w.alive := by rw [hW0]
  have h1 : oldAi < W0.archetypes.length := by
    rw [hW0arch]
    exact holdAi
  have hregS : ∀ t ∈ S, (regFind W0.registry t).isSome = true := by
    intro t ht
    rw [hS] at ht
    rcases (mem_sigAdd tid t _).mp ht with heq | hmem
    · rw [heq, hW0reg]
      exact regFind_regRegister_self w.registry tid sz
    · have hr := (hwfA oldAi holdAi).1 t hmem
      rw [hW0reg, regFind_regRegister_preserve w.registry tid sz t hr]
      exact hr
  have hwfAll0 : ∀ j, j < w.archetypes.length → ∀ cj,
      cj < (w.archetypes.getD j default).chunks.length →
      ChunkWF W0.registry (w.archetypes.getD j default).signature
        ((w.archetypes.getD j default).chunks.getD cj default) := by
    intro j hj cj hcj
    rw [hW0reg]
    exact ChunkWF_regRegister w.registry tid sz _ _ ((hwfA j hj).1)
      ((hwfA j hj).2.2 cj hcj)
  have hsgGI : (WG.archetypes.getD GI default).signature = S := g9
  have hsgOld : (WG.archetypes.getD oldAi default).signature
      = (w.archetypes.getD oldAi default).signature := by
    rw [g11 oldAi h1, hW0arch]
  have hSlen : S.length
      = (w.archetypes.getD oldAi default).signature.length + 1 := by
    rw [hS]
    exact length_sigAdd tid _ hcont
  have hneq : oldAi ≠ GI := by
    intro hhe
    rw [← hhe, hsgOld] at hsgGI
    have hlen := congrArg List.length hsgGI
    omega
  have hrecWG : WG.entityRecords.getD e.index default
      = { arch := some (oldAi, oldCi), indexInChunk := s } := by
    rw [g7, hW0rec]
    exact hrec
  have heIdxWG : e.index < WG.entityRecords.length := by
    rw [g7, hW0rec]
    exact hei
  have holdAiWG : oldAi < WG.archetypes.length := by omega
  have holdCiWG : oldCi < (WG.archetypes.getD oldAi
      default).chunks.length := by
    rw [g11 oldAi h1, hW0arch]
    exact holdCi
  have hwfAllWG : ∀ j, j < WG.archetypes.length → ∀ cj,
      cj < (WG.archetypes.getD j default).chunks.length →
      ChunkWF WG.registry (WG.archetypes.getD j default).signature
        ((WG.archetypes.getD j default).chunks.getD cj default) := by
    intro j hj cj hcj
    by_cases hjl : j < W0.archetypes.length
    · rw [g11 j hjl] at hcj ⊢
      rw [g1]
      rw [hW0arch] at hcj ⊢
      rw [hW0arch] at hjl
      exact hwfAll0 j hjl cj hcj
    · rw [g12 j (by omega) hj] at hcj
      exact absurd hcj (by simp)
  have hregWG : ∀ t ∈ (WG.archetypes.getD GI default).signature,
      (regFind WG.registry t).isSome = true := by
    rw [hsgGI, g1]
    exact hregS
  have hcapWG : 1 ≤ chunkCapacity WG.registry
      (WG.archetypes.getD GI default).signature := by
    rw [hsgGI, g1, hW0reg]
    exact hcap
  have hsWG : s < ((WG.archetypes.getD oldAi default).chunks.getD oldCi
      default).count := by
    rw [g11 oldAi h1, hW0arch]
    exact hs
  have hOnlyWG : ∀ j cj t, j < WG.archetypes.length →
      cj < (WG.archetypes.getD j default).chunks.length →
      t < ((WG.archetypes.getD j default).chunks.getD cj default).count →
      ((WG.archetypes.getD j default).chunks.getD cj
        default).entityIndices.getD t 0 = e.index →
      j = oldAi ∧ cj = oldCi ∧ t = s := by
    intro j cj t hj hcj ht hval
    by_cases hjl : j < W0.archetypes.length
    · rw [g11 j hjl] at hcj ht hval
      rw [hW0arch] at hcj ht hval hjl
      have hb := hsc1 j hjl cj hcj t ht
      rw [hval] at hb
      have h2 := hb.2
      rw [hrec] at h2
      injection h2 with ha hi
      injection ha with hp
      rw [Prod.mk.injEq] at hp
      exact ⟨hp.1.symm, hp.2.symm, hi.symm⟩
    · rw [g12 j (by omega) hj] at ht
      have hz : (({ signature := S, chunks := [] } : Archetype).chunks.getD
          cj default).count = 0 := rfl
      rw [hz] at ht
      omega
  obtain ⟨nCi, k, c1, c2, c3, c4, c5, c6, c7, c8, c9, c10, c11, c12, c13,
    c14, c15, c16, c17, c18⟩ :=
    moveEntity_spec_some WG e GI oldAi oldCi s hrecWG heIdxWG g8 holdAiWG
      holdCiWG hneq hwfAllWG hregWG hcapWG hsWG hOnlyWG
  set W2 := WG.moveEntity e GI with hW2
  have hv2 : W2.versions = w.versions := by rw [c4, g2, hW0ver]
  have ha2 : W2.alive = w.alive := by rw [c5, g3, hW0al]
  have hreg2eq : W2.registry = regRegister w.registry tid sz := by
    rw [c3, g1, hW0reg]
  have hsig2eq : (W2.archetypes.getD GI default).signature = S := by
    rw [c10 GI g8]
    exact hsgGI
  have halive2 : W2.isAlive e = true :=
    (isAlive_frame W2 w e hv2 ha2).trans halive
  have hlen2 : e.index < W2.entityRecords.length := by
    rw [c2, g7, hW0rec]
    exact hei
  have hGI2 : GI < W2.archetypes.length := by
    rw [c9]
    exact g8
  have hdwf2 : ChunkWF W2.registry
      (W2.archetypes.getD GI default).signature
      ((W2.archetypes.getD GI default).chunks.getD nCi default) := by
    rw [c3, c10 GI g8]
    exact c13
  have htidS : tid ∈ S := by
    rw [hS]
    exact (mem_sigAdd tid tid _).mpr (Or.inl rfl)
  have htid2 : tid ∈ (W2.archetypes.getD GI default).signature := by
    rw [hsig2eq]
    exact htidS
  have hW2wfAll : ∀ j, j < W2.archetypes.length → ∀ cj,
      cj < (W2.archetypes.getD j default).chunks.length →
      ChunkWF W2.registry (W2.archetypes.getD j default).signature
        ((W2.archetypes.getD j default).chunks.getD cj default) := by
    intro j hj cj hcj
    rw [c9] at hj
    rw [c10 j hj, c3]
    exact c17 j hj cj hcj
  have hget := getComponent_spec W2 tid e GI nCi k halive2 hlen2 c1
    (by rw [c13.1, hsgGI]; exact htidS) c14
  rw [hget]
  dsimp only
  obtain ⟨b1, b2, b3, b4, b5, b6, b7, b8, b9, b10, b11, b12, b13, b14, b15,
    b16⟩ := addFinish_spec W2 e tid v GI nCi k c1 halive2 hlen2 hGI2 c12
      hdwf2 htid2 c14 c15 hW2wfAll c18
  refine ⟨GI, nCi, k, rfl, b1, ?_, b3.trans hreg2eq, b4.trans hv2,
    b5.trans ha2, ?_, b7.trans hsig2eq, b8, ?_, b10, b11, ?_, b13, ?_, b15,
    b16⟩
  · rw [b2, c2, g7, hW0rec]
  · rw [b6, c9]
    exact g8
  · have hb := b9
    rw [hreg2eq, hsig2eq] at hb
    exact hb
  · intro t2 ht2m ht2ne
    refine (b12 t2 ht2ne).trans ((c16 t2 ?_ ?_).trans ?_)
    · rw [hsgOld]
      exact ht2m
    · rw [hsgGI, hS]
      exact (mem_sigAdd tid t2 _).mpr (Or.inr ht2m)
    · rw [g11 oldAi h1, hW0arch]
  · intro j hj cj hcj
    have hb := b14 j hj cj hcj
    rw [hreg2eq] at hb
    exact hb

/-- `World::Add<T>` on an alive entity with a null record (no components),
when the one-element signature fits at least one entity per chunk. -/
theorem add_spec_none (w : World) (e : Entity) (tid sz v r0 : Nat)
    (hwf : WorldWF w) (halive : w.isAlive e = true)
    (hrec : w.entityRecords.getD e.index default
      = { arch := none, indexInChunk := r0 })
    (hcap : 1 ≤ chunkCapacity (regRegister w.registry tid sz)
      (sigAdd tid [])) :
    ∃ GI nCi k,
      (w.add tid sz v e).2 = none ∧
      (w.add tid sz v e).1.entityRecords.getD e.index default
        = { arch := some (GI, nCi), indexInChunk := k } ∧
      (w.add tid sz v e).1.entityRecords.length = w.entityRecords.length ∧
      (w.add tid sz v e).1.registry = regRegister w.registry tid sz ∧
      (w.add tid sz v e).1.versions = w.versions ∧
      (w.add tid sz v e).1.alive = w.alive ∧
      GI < (w.add tid sz v e).1.archetypes.length ∧
      ((w.add tid sz v e).1.archetypes.getD GI default).signature
        = sigAdd tid [] ∧
      nCi < ((w.add tid sz v e).1.archetypes.getD GI
        default).chunks.length ∧
      ChunkWF (regRegister w.registry tid sz) (sigAdd tid [])
        (((w.add tid sz v e).1.archetypes.getD GI default).chunks.getD nCi
          default) ∧
      k < (((w.add tid sz v e).1.archetypes.getD GI default).chunks.getD
        nCi default).count ∧
      (((w.add tid sz v e).1.archetypes.getD GI default).chunks.getD nCi
        default).entityIndices.getD k 0 = e.index ∧
      colVal (((w.add tid sz v e).1.archetypes.getD GI default).chunks.getD
        nCi default) tid k = v ∧
      (∀ j, j < (w.add tid sz v e).1.archetypes.length → ∀ cj,
        cj < ((w.add tid sz v e).1.archetypes.getD j
          default).chunks.length →
        ChunkWF (regRegister w.registry tid sz)
          ((w.add tid sz v e).1.archetypes.getD j default).signature
          (((w.add tid sz v e).1.archetypes.getD j default).chunks.getD cj
            default)) ∧
      (∀ j cj t, j < (w.add tid sz v e).1.archetypes.length →
        cj < ((w.add tid sz v e).1.archetypes.getD j
          default).chunks.length →
        t < (((w.add tid sz v e).1.archetypes.getD j default).chunks.getD
          cj default).count →
        (((w.add tid sz v e).1.archetypes.getD j default).chunks.getD cj
          default).entityIndices.getD t 0 = e.index →
        j = GI ∧ cj = nCi ∧ t = k) ∧
      (w.add tid sz v e).1.getComponent tid e = Except.ok v := by
  obtain ⟨hwfA, hwfS, hwfL⟩ := hwf
  obtain ⟨hsc1, hsc2, hsc3⟩ := hwfS
  have hvlen := isAlive_index_lt w e halive
  have hei : e.index < w.entityRecords.length := by
    rw [hwfL]
    exact hvlen
  have hno : w.hasComponent tid e = false := by
    unfold World.hasComponent
    rw [if_neg (by rw [halive]; simp), if_neg (by omega)]
    rw [hrec]
  have hcur : currentSigOf w e = [] := by
    unfold currentSigOf
    rw [if_pos hei, hrec]
  unfold World.add
  rw [if_neg (by rw [halive]; simp)]
  dsimp only
  rw [show World.hasComponent
      { w with registry := regRegister w.registry tid sz } tid e
      = w.hasComponent tid e from rfl]
  rw [hno, if_neg (by simp)]
  rw [show currentSigOf
      { w with registry := regRegister w.registry tid sz } e
      = currentSigOf w e from rfl]
  rw [hcur]
  set W0 := { w with registry := regRegister w.registry tid sz } with hW0
  set S := sigAdd tid [] with hS
  obtain ⟨g1, g2, g3, g4, g5, g6, g7, g8, g9, g10, g11, g12⟩ :=
    getOrCreateArchetype_facts W0 S
  set WG := (W0.getOrCreateArchetype S).1 with hWG
  set GI := (W0.getOrCreateArchetype S).2 with hGI
  have hW0arch : W0.archetypes = w.archetypes := by rw [hW0]
  have hW0rec : W0.entityRecords = w.entityRecords := by rw [hW0]
  have hW0reg : W0.registry = regRegister w.registry tid sz := by rw [hW0]
  have hW0ver : W0.versions = w.versions := by rw [hW0]
  have hW0al : W0.alive = w.alive := by rw [hW0]
  have hregS : ∀ t ∈ S, (regFind W0.registry t).isSome = true := by
    intro t ht
    rw [hS] at ht
    rcases (mem_sigAdd tid t _).mp ht with heq | hmem
    · rw [heq, hW0reg]
      exact regFind_regRegister_self w.registry tid sz
    · exact absurd hmem (by simp)
  have hwfAll0 : ∀ j, j < w.archetypes.length → ∀ cj,
      cj < (w.archetypes.getD j default).chunks.length →
      ChunkWF W0.registry (w.archetypes.getD j default).signature
        ((w.archetypes.getD j default).chunks.getD cj default) := by
    intro j hj cj hcj
    rw [hW0reg]
    exact ChunkWF_regRegister w.registry tid sz _ _ ((hwfA j hj).1)
      ((hwfA j hj).2.2 cj hcj)
  have hsgGI : (WG.archetypes.getD GI default).signature = S := g9
  have hrecWG : WG.entityRecords.getD e.index default
      = { arch := none, indexInChunk := r0 } := by
    rw [g7, hW0rec]
    exact hrec
  have heIdxWG : e.index < WG.entityRecords.length := by
    rw [g7, hW0rec]
    exact hei
  have hwfAllWG : ∀ j, j < WG.archetypes.length → ∀ cj,
      cj < (WG.archetypes.getD j default).chunks.length →
      ChunkWF WG.registry (WG.archetypes.getD j default).signature
        ((WG.archetypes.getD j default).chunks.getD cj default) := by
    intro j hj cj hcj
    by_cases hjl : j < W0.archetypes.length
    · rw [g11 j hjl] at hcj ⊢
      rw [g1]
      rw [hW0arch] at hcj ⊢
      rw [hW0arch] at hjl
      exact hwfAll0 j hjl cj hcj
    · rw [g12 j (by omega) hj] at hcj
      exact absurd hcj (by simp)
  have hregWG : ∀ t ∈ (WG.archetypes.getD GI default).signature,
      (regFind WG.registry t).isSome = true := by
    rw [hsgGI, g1]
    exact hregS
  have hcapWG : 1 ≤ chunkCapacity WG.registry
      (WG.archetypes.getD GI default).signature := by
    rw [hsgGI, g1, hW0reg]
    exact hcap
  have hNoneWG : ∀ j cj t, j < WG.archetypes.length →
      cj < (WG.archetypes.getD j default).chunks.length →
      t < ((WG.archetypes.getD j default).chunks.getD cj default).count →
      ((WG.archetypes.getD j default).chunks.getD cj
        default).entityIndices.getD t 0 ≠ e.index := by
    intro j cj t hj hcj ht hval
    by_cases hjl : j < W0.archetypes.length
    · rw [g11 j hjl] at hcj ht hval
      rw [hW0arch] at hcj ht hval hjl
      have hb := hsc1 j hjl cj hcj t ht
      rw [hval] at hb
      have h2 := hb.2
      rw [hrec] at h2
      injection h2 with ha _
      exact absurd ha (by simp)
    · rw [g12 j (by omega) hj] at ht
      have hz : (({ signature := S, chunks := [] } : Archetype).chunks.getD
          cj default).count = 0 := rfl
      rw [hz] at ht
      omega
  obtain ⟨nCi, k, c1, c2, c3, c4, c5, c6, c7, c8, c9, c10, c11, c12, c13,
    c14, c15, c16, c17⟩ :=
    moveEntity_spec_none WG e GI r0 hrecWG heIdxWG g8 hwfAllWG hregWG
      hcapWG hNoneWG
  set W2 := WG.moveEntity e GI with hW2
  have hv2 : W2.versions = w.versions := by rw [c4, g2, hW0ver]
  have ha2 : W2.alive = w.alive := by rw [c5, g3, hW0al]
  have hreg2eq : W2.registry = regRegister w.registry tid sz := by
    rw [c3, g1, hW0reg]
  have hsig2eq : (W2.archetypes.getD GI default).signature = S := by
    rw [c10 GI g8]
    exact hsgGI
  have halive2 : W2.isAlive e = true :=
    (isAlive_frame W2 w e hv2 ha2).trans halive
  have hlen2 : e.index < W2.entityRecords.length := by
    rw [c2, g7, hW0rec]
    exact hei
  have hGI2 : GI < W2.archetypes.length := by
    rw [c9]
    exact g8
  have hdwf2 : ChunkWF W2.registry
      (W2.archetypes.getD GI default).signature
      ((W2.archetypes.getD GI default).chunks.getD nCi default) := by
    rw [c3, c10 GI g8]
    exact c13
  have htidS : tid ∈ S := by
    rw [hS]
    exact (mem_sigAdd tid tid _).mpr (Or.inl rfl)
  have htid2 : tid ∈ (W2.archetypes.getD GI default).signature := by
    rw [hsig2eq]
    exact htidS
  have hW2wfAll : ∀ j, j < W2.archetypes.length → ∀ cj,
      cj < (W2.archetypes.getD j default).chunks.length →
      ChunkWF W2.registry (W2.archetypes.getD j default).signature
        ((W2.archetypes.getD j default).chunks.getD cj default) := by
    intro j hj cj hcj
    rw [c9] at hj
    rw [c10 j hj, c3]
    exact c16 j hj cj hcj
  have hget := getComponent_spec W2 tid e GI nCi k halive2 hlen2 c1
    (by rw [c13.1, hsgGI]; exact htidS) c14
  rw [hget]
  dsimp only
  obtain ⟨b1, b2, b3, b4, b5, b6, b7, b8, b9, b10, b11, b12, b13, b14, b15,
    b16⟩ := addFinish_spec W2 e tid v GI nCi k c1 halive2 hlen2 hGI2 c12
      hdwf2 htid2 c14 c15 hW2wfAll c17
  refine ⟨GI, nCi, k, rfl, b1, ?_, b3.trans hreg2eq, b4.trans hv2,
    b5.trans ha2, ?_, b7.trans hsig2eq, b8, ?_, b10, b11, b13, ?_, b15,
    b16⟩
  · rw [b2, c2, g7, hW0rec]
  · rw [b6, c9]
    exact g8
  · have hb := b9
    rw [hreg2eq, hsig2eq] at hb
    exact hb
  · intro j hj cj hcj
    have hb := b14 j hj cj hcj
    rw [hreg2eq] at hb
    exact hb

/-- **C6** (amended): for a well-formed world and an alive entity `e`, if
`e` does not hold `T` and the grown signature still fits at least one entity
per 64 KiB chunk, then `Add<T>(e, v)` succeeds and a following `Get<T>(e)`
reads back exactly `v`; if `e` already holds `T`, `Add<T>` fails with
`ComponentAlreadyExists` and returns the world unchanged. -/
theorem C6_add_get_postcondition (w : World) (e : Entity) (tid sz v : Nat)
    (hwf : WorldWF w) (halive : w.isAlive e = true) :
    (w.hasComponent tid e = false →
      1 ≤ chunkCapacity (regRegister w.registry tid sz)
        (sigAdd tid (currentSigOf w e)) →
      (w.add tid sz v e).2 = none ∧
      (w.add tid sz v e).1.getComponent tid e = Except.ok v) ∧
    (w.hasComponent tid e = true →
      w.add tid sz v e = (w, some Error.ComponentAlreadyExists)) := by
  have hei : e.index < w.entityRecords.length := by
    rw [hwf.2.2]
    exact isAlive_index_lt w e halive
  constructor
  · intro hno hcap
    rcases hre : (w.entityRecords.getD e.index default).arch with _ |
      ⟨oldAi, oldCi⟩
    · have hrecfull : w.entityRecords.getD e.index default
          = { arch := none, indexInChunk :=
              (w.entityRecords.getD e.index default).indexInChunk } := by
        rw [← hre]
      have hcur : currentSigOf w e = [] := by
        unfold currentSigOf
        rw [if_pos hei, hre]
      rw [hcur] at hcap
      obtain ⟨GI, nCi, k, a1, a2, a3, a4, a5, a6, a7, a8, a9, a10, a11, a12,
        a13, a14, a15, a16⟩ :=
        add_spec_none w e tid sz v
          ((w.entityRecords.getD e.index default).indexInChunk) hwf halive
          hrecfull hcap
      exact ⟨a1, a16⟩
    · have hrecfull : w.entityRecords.getD e.index default
          = { arch := some (oldAi, oldCi), indexInChunk :=
              (w.entityRecords.getD e.index default).indexInChunk } := by
        rw [← hre]
      have hcur : currentSigOf w e
          = (w.archetypes.getD oldAi default).signature := by
        unfold currentSigOf
        rw [if_pos hei, hre]
      rw [hcur] at hcap
      obtain ⟨GI, nCi, k, a1, a2, a3, a4, a5, a6, a7, a8, a9, a10, a11, a12,
        a13, a14, a15, a16, a17⟩ :=
        add_spec_some w e tid sz v oldAi oldCi
          ((w.entityRecords.getD e.index default).indexInChunk) hwf halive
          hrecfull hno hcap
      exact ⟨a1, a17⟩
  · intro hyes
    have hregsome : (regFind w.registry tid).isSome = true := by
      unfold World.hasComponent at hyes
      rw [if_neg (by rw [halive]; simp), if_neg (by omega)] at hyes
      rcases harch : (w.entityRecords.getD e.index default).arch with _ |
        ⟨ai, ci⟩
      · rw [harch] at hyes
        exact absurd hyes (by simp)
      · rw [harch] at hyes
        have hmemT : tid ∈ (w.archetypes.getD ai default).signature := by
          have hv : ((w.archetypes.getD ai
              default).signature).contains tid = true := hyes
          simpa using hv
        have hai : ai < w.archetypes.length :=
          (hwf.2.1.2.1 e.index hei ai ci harch).1
        exact (hwf.1 ai hai).1 tid hmemT
    have hrrid : regRegister w.registry tid sz = w.registry := by
      unfold regRegister
      rw [if_pos hregsome]
    unfold World.add
    rw [if_neg (by rw [halive]; simp)]
    dsimp only
    rw [show ({ w with registry := regRegister w.registry tid sz } : World)
      = w from by rw [hrrid]]
    rw [if_pos hyes]

/-- Closed instance of the C6 theorem: in the two-entity world where entity
0 holds component 1, adding component 2 succeeds and reads back 55, while
adding component 1 again fails with `ComponentAlreadyExists` and leaves the
world untouched. -/
theorem C6_add_get_postcondition_witness :
    ((c8Step3.1.add 2 100 55 c8Step1.2).2 = none ∧
      (c8Step3.1.add 2 100 55 c8Step1.2).1.getComponent 2 c8Step1.2
        = Except.ok 55) ∧
    c8Step3.1.add 1 32636 77 c8Step1.2
      = (c8Step3.1, some Error.ComponentAlreadyExists) := by
  have hwf : WorldWF c8Step3.1 := by
    refine ⟨by unfold ChunkWF; decide, ⟨by decide, ?_, by decide⟩, by decide⟩
    intro eIdx hlen ai ci harch
    have hlen2 : c8Step3.1.entityRecords.length = 2 := rfl
    rw [hlen2] at hlen
    interval_cases eIdx
    · have h2 : (some ((0 : Nat), (0 : Nat)) : Option (Nat × Nat))
          = some (ai, ci) := harch
      injection h2 with h3
      rw [Prod.mk.injEq] at h3
      obtain ⟨h4, h5⟩ := h3
      subst h4
      subst h5
      decide
    · have h2 : (none : Option (Nat × Nat)) = some (ai, ci) := harch
      exact absurd h2 (by simp)
  have h1 := C6_add_get_postcondition c8Step3.1 c8Step1.2 2 100 55 hwf
    (by decide)
  have h2 := C6_add_get_postcondition c8Step3.1 c8Step1.2 1 32636 77 hwf
    (by decide)
  exact ⟨h1.1 (by decide) (by decide), h2.2 (by decide)⟩

/-- **C4** (amended): in a well-formed world, for an alive entity holding
exactly components `A` and `B` (its archetype signature is `[A, B]`) and a
third registered-on-demand component `C` distinct from both, when the grown
signature `{A,B,C}` still fits at least one entity per 64 KiB chunk,
`Add<C>` and then `Remove<C>` both succeed and afterwards the stored values
of `A` and `B` read back bit-identically to before the round trip. -/
theorem C4_migration_roundtrip (w : World) (e : Entity)
    (tidA tidB tidC sC cv oldAi oldCi : Nat)
    (hwf : WorldWF w) (halive : w.isAlive e = true)
    (hre : (w.entityRecords.getD e.index default).arch = some (oldAi, oldCi))
    (hsig : (w.archetypes.getD oldAi default).signature = [tidA, tidB])
    (hCA : tidC ≠ tidA) (hCB : tidC ≠ tidB)
    (hcap : 1 ≤ chunkCapacity (regRegister w.registry tidC sC)
      (sigAdd tidC [tidA, tidB])) :
    (w.add tidC sC cv e).2 = none ∧
    ((w.add tidC sC cv e).1.remove tidC e).2 = none ∧
    ((w.add tidC sC cv e).1.remove tidC e).1.getComponent tidA e
      = w.getComponent tidA e ∧
    ((w.add tidC sC cv e).1.remove tidC e).1.getComponent tidB e
      = w.getComponent tidB e := by
  obtain ⟨hwfA, hwfS, hwfL⟩ := hwf
  have hvlen := isAlive_index_lt w e halive
  have hei : e.index < w.entityRecords.length := by
    rw [hwfL]
    exact hvlen
  obtain ⟨holdAi, holdCi, hsRaw, hback⟩ :=
    hwfS.2.1 e.index hei oldAi oldCi hre
  have hrecfull : w.entityRecords.getD e.index default
      = { arch := some (oldAi, oldCi), indexInChunk :=
          (w.entityRecords.getD e.index default).indexInChunk } := by
    rw [← hre]
  have hno : w.hasComponent tidC e = false := by
    unfold World.hasComponent
    rw [if_neg (by rw [halive]; simp), if_neg (by omega)]
    rw [hrecfull]
    dsimp only
    rw [hsig]
    simpa using (show tidC ∉ [tidA, tidB] by simp [hCA, hCB])
  have hcap2 : 1 ≤ chunkCapacity (regRegister w.registry tidC sC)
      (sigAdd tidC (w.archetypes.getD oldAi default).signature) := by
    rw [hsig]
    exact hcap
  obtain ⟨GI, nCi, k, a1, a2, a3, a4, a5, a6, a7, a8, a9, a10, a11, a12,
    a13, a14, a15, a16, a17⟩ :=
    add_spec_some w e tidC sC cv oldAi oldCi
      ((w.entityRecords.getD e.index default).indexInChunk)
      ⟨hwfA, hwfS, hwfL⟩ halive hrecfull hno hcap2
  set W' := (w.add tidC sC cv e).1 with hWp
  have hABnodup : ([tidA, tidB] : List Nat).Nodup := by
    rw [← hsig]
    exact (hwfA oldAi holdAi).2.1
  have hScont : ([tidA, tidB] : List Nat).contains tidC = false := by
    simpa using (show tidC ∉ [tidA, tidB] by simp [hCA, hCB])
  have hSnodup : (sigAdd tidC [tidA, tidB]).Nodup :=
    nodup_sigAdd tidC [tidA, tidB] hABnodup
  have hSlen3 : (sigAdd tidC [tidA, tidB]).length = 3 := by
    rw [length_sigAdd tidC _ hScont]
    rfl
  have htCS : tidC ∈ sigAdd tidC [tidA, tidB] :=
    (mem_sigAdd tidC tidC _).mpr (Or.inl rfl)
  have hA_S : tidA ∈ sigAdd tidC [tidA, tidB] :=
    (mem_sigAdd tidC tidA _).mpr (Or.inr (by simp))
  have hB_S : tidB ∈ sigAdd tidC [tidA, tidB] :=
    (mem_sigAdd tidC tidB _).mpr (Or.inr (by simp))
  have hregSp : ∀ t ∈ sigAdd tidC [tidA, tidB],
      (regFind (regRegister w.registry tidC sC) t).isSome = true := by
    intro t ht
    rcases (mem_sigAdd tidC t _).mp ht with heq | hmem
    · rw [heq]
      exact regFind_regRegister_self w.registry tidC sC
    · have hmem2 : t ∈ (w.archetypes.getD oldAi default).signature := by
        rw [hsig]
        exact hmem
      have hr := (hwfA oldAi holdAi).1 t hmem2
      rw [regFind_regRegister_preserve w.registry tidC sC t hr]
      exact hr
  have hS2sub : ∀ t, t ∈ sigRemove tidC (sigAdd tidC [tidA, tidB]) →
      t ∈ sigAdd tidC [tidA, tidB] :=
    fun t ht => List.mem_of_mem_erase ht
  have hS2nodup : (sigRemove tidC (sigAdd tidC [tidA, tidB])).Nodup :=
    hSnodup.erase tidC
  have hS2len : (sigRemove tidC (sigAdd tidC [tidA, tidB])).length = 2 := by
    show ((sigAdd tidC [tidA, tidB]).erase tidC).length = 2
    rw [List.length_erase_of_mem htCS, hSlen3]
  have hA2 : tidA ∈ sigRemove tidC (sigAdd tidC [tidA, tidB]) :=
    (List.mem_erase_of_ne (fun hh => hCA hh.symm)).mpr hA_S
  have hB2 : tidB ∈ sigRemove tidC (sigAdd tidC [tidA, tidB]) :=
    (List.mem_erase_of_ne (fun hh => hCB hh.symm)).mpr hB_S
  have hcapS2 : 1 ≤ chunkCapacity (regRegister w.registry tidC sC)
      (sigRemove tidC (sigAdd tidC [tidA, tidB])) :=
    le_trans hcap (chunkCapacity_le_of_sublist _ _ _
      (List.erase_sublist _ _) hregSp)
  have halive' : W'.isAlive e = true :=
    (isAlive_frame W' w e a5 a6).trans halive
  have hlen' : e.index < W'.entityRecords.length := by
    rw [a3]
    exact hei
  have hS8 : (W'.archetypes.getD GI default).signature
      = sigAdd tidC [tidA, tidB] := by
    rw [a8, hsig]
  have hhc : W'.hasComponent tidC e = true := by
    unfold World.hasComponent
    rw [if_neg (by rw [halive']; simp), if_neg (by omega)]
    rw [a2]
    dsimp only
    rw [hS8]
    simpa using htCS
  have hrem : W'.remove tidC e
      = ((W'.getOrCreateArchetype (sigRemove tidC (sigAdd tidC
          [tidA, tidB]))).1.moveEntity e
        (W'.getOrCreateArchetype (sigRemove tidC (sigAdd tidC
          [tidA, tidB]))).2, none) := by
    unfold World.remove
    rw [if_neg (by rw [halive']; simp), if_neg (by rw [hhc]; simp)]
    rw [a2]
    dsimp only
    rw [hS8]
  rw [hrem]
  obtain ⟨g1, g2, g3, g4, g5, g6, g7, g8, g9, g10, g11, g12⟩ :=
    getOrCreateArchetype_facts W'
      (sigRemove tidC (sigAdd tidC [tidA, tidB]))
  set WG2 := (W'.getOrCreateArchetype
    (sigRemove tidC (sigAdd tidC [tidA, tidB]))).1 with hWG2
  set GI2 := (W'.getOrCreateArchetype
    (sigRemove tidC (sigAdd tidC [tidA, tidB]))).2 with hGI2
  have hsgGI2 : (WG2.archetypes.getD GI2 default).signature
      = sigRemove tidC (sigAdd tidC [tidA, tidB]) := g9
  have hsgGIin2 : (WG2.archetypes.getD GI default).signature
      = sigAdd tidC [tidA, tidB] := by
    rw [g11 GI a7]
    exact hS8
  have hneq2 : GI ≠ GI2 := by
    intro hhe
    rw [← hhe, hsgGIin2] at hsgGI2
    have hlen := congrArg List.length hsgGI2
    rw [hSlen3, hS2len] at hlen
    omega
  have hrecWG2 : WG2.entityRecords.getD e.index default
      = { arch := some (GI, nCi), indexInChunk := k } := by
    rw [g7]
    exact a2
  have heIdxWG2 : e.index < WG2.entityRecords.length := by
    rw [g7]
    exact hlen'
  have hGIinWG2 : GI < WG2.archetypes.length := by
    have := a7
    omega
  have hnCiWG2 : nCi < (WG2.archetypes.getD GI default).chunks.length := by
    rw [g11 GI a7]
    exact a9
  have hwfAllWG2 : ∀ j, j < WG2.archetypes.length → ∀ cj,
      cj < (WG2.archetypes.getD j default).chunks.length →
      ChunkWF WG2.registry (WG2.archetypes.getD j default).signature
        ((WG2.archetypes.getD j default).chunks.getD cj default) := by
    intro j hj cj hcj
    by_cases hjl : j < W'.archetypes.length
    · rw [g11 j hjl] at hcj ⊢
      rw [g1, a4]
      exact a15 j hjl cj hcj
    · rw [g12 j (by omega) hj] at hcj
      exact absurd hcj (by simp)
  have hregWG2 : ∀ t ∈ (WG2.archetypes.getD GI2 default).signature,
      (regFind WG2.registry t).isSome = true := by
    rw [hsgGI2, g1, a4]
    exact fun t ht => hregSp t (hS2sub t ht)
  have hcapWG2 : 1 ≤ chunkCapacity WG2.registry
      (WG2.archetypes.getD GI2 default).signature := by
    rw [hsgGI2, g1, a4]
    exact hcapS2
  have hsWG2 : k < ((WG2.archetypes.getD GI default).chunks.getD nCi
      default).count := by
    rw [g11 GI a7]
    exact a11
  have hOnlyWG2 : ∀ j cj t, j < WG2.archetypes.length →
      cj < (WG2.archetypes.getD j default).chunks.length →
      t < ((WG2.archetypes.getD j default).chunks.getD cj default).count →
      ((WG2.archetypes.getD j default).chunks.getD cj
        default).entityIndices.getD t 0 = e.index →
      j = GI ∧ cj = nCi ∧ t = k := by
    intro j cj t hj hcj ht hval
    by_cases hjl : j < W'.archetypes.length
    · rw [g11 j hjl] at hcj ht hval
      exact a16 j cj t hjl hcj ht hval
    · rw [g12 j (by omega) hj] at ht
      dsimp only at ht
      have hz : (([] : List Chunk).getD cj default).count = 0 := rfl
      rw [hz] at ht
      omega
  obtain ⟨nCi2, k2, d1, d2, d3, d4, d5, d6, d7, d8, d9, d10, d11, d12, d13,
    d14, d15, d16, d17, d18⟩ :=
    moveEntity_spec_some WG2 e GI2 GI nCi k hrecWG2 heIdxWG2 g8 hGIinWG2
      hnCiWG2 hneq2 hwfAllWG2 hregWG2 hcapWG2 hsWG2 hOnlyWG2
  set F := WG2.moveEntity e GI2 with hF
  have hvF : F.versions = w.versions := by rw [d4, g2, a5]
  have haF : F.alive = w.alive := by rw [d5, g3, a6]
  have haliveF : F.isAlive e = true :=
    (isAlive_frame F w e hvF haF).trans halive
  have hlenF : e.index < F.entityRecords.length := by
    rw [d2, g7]
    exact hlen'
  have hs0 : (w.entityRecords.getD e.index default).indexInChunk
      < ((w.archetypes.getD oldAi default).chunks.getD oldCi
        default).count := hsRaw
  have hmemWA : tidA ∈ ((w.archetypes.getD oldAi default).chunks.getD oldCi
      default).columns.map Column.typeID := by
    rw [((hwfA oldAi holdAi).2.2 oldCi holdCi).1, hsig]
    simp
  have hmemWB : tidB ∈ ((w.archetypes.getD oldAi default).chunks.getD oldCi
      default).columns.map Column.typeID := by
    rw [((hwfA oldAi holdAi).2.2 oldCi holdCi).1, hsig]
    simp
  have hgWA := getComponent_spec w tidA e oldAi oldCi
    ((w.entityRecords.getD e.index default).indexInChunk) halive hei
    hrecfull hmemWA hs0
  have hgWB := getComponent_spec w tidB e oldAi oldCi
    ((w.entityRecords.getD e.index default).indexInChunk) halive hei
    hrecfull hmemWB hs0
  have hoch : (WG2.archetypes.getD GI default).chunks.getD nCi default
      = (W'.archetypes.getD GI default).chunks.getD nCi default := by
    rw [g11 GI a7]
  have hchainA : colVal (((F.archetypes.getD GI2 default).chunks.getD nCi2
      default)) tidA k2
      = colVal ((w.archetypes.getD oldAi default).chunks.getD oldCi
        default) tidA
        ((w.entityRecords.getD e.index default).indexInChunk) := by
    have h1 := d16 tidA (by rw [hsgGIin2]; exact hA_S)
      (by rw [hsgGI2]; exact hA2)
    rw [h1, hoch]
    exact a13 tidA (by rw [hsig]; simp) (fun hh => hCA hh.symm)
  have hchainB : colVal (((F.archetypes.getD GI2 default).chunks.getD nCi2
      default)) tidB k2
      = colVal ((w.archetypes.getD oldAi default).chunks.getD oldCi
        default) tidB
        ((w.entityRecords.getD e.index default).indexInChunk) := by
    have h1 := d16 tidB (by rw [hsgGIin2]; exact hB_S)
      (by rw [hsgGI2]; exact hB2)
    rw [h1, hoch]
    exact a13 tidB (by rw [hsig]; simp) (fun hh => hCB hh.symm)
  have hgFA := getComponent_spec F tidA e GI2 nCi2 k2 haliveF hlenF d1
    (by rw [d13.1, hsgGI2]; exact hA2) d14
  have hgFB := getComponent_spec F tidB e GI2 nCi2 k2 haliveF hlenF d1
    (by rw [d13.1, hsgGI2]; exact hB2) d14
  refine ⟨a1, rfl, ?_, ?_⟩
  · rw [hgFA, hgWA]
    exact congrArg Except.ok hchainA
  · rw [hgFB, hgWB]
    exact congrArg Except.ok hchainB

/-- Closed instance of the C4 theorem: the entity holding components 1 and
2 (values 111 and 222) gets component 3 added and removed, and components 1
and 2 read back unchanged. -/
theorem C4_migration_roundtrip_witness :
    (c4Step3.1.add 3 16000 333 c4Step1.2).2 = none ∧
    ((c4Step3.1.add 3 16000 333 c4Step1.2).1.remove 3 c4Step1.2).2
      = none ∧
    ((c4Step3.1.add 3 16000 333 c4Step1.2).1.remove 3
      c4Step1.2).1.getComponent 1 c4Step1.2
      = c4Step3.1.getComponent 1 c4Step1.2 ∧
    ((c4Step3.1.add 3 16000 333 c4Step1.2).1.remove 3
      c4Step1.2).1.getComponent 2 c4Step1.2
      = c4Step3.1.getComponent 2 c4Step1.2 := by
  have hwf : WorldWF c4Step3.1 := by
    refine ⟨by unfold ChunkWF; decide, ⟨by decide, ?_, by decide⟩,
      by decide⟩
    intro eIdx hlen ai ci harch
    have hlen2 : c4Step3.1.entityRecords.length = 1 := rfl
    rw [hlen2] at hlen
    interval_cases eIdx
    have h2 : (some ((1 : Nat), (0 : Nat)) : Option (Nat × Nat))
        = some (ai, ci) := harch
    injection h2 with h3
    rw [Prod.mk.injEq] at h3
    obtain ⟨h4, h5⟩ := h3
    subst h4
    subst h5
    decide
  exact C4_migration_roundtrip c4Step3.1 c4Step1.2 1 2 3 16000 333 1 0 hwf
    (by decide) (by decide) (by decide) (by decide) (by decide) (by decide)

end AthiVegam
